import Mathlib

/-!
Verification model of `premitiveAnimation/Source1.cpp` (DirectX premitive
animation sequencer).

Modelling conventions:
* C `float`/`double` values are modelled as exact rationals (`ℚ`).  The claims
  under study are control-flow and state-machine properties that do not hinge
  on rounding of individual arithmetic operations.
* `D3DX_PI` is the float constant `3.141592654f`; it is modelled by the rational
  literal `3.141592654`.  Likewise `sqrtf(2)`/`sqrtf(3)` become fixed rational
  constants; their exact values are irrelevant to every claim (they only scale
  the diagonal velocities).
* The C library `cos`/`sin` used by the twelfth actor are external: the model is
  parameterised by functions `cosQ sinQ : ℚ → ℚ`.  All general theorems hold for
  every choice of `cosQ`/`sinQ`; concrete runs instantiate them.
* `timeGetTime()` returns milliseconds.  `Render()` calls it at MANY call
  sites.  The frame function `renderFrameM` therefore takes a read stream
  `c : ℕ → ℚ` and threads a read counter through the call sites in source
  order; `renderStep` is the frame with all reads returning one value `now`.
* A C cast `(int)x` truncates toward zero: `ratTrunc`.
* The global arrays `squarePos[1000][3]` and `compFlag[12]` are lists of fixed
  length with the cursor `index : ℕ`; `bool` globals are `Bool`, and the float
  globals keep their source names as structure fields.
-/

namespace PremitiveAnimation

/-- `D3DX_PI` (`3.141592654f` in d3dx9math.h), as a rational. -/
def D3DX_PI : ℚ := 3.141592654

/-- The float value of `sqrtf(2)`, as a rational (exact value irrelevant). -/
def sqrt2f : ℚ := 1.41421356

/-- The float value of `sqrtf(3)`, as a rational (exact value irrelevant). -/
def sqrt3f : ℚ := 1.7320508

/-- C cast `(int)` of a floating value: truncation toward zero. -/
def ratTrunc (q : ℚ) : ℤ := if 0 ≤ q then ⌊q⌋ else ⌈q⌉

/-- `indexMax = 1000`, the trail capacity (Source1.cpp line 315). -/
def indexMax : ℕ := 1000

/-- The mutable globals of Source1.cpp lines 288-320 that make up the
sequencer state.  Field names are the C global names. -/
structure SeqState where
  I1 : ℚ
  I2 : ℚ
  I3 : ℚ
  K1 : ℚ
  k2X : ℚ
  k3X : ℚ
  k2Y : ℚ
  k3Y : ℚ
  e1 : ℚ
  e234 : ℚ
  p1 : ℚ
  p2 : ℚ
  i1_r : ℚ
  i2_r : ℚ
  i3_r : ℚ
  k1_r : ℚ
  k2_r : ℚ
  k3_r : ℚ
  e1_r : ℚ
  e2_r : ℚ
  e3_r : ℚ
  e4_r : ℚ
  p1_r : ℚ
  p2_r : ℚ
  pretime : ℚ
  squarePos : List (ℚ × ℚ × ℚ)
  index : ℕ
  compFlag : List Bool
  endTime : ℚ
  endGet : Bool
deriving DecidableEq

/-- State at entry of the first `Render()` call: C global initialisers plus
`pretime = timeGetTime()` set in `wWinMain` (line 711). -/
def initState (t0 : ℚ) : SeqState where
  I1 := -3
  I2 := 1.5
  I3 := -3
  K1 := 1.5
  k2X := -1.3
  k3X := -1.1
  k2Y := 0
  k3Y := 0.2
  e1 := 1.5
  e234 := 0.5
  p1 := 1.5
  p2 := D3DX_PI / 2
  i1_r := 0
  i2_r := 0
  i3_r := 0
  k1_r := 0
  k2_r := 0
  k3_r := 0
  e1_r := 0
  e2_r := 0
  e3_r := 0
  e4_r := 0
  p1_r := 0
  p2_r := 0
  pretime := t0
  squarePos := List.replicate 1000 (0, 0, 0)
  index := 0
  compFlag := List.replicate 12 false
  endTime := 0
  endGet := false

/-- `compFlag[i]` (reads out of range yield `false`; never happens on reachable
states, whose flag list has length 12). -/
def flagAt (s : SeqState) (i : ℕ) : Bool := s.compFlag.getD i false

/-- One issued `DrawPrimitive` call: a 4-vertex quad strip (static decoration
and trail squares, transform = rotZ `rot` then translate to `(x, y, 0)`) or an
18-vertex cuboid strip (a moving actor; `spin` is the time-driven rotation
angle, `tilt` the fixed extra Z-rotation used by diagonal actors). -/
inductive Draw
  | quad (x y rot : ℚ)
  | cuboid (x y spin tilt : ℚ)
deriving DecidableEq

/-- The trail-emission test shared by eleven of the twelve emission sites
(lines 409, 427, 445, 463, 484, 522, 539, 554, 570, 588, 607):
`abs((int)ref + (int)(t / 250.0)) >= D3DX_PI / 2`. -/
def emitTestP (r t : ℚ) : Prop :=
  ((|ratTrunc r + ratTrunc (t / 250)| : ℤ) : ℚ) ≥ D3DX_PI / 2

instance (r t : ℚ) : Decidable (emitTestP r t) := by
  unfold emitTestP; exact inferInstance

/-- The trail-emission test of the reversed-spin actor `k3` (line 504):
`abs((int)k3_r - (int)(t / 250.0)) >= D3DX_PI / 2`. -/
def emitTestM (r t : ℚ) : Prop :=
  ((|ratTrunc r - ratTrunc (t / 250)| : ℤ) : ℚ) ≥ D3DX_PI / 2

instance (r t : ℚ) : Decidable (emitTestM r t) := by
  unfold emitTestM; exact inferInstance

/-- Append a trail square: `squarePos[index] = entry; index++`
(always called under the guard `index < indexMax`). -/
def pushSquare (s : SeqState) (entry : ℚ × ℚ × ℚ) : SeqState :=
  {s with squarePos := s.squarePos.set s.index entry, index := s.index + 1}

/-!
The twelve actor blocks of `Render()` (lines 401-615).  Each block takes the
read stream `c` and the next read index `k` and returns
`(new state, draw calls, next read index)`.  Read sites appear in source
order: rotation matrix, integration delta(s), emission test, emission store.
The position stored in a trail entry is the already-integrated (current)
position, as in the source; the drawn position is the pre-integration one
(the translation matrix is built before the `+=`).
-/

/-- Actor 0 (lines 401-417): `I1` slides right along y = 1.5 while
`I1 <= -1.9`; else `compFlag[0]` is set once. -/
def i1Block (s : SeqState) (c : ℕ → ℚ) (k : ℕ) : SeqState × List Draw × ℕ :=
  if s.I1 ≤ -1.9 then
    if emitTestP s.i1_r (c (k + 2)) ∧ s.index < indexMax then
      ({pushSquare {s with I1 := s.I1 + 0.5 * (c (k + 1) - s.pretime) / 1000}
          (s.I1 + 0.5 * (c (k + 1) - s.pretime) / 1000, 1.5, 0) with
          i1_r := -(c (k + 3) / 250)},
       [Draw.cuboid s.I1 1.5 (-(c k / 250)) 0], k + 4)
    else
      ({s with I1 := s.I1 + 0.5 * (c (k + 1) - s.pretime) / 1000},
       [Draw.cuboid s.I1 1.5 (-(c k / 250)) 0], k + 3)
  else if ¬ s.compFlag.getD 0 false then
    ({s with compFlag := s.compFlag.set 0 true}, [], k)
  else (s, [], k)

/-- Actor 1 (lines 419-435): `I2` slides down along x = -2.5 while
`I2 >= -1.5`. -/
def i2Block (s : SeqState) (c : ℕ → ℚ) (k : ℕ) : SeqState × List Draw × ℕ :=
  if s.I2 ≥ -1.5 then
    if emitTestP s.i2_r (c (k + 2)) ∧ s.index < indexMax then
      ({pushSquare {s with I2 := s.I2 - 0.5 * (c (k + 1) - s.pretime) / 1000}
          (-2.5, s.I2 - 0.5 * (c (k + 1) - s.pretime) / 1000, 0) with
          i2_r := -(c (k + 3) / 250)},
       [Draw.cuboid (-2.5) s.I2 (-(c k / 250)) 0], k + 4)
    else
      ({s with I2 := s.I2 - 0.5 * (c (k + 1) - s.pretime) / 1000},
       [Draw.cuboid (-2.5) s.I2 (-(c k / 250)) 0], k + 3)
  else if ¬ s.compFlag.getD 1 false then
    ({s with compFlag := s.compFlag.set 1 true}, [], k)
  else (s, [], k)

/-- Actor 2 (lines 437-453): `I3` slides right along y = -1.5 while
`I3 <= -1.9`. -/
def i3Block (s : SeqState) (c : ℕ → ℚ) (k : ℕ) : SeqState × List Draw × ℕ :=
  if s.I3 ≤ -1.9 then
    if emitTestP s.i3_r (c (k + 2)) ∧ s.index < indexMax then
      ({pushSquare {s with I3 := s.I3 + 0.5 * (c (k + 1) - s.pretime) / 1000}
          (s.I3 + 0.5 * (c (k + 1) - s.pretime) / 1000, -1.5, 0) with
          i3_r := -(c (k + 3) / 250)},
       [Draw.cuboid s.I3 (-1.5) (-(c k / 250)) 0], k + 4)
    else
      ({s with I3 := s.I3 + 0.5 * (c (k + 1) - s.pretime) / 1000},
       [Draw.cuboid s.I3 (-1.5) (-(c k / 250)) 0], k + 3)
  else if ¬ s.compFlag.getD 2 false then
    ({s with compFlag := s.compFlag.set 2 true}, [], k)
  else (s, [], k)

/-- Actor 3 (lines 455-471): `K1` slides down along x = -1.3 while
`K1 >= -1.7`. -/
def k1Block (s : SeqState) (c : ℕ → ℚ) (k : ℕ) : SeqState × List Draw × ℕ :=
  if s.K1 ≥ -1.7 then
    if emitTestP s.k1_r (c (k + 2)) ∧ s.index < indexMax then
      ({pushSquare {s with K1 := s.K1 - 0.5 * (c (k + 1) - s.pretime) / 1000}
          (-1.3, s.K1 - 0.5 * (c (k + 1) - s.pretime) / 1000, 0) with
          k1_r := -(c (k + 3) / 250)},
       [Draw.cuboid (-1.3) s.K1 (-(c k / 250)) 0], k + 4)
    else
      ({s with K1 := s.K1 - 0.5 * (c (k + 1) - s.pretime) / 1000},
       [Draw.cuboid (-1.3) s.K1 (-(c k / 250)) 0], k + 3)
  else if ¬ s.compFlag.getD 3 false then
    ({s with compFlag := s.compFlag.set 3 true}, [], k)
  else (s, [], k)

/-- Actor 4 (lines 474-492): `(k2X, k2Y)` moves diagonally (45 degree tilt)
while `k2X <= 0`; `k2Y` is integrated before `k2X`, each with its own clock
read. -/
def k2Block (s : SeqState) (c : ℕ → ℚ) (k : ℕ) : SeqState × List Draw × ℕ :=
  if s.k2X ≤ 0 then
    if emitTestP s.k2_r (c (k + 3)) ∧ s.index < indexMax then
      ({pushSquare {s with
            k2Y := s.k2Y + 0.5 * (c (k + 1) - s.pretime) / (sqrt2f * 1000),
            k2X := s.k2X + 0.5 * (c (k + 2) - s.pretime) / (sqrt2f * 1000)}
          (s.k2X + 0.5 * (c (k + 2) - s.pretime) / (sqrt2f * 1000),
           s.k2Y + 0.5 * (c (k + 1) - s.pretime) / (sqrt2f * 1000),
           D3DX_PI / 4) with
          k2_r := -(c (k + 4) / 250)},
       [Draw.cuboid s.k2X s.k2Y (-(c k / 250)) (D3DX_PI / 4)], k + 5)
    else
      ({s with
          k2Y := s.k2Y + 0.5 * (c (k + 1) - s.pretime) / (sqrt2f * 1000),
          k2X := s.k2X + 0.5 * (c (k + 2) - s.pretime) / (sqrt2f * 1000)},
       [Draw.cuboid s.k2X s.k2Y (-(c k / 250)) (D3DX_PI / 4)], k + 4)
  else if ¬ s.compFlag.getD 4 false then
    ({s with compFlag := s.compFlag.set 4 true}, [], k)
  else (s, [], k)

/-- Actor 5 (lines 494-512): `(k3X, k3Y)` moves diagonally (-60 degree tilt)
while `k3X <= 0`; its spin sign and emission test are reversed and its stored
phase reference is `+ now / 250`. -/
def k3Block (s : SeqState) (c : ℕ → ℚ) (k : ℕ) : SeqState × List Draw × ℕ :=
  if s.k3X ≤ 0 then
    if emitTestM s.k3_r (c (k + 3)) ∧ s.index < indexMax then
      ({pushSquare {s with
            k3Y := s.k3Y - sqrt3f * 0.5 * (c (k + 1) - s.pretime) / 2000,
            k3X := s.k3X + 0.5 * (c (k + 2) - s.pretime) / 2000}
          (s.k3X + 0.5 * (c (k + 2) - s.pretime) / 2000,
           s.k3Y - sqrt3f * 0.5 * (c (k + 1) - s.pretime) / 2000,
           -(D3DX_PI / 3)) with
          k3_r := c (k + 4) / 250},
       [Draw.cuboid s.k3X s.k3Y (c k / 250) (-(D3DX_PI / 3))], k + 5)
    else
      ({s with
          k3Y := s.k3Y - sqrt3f * 0.5 * (c (k + 1) - s.pretime) / 2000,
          k3X := s.k3X + 0.5 * (c (k + 2) - s.pretime) / 2000},
       [Draw.cuboid s.k3X s.k3Y (c k / 250) (-(D3DX_PI / 3))], k + 4)
  else if ¬ s.compFlag.getD 5 false then
    ({s with compFlag := s.compFlag.set 5 true}, [], k)
  else (s, [], k)

/-- Actor 6 (lines 514-530): `e1` slides down along x = 0.5 while
`e1 >= -1.5`. -/
def e1Block (s : SeqState) (c : ℕ → ℚ) (k : ℕ) : SeqState × List Draw × ℕ :=
  if s.e1 ≥ -1.5 then
    if emitTestP s.e1_r (c (k + 2)) ∧ s.index < indexMax then
      ({pushSquare {s with e1 := s.e1 - 0.5 * (c (k + 1) - s.pretime) / 1000}
          (0.5, s.e1 - 0.5 * (c (k + 1) - s.pretime) / 1000, 0) with
          e1_r := -(c (k + 3) / 250)},
       [Draw.cuboid 0.5 s.e1 (-(c k / 250)) 0], k + 4)
    else
      ({s with e1 := s.e1 - 0.5 * (c (k + 1) - s.pretime) / 1000},
       [Draw.cuboid 0.5 s.e1 (-(c k / 250)) 0], k + 3)
  else if ¬ s.compFlag.getD 6 false then
    ({s with compFlag := s.compFlag.set 6 true}, [], k)
  else (s, [], k)

/-- First `e234` sub-square (lines 539-545, y = 1.5, reference `e2_r`):
emission only; returns the new state and the number of reads it consumed. -/
def eSubA (s : SeqState) (chk sto : ℚ) : SeqState × ℕ :=
  if emitTestP s.e2_r chk ∧ s.index < indexMax then
    ({pushSquare s (s.e234, 1.5, 0) with e2_r := -(sto / 250)}, 2)
  else (s, 1)

/-- Second `e234` sub-square (lines 554-560, y = 0, reference `e3_r`). -/
def eSubB (s : SeqState) (chk sto : ℚ) : SeqState × ℕ :=
  if emitTestP s.e3_r chk ∧ s.index < indexMax then
    ({pushSquare s (s.e234, 0, 0) with e3_r := -(sto / 250)}, 2)
  else (s, 1)

/-- Third `e234` sub-square (lines 563-576, y = -1.5, reference `e4_r`):
`e234` is integrated here (line 565), and the trail entry stores the updated
`e234`. -/
def eSubC (s : SeqState) (tInt chk sto : ℚ) : SeqState × ℕ :=
  if emitTestP s.e4_r chk ∧ s.index < indexMax then
    ({pushSquare {s with e234 := s.e234 + 0.5 * (tInt - s.pretime) / 1000}
        (s.e234 + 0.5 * (tInt - s.pretime) / 1000, -1.5, 0) with
        e4_r := -(sto / 250)}, 3)
  else ({s with e234 := s.e234 + 0.5 * (tInt - s.pretime) / 1000}, 2)

/-- Actors 7, 8, 9 (lines 532-578): a single scalar `e234` drives three
cuboids at y = 1.5, 0, -1.5 while `e234 <= 1.8`; the else-branch sets
`compFlag[7..9]` unconditionally on every frame. -/
def eBlock (s : SeqState) (c : ℕ → ℚ) (k : ℕ) : SeqState × List Draw × ℕ :=
  if s.e234 ≤ 1.8 then
    let rA := eSubA s (c (k + 1)) (c (k + 2))
    let kA := k + 1 + rA.2
    let rB := eSubB rA.1 (c (kA + 1)) (c (kA + 2))
    let kB := kA + 1 + rB.2
    let rC := eSubC rB.1 (c (kB + 1)) (c (kB + 2)) (c (kB + 3))
    (rC.1,
     [Draw.cuboid s.e234 1.5 (-(c k / 250)) 0,
      Draw.cuboid rA.1.e234 0 (-(c kA / 250)) 0,
      Draw.cuboid rB.1.e234 (-1.5) (-(c kB / 250)) 0],
     kB + 1 + rC.2)
  else
    ({s with compFlag := ((s.compFlag.set 7 true).set 8 true).set 9 true},
     [], k)

/-- Actor 10 (lines 580-596): `p1` slides down along x = 2.3 while
`p1 >= -1.7`. -/
def p1Block (s : SeqState) (c : ℕ → ℚ) (k : ℕ) : SeqState × List Draw × ℕ :=
  if s.p1 ≥ -1.7 then
    if emitTestP s.p1_r (c (k + 2)) ∧ s.index < indexMax then
      ({pushSquare {s with p1 := s.p1 - 0.5 * (c (k + 1) - s.pretime) / 1000}
          (2.3, s.p1 - 0.5 * (c (k + 1) - s.pretime) / 1000, 0) with
          p1_r := -(c (k + 3) / 250)},
       [Draw.cuboid 2.3 s.p1 (-(c k / 250)) 0], k + 4)
    else
      ({s with p1 := s.p1 - 0.5 * (c (k + 1) - s.pretime) / 1000},
       [Draw.cuboid 2.3 s.p1 (-(c k / 250)) 0], k + 3)
  else if ¬ s.compFlag.getD 10 false then
    ({s with compFlag := s.compFlag.set 10 true}, [], k)
  else (s, [], k)

variable (cosQ sinQ : ℚ → ℚ)

/-- Actor 11 (lines 598-615): the phase `p2` decreases while
`cos(p2) >= -0.01`; the rendered position is on a circle about (2.3, 0.75),
and the trail entry stores the post-update position and tilt. -/
def p2Block (s : SeqState) (c : ℕ → ℚ) (k : ℕ) : SeqState × List Draw × ℕ :=
  if cosQ s.p2 ≥ -0.01 then
    if emitTestP s.p2_r (c (k + 2)) ∧ s.index < indexMax then
      ({pushSquare {s with p2 := s.p2 - 0.5 * (c (k + 1) - s.pretime) / 1000}
          (0.85 * cosQ (s.p2 - 0.5 * (c (k + 1) - s.pretime) / 1000) + 2.3,
           0.85 * sinQ (s.p2 - 0.5 * (c (k + 1) - s.pretime) / 1000) + 0.75,
           s.p2 - 0.5 * (c (k + 1) - s.pretime) / 1000) with
          p2_r := -(c (k + 3) / 250)},
       [Draw.cuboid (0.85 * cosQ s.p2 + 2.3) (0.85 * sinQ s.p2 + 0.75)
          (-(c k / 250)) s.p2], k + 4)
    else
      ({s with p2 := s.p2 - 0.5 * (c (k + 1) - s.pretime) / 1000},
       [Draw.cuboid (0.85 * cosQ s.p2 + 2.3) (0.85 * sinQ s.p2 + 0.75)
          (-(c k / 250)) s.p2], k + 3)
  else if ¬ s.compFlag.getD 11 false then
    ({s with compFlag := s.compFlag.set 11 true}, [], k)
  else (s, [], k)

/-- The completion count loop (lines 620-624): scan `compFlag[0..11]` in order,
break at the first `false`. -/
def countComplete (flags : List Bool) : ℕ :=
  (flags.takeWhile (fun b => b)).length

/-- The RESET body (lines 630-663): all positions and phase references back to
their initial constants, flags cleared, the trail array explicitly zeroed and
the cursor reset, hold latch cleared.  `endTime` and `pretime` are NOT touched
by the source reset. -/
def resetS (s : SeqState) : SeqState :=
  {s with I1 := -3, I2 := 1.5, I3 := -3, K1 := 1.5, k2X := -1.3, k3X := -1.1,
          k2Y := 0, k3Y := 0.2, e1 := 1.5, e234 := 0.5, p1 := 1.5,
          p2 := D3DX_PI / 2,
          i1_r := 0, i2_r := 0, i3_r := 0, k1_r := 0, k2_r := 0, k3_r := 0,
          e1_r := 0, e2_r := 0, e3_r := 0, e4_r := 0, p1_r := 0, p2_r := 0,
          compFlag := List.replicate 12 false,
          squarePos := List.replicate 1000 (0, 0, 0),
          index := 0, endGet := false}

/-- The completion gate and reset controller (lines 620-665).  When all twelve
flags are set: latch `endTime` on the first such frame (one clock read), then
reset if the comparison read exceeds the latched time by more than 5000 ms. -/
def gatePhase (s : SeqState) (c : ℕ → ℚ) (k : ℕ) : SeqState :=
  if 12 ≤ countComplete s.compFlag then
    if s.endGet then
      if 1000 * 5 < c k - s.endTime then resetS s else s
    else
      if 1000 * 5 < c (k + 1) - c k then
        resetS {s with endTime := c k, endGet := true}
      else {s with endTime := c k, endGet := true}
  else s

/-- The five static decoration quads (lines 345-383; the other placements in
the source are commented out). -/
def staticDraws : List Draw :=
  [Draw.quad (-3) 1.5 0, Draw.quad (-3) (-1.5) 0, Draw.quad (-1.3) 1.5 0,
   Draw.quad 0.5 1.5 0, Draw.quad 2.3 1.5 0]

/-- The trail replay loop (lines 385-391): one quad per recorded entry, in
insertion order. -/
def trailDraws (s : SeqState) : List Draw :=
  (s.squarePos.take s.index).map fun e => Draw.quad e.1 e.2.1 e.2.2

/-- The common type of the actor blocks: state, read stream and next read
index in; state, draws and next read index out. -/
def BlockFn : Type :=
  SeqState → (ℕ → ℚ) → ℕ → SeqState × List Draw × ℕ

/-- Run a list of blocks left to right, threading state and read counter and
concatenating draws in order. -/
def runBlocks (bs : List BlockFn) (s : SeqState) (c : ℕ → ℚ) (k : ℕ) :
    SeqState × List Draw × ℕ :=
  match bs with
  | [] => (s, [], k)
  | b :: rest =>
    let r := b s c k
    let r' := runBlocks rest r.1 c r.2.2
    (r'.1, r.2.1 ++ r'.2.1, r'.2.2)

/-- The actor blocks after the first, in source order. -/
def restBlocks : List BlockFn :=
  [i2Block, i3Block, k1Block, k2Block, k3Block, e1Block, eBlock,
   p1Block, p2Block cosQ sinQ]

/-- The actor blocks in source order (lines 401-615). -/
def blocks : List BlockFn :=
  i1Block :: restBlocks cosQ sinQ

/-- The twelve actor blocks in source order, threading state, draw list and
read counter. -/
def actorsPhase (s : SeqState) (c : ℕ → ℚ) (k : ℕ) :
    SeqState × List Draw × ℕ :=
  runBlocks (blocks cosQ sinQ) s c k

/-- One full `Render()` frame over a clock read stream `c`: draw the statics
and the recorded trail, run the twelve actor blocks, set
`pretime = timeGetTime()` (line 617, one more read), then run the gate.
Returns the new state and the issued draw calls in order. -/
def renderFrameM (s : SeqState) (c : ℕ → ℚ) : SeqState × List Draw :=
  let r := actorsPhase cosQ sinQ s c 0
  (gatePhase {r.1 with pretime := c r.2.2} c (r.2.2 + 1),
   staticDraws ++ trailDraws s ++ r.2.1)

/-- One frame in which every clock read returns the same value `now`. -/
def renderStep (s : SeqState) (now : ℚ) : SeqState :=
  (renderFrameM cosQ sinQ s (fun _ => now)).1

/-- A frame sequence at the given per-frame times (constant clock within each
frame). -/
def runFrames (s : SeqState) (ts : List ℚ) : SeqState :=
  ts.foldl (renderStep cosQ sinQ) s

/-- States reachable from startup by whole frames, with an arbitrary clock
read stream each frame. -/
inductive Reachable (cosQ sinQ : ℚ → ℚ) : SeqState → Prop
  | init (t0 : ℚ) : Reachable cosQ sinQ (initState t0)
  | step {s : SeqState} (h : Reachable cosQ sinQ s) (c : ℕ → ℚ) :
      Reachable cosQ sinQ (renderFrameM cosQ sinQ s c).1

/-- The world position of actor `i` as drawn (a function of the state; fixed
companion coordinates from the translation calls of the source). -/
def actorPos (s : SeqState) (i : Fin 12) : ℚ × ℚ :=
  if i.val = 0 then (s.I1, 1.5)
  else if i.val = 1 then (-2.5, s.I2)
  else if i.val = 2 then (s.I3, -1.5)
  else if i.val = 3 then (-1.3, s.K1)
  else if i.val = 4 then (s.k2X, s.k2Y)
  else if i.val = 5 then (s.k3X, s.k3Y)
  else if i.val = 6 then (0.5, s.e1)
  else if i.val = 7 then (s.e234, 1.5)
  else if i.val = 8 then (s.e234, 0)
  else if i.val = 9 then (s.e234, -1.5)
  else if i.val = 10 then (2.3, s.p1)
  else (0.85 * cosQ s.p2 + 2.3, 0.85 * sinQ s.p2 + 0.75)

/-- The trail phase-reference variable of actor `i`. -/
def actorRef (s : SeqState) (i : Fin 12) : ℚ :=
  if i.val = 0 then s.i1_r
  else if i.val = 1 then s.i2_r
  else if i.val = 2 then s.i3_r
  else if i.val = 3 then s.k1_r
  else if i.val = 4 then s.k2_r
  else if i.val = 5 then s.k3_r
  else if i.val = 6 then s.e1_r
  else if i.val = 7 then s.e2_r
  else if i.val = 8 then s.e3_r
  else if i.val = 9 then s.e4_r
  else if i.val = 10 then s.p1_r
  else s.p2_r

/-- The terminal (keep-moving) condition of actor `i`, decided on the current
state: the guard of the actor's if-block. -/
def termCond (s : SeqState) (i : Fin 12) : Bool :=
  if i.val = 0 then decide (s.I1 ≤ -1.9)
  else if i.val = 1 then decide (s.I2 ≥ -1.5)
  else if i.val = 2 then decide (s.I3 ≤ -1.9)
  else if i.val = 3 then decide (s.K1 ≥ -1.7)
  else if i.val = 4 then decide (s.k2X ≤ 0)
  else if i.val = 5 then decide (s.k3X ≤ 0)
  else if i.val = 6 then decide (s.e1 ≥ -1.5)
  else if i.val = 7 then decide (s.e234 ≤ 1.8)
  else if i.val = 8 then decide (s.e234 ≤ 1.8)
  else if i.val = 9 then decide (s.e234 ≤ 1.8)
  else if i.val = 10 then decide (s.p1 ≥ -1.7)
  else decide (cosQ s.p2 ≥ -0.01)

/-- Whether the gate, run on state `s` with every read returning `now`,
performs the RESET this frame. -/
def gateResets (s : SeqState) (now : ℚ) : Prop :=
  12 ≤ countComplete s.compFlag ∧
    1000 * 5 < now - (if s.endGet then s.endTime else now)

instance (s : SeqState) (now : ℚ) : Decidable (gateResets s now) := by
  unfold gateResets; exact inferInstance

/-!
### The window-procedure resize handler (MsgProc, lines 691-696)

`WM_SIZE` recomputes `g_aspect = width / height` unconditionally, where
`width = lParam & 0xFFFF` and `height = (lParam >> 16) & 0xFFFF`.  Since the
division is IEEE float division, the quotient for `height = 0` is an infinity
or NaN, which a rational cannot represent; the aspect value is therefore
modelled by `FloatVal`.
-/

/-- An IEEE single value as stored in `g_aspect`: finite, an infinity, or
NaN. -/
inductive FloatVal
  | fin (q : ℚ)
  | inf
  | negInf
  | nan
deriving DecidableEq

/-- IEEE float division for the operands that occur here (finite operands;
divisor possibly zero). -/
def floatDiv (a b : ℚ) : FloatVal :=
  if b = 0 then
    if a = 0 then FloatVal.nan
    else if 0 < a then FloatVal.inf
    else FloatVal.negInf
  else FloatVal.fin (a / b)

/-- `width = lParam & 0xFFFF` (line 693). -/
def widthOf (lParam : ℕ) : ℕ := lParam % 65536

/-- `height = (lParam >> 16) & 0xFFFF` (line 694). -/
def heightOf (lParam : ℕ) : ℕ := lParam / 65536 % 65536

/-- Effect of the `WM_SIZE` case on `g_aspect` (line 695): the stored aspect
is overwritten by `width / height`; the prior value is not consulted. -/
def wmSizeAspect (lParam : ℕ) (prior : FloatVal) : FloatVal :=
  floatDiv (widthOf lParam) (heightOf lParam)

/-- A concrete stand-in for the C library `cos` used to run the model on
explicit inputs (any function is acceptable: the general theorems are proved
for every `cosQ`). -/
def cosQ0 (q : ℚ) : ℚ := if q ≤ -1.58 then -1 else 1

/-- A concrete stand-in for the C library `sin` for explicit runs. -/
def sinQ0 (_ : ℚ) : ℚ := 0

/-- The inductive invariant of reachable sequencer states: a set flag means
the actor's terminal condition now fails; the trail cursor is within capacity;
the flag array keeps its length 12; actors 7, 8, 9 share one flag value; and
the hold latch implies all flags are set. -/
def Inv (s : SeqState) : Prop :=
  (flagAt s 0 = true → ¬ s.I1 ≤ -1.9) ∧
  (flagAt s 1 = true → ¬ s.I2 ≥ -1.5) ∧
  (flagAt s 2 = true → ¬ s.I3 ≤ -1.9) ∧
  (flagAt s 3 = true → ¬ s.K1 ≥ -1.7) ∧
  (flagAt s 4 = true → ¬ s.k2X ≤ 0) ∧
  (flagAt s 5 = true → ¬ s.k3X ≤ 0) ∧
  (flagAt s 6 = true → ¬ s.e1 ≥ -1.5) ∧
  (flagAt s 7 = true → ¬ s.e234 ≤ 1.8) ∧
  (flagAt s 8 = true → ¬ s.e234 ≤ 1.8) ∧
  (flagAt s 9 = true → ¬ s.e234 ≤ 1.8) ∧
  (flagAt s 10 = true → ¬ s.p1 ≥ -1.7) ∧
  (flagAt s 11 = true → ¬ cosQ s.p2 ≥ -0.01) ∧
  s.index ≤ indexMax ∧
  s.compFlag.length = 12 ∧
  flagAt s 7 = flagAt s 8 ∧ flagAt s 8 = flagAt s 9 ∧
  (s.endGet = true → ∀ i : Fin 12, flagAt s i = true)

/-!
Masks: `maskX s` erases exactly the fields a given actor block may write, so
`maskX (block s).1 = maskX s` states in one equation that the block touches
nothing else.
-/

/-- Erase the fields written by `i1Block`. -/
def maskI1 (s : SeqState) : SeqState :=
  {s with I1 := 0, i1_r := 0, squarePos := [], index := 0, compFlag := []}

/-- Erase the fields written by `i2Block`. -/
def maskI2 (s : SeqState) : SeqState :=
  {s with I2 := 0, i2_r := 0, squarePos := [], index := 0, compFlag := []}

/-- Erase the fields written by `i3Block`. -/
def maskI3 (s : SeqState) : SeqState :=
  {s with I3 := 0, i3_r := 0, squarePos := [], index := 0, compFlag := []}

/-- Erase the fields written by `k1Block`. -/
def maskK1 (s : SeqState) : SeqState :=
  {s with K1 := 0, k1_r := 0, squarePos := [], index := 0, compFlag := []}

/-- Erase the fields written by `k2Block`. -/
def maskK2 (s : SeqState) : SeqState :=
  {s with k2X := 0, k2Y := 0, k2_r := 0, squarePos := [], index := 0,
          compFlag := []}

/-- Erase the fields written by `k3Block`. -/
def maskK3 (s : SeqState) : SeqState :=
  {s with k3X := 0, k3Y := 0, k3_r := 0, squarePos := [], index := 0,
          compFlag := []}

/-- Erase the fields written by `e1Block`. -/
def maskE1 (s : SeqState) : SeqState :=
  {s with e1 := 0, e1_r := 0, squarePos := [], index := 0, compFlag := []}

/-- Erase the fields written by `eBlock`. -/
def maskE (s : SeqState) : SeqState :=
  {s with e234 := 0, e2_r := 0, e3_r := 0, e4_r := 0, squarePos := [],
          index := 0, compFlag := []}

/-- Erase the fields written by `p1Block`. -/
def maskP1 (s : SeqState) : SeqState :=
  {s with p1 := 0, p1_r := 0, squarePos := [], index := 0, compFlag := []}

/-- Erase the fields written by `p2Block`. -/
def maskP2 (s : SeqState) : SeqState :=
  {s with p2 := 0, p2_r := 0, squarePos := [], index := 0, compFlag := []}

/-!
Views: `viewX s` collects exactly the position variable(s) and phase
reference owned by one actor block, so freezing an actor is
`viewX s' = viewX s`.
-/

/-- Actor 0 data: `(I1, i1_r)`. -/
def viewI1 (s : SeqState) : ℚ × ℚ := (s.I1, s.i1_r)

/-- Actor 1 data: `(I2, i2_r)`. -/
def viewI2 (s : SeqState) : ℚ × ℚ := (s.I2, s.i2_r)

/-- Actor 2 data: `(I3, i3_r)`. -/
def viewI3 (s : SeqState) : ℚ × ℚ := (s.I3, s.i3_r)

/-- Actor 3 data: `(K1, k1_r)`. -/
def viewK1 (s : SeqState) : ℚ × ℚ := (s.K1, s.k1_r)

/-- Actor 4 data: `(k2X, k2Y, k2_r)`. -/
def viewK2 (s : SeqState) : ℚ × ℚ × ℚ := (s.k2X, s.k2Y, s.k2_r)

/-- Actor 5 data: `(k3X, k3Y, k3_r)`. -/
def viewK3 (s : SeqState) : ℚ × ℚ × ℚ := (s.k3X, s.k3Y, s.k3_r)

/-- Actor 6 data: `(e1, e1_r)`. -/
def viewE1 (s : SeqState) : ℚ × ℚ := (s.e1, s.e1_r)

/-- Actors 7-9 data: `(e234, e2_r, e3_r, e4_r)`. -/
def viewE (s : SeqState) : ℚ × ℚ × ℚ × ℚ := (s.e234, s.e2_r, s.e3_r, s.e4_r)

/-- Actor 10 data: `(p1, p1_r)`. -/
def viewP1 (s : SeqState) : ℚ × ℚ := (s.p1, s.p1_r)

/-- Actor 11 data: `(p2, p2_r)`. -/
def viewP2 (s : SeqState) : ℚ × ℚ := (s.p2, s.p2_r)

/-!
Concrete runs used as explicit inputs by witnesses and counterexamples.
`runT`: the claim-C4 scenario with 1100 ms frames.  `wi`: two frames after
which every flag is set and the hold is latched; a third frame past the
5-second hold completes a full RUNNING-HOLDING-RESET cycle. -/

/-- C4 scenario, frame at 1100 ms. -/
def runT1 : SeqState := renderStep cosQ0 sinQ0 (initState 0) 1100

/-- C4 scenario, frame at 2200 ms: `I1` reaches -1.9 exactly. -/
def runT2 : SeqState := renderStep cosQ0 sinQ0 runT1 2200

/-- C4 scenario, frame at 3300 ms: `I1` moves past -1.9. -/
def runT3 : SeqState := renderStep cosQ0 sinQ0 runT2 3300

/-- C4 scenario, frame at 3301 ms: `compFlag[0]` finally flips. -/
def runT4 : SeqState := renderStep cosQ0 sinQ0 runT3 3301

/-- Witness run, frame 1 (at t = 1000000 ms): every actor overshoots. -/
def wiA : SeqState := renderStep cosQ0 sinQ0 (initState 0) 1000000

/-- Witness run, frame 2: every `compFlag` becomes true. -/
def wiB : SeqState := renderStep cosQ0 sinQ0 wiA 1000001

/-- Is a draw call a 4-vertex quad strip? -/
def Draw.isQuad : Draw → Bool
  | Draw.quad _ _ _ => true
  | _ => false

/-- A holding-phase state: all flags set, hold latched at 1000 ms. -/
def holdState0 : SeqState :=
  {initState 0 with compFlag := List.replicate 12 true, endTime := 1000}

/-- The same holding-phase state with the latch set. -/
def holdState : SeqState := {holdState0 with endGet := true}

/-- A state whose trail is at capacity. -/
def fullState : SeqState := {initState 0 with index := 1000}

/-- A read stream that returns 0 on the first call and 1000000 ms on every
later call within the frame. -/
def clockJump : ℕ → ℚ := fun k => if k = 0 then 0 else 1000000

/-!
## Helper lemmas
-/

/-- For an integer `n`, comparing `|n|` against `D3DX_PI / 2 ≈ 1.5708` is the
same as `2 ≤ |n|`: the emission threshold is effectively the integer 2. -/
theorem abs_ge_piHalf_iff (n : ℤ) :
    (((|n| : ℤ) : ℚ) ≥ D3DX_PI / 2) ↔ 2 ≤ |n| := by
  unfold D3DX_PI
  constructor
  · intro h
    by_contra hlt
    push_neg at hlt
    have h1 : (|n| : ℚ) ≤ 1 := by exact_mod_cast Int.lt_add_one_iff.mp hlt
    norm_num at h
    linarith
  · intro h
    have h1 : (2 : ℚ) ≤ (|n| : ℚ) := by exact_mod_cast h
    norm_num
    linarith

/-- Truncation toward zero negates cleanly. -/
theorem ratTrunc_neg (q : ℚ) : ratTrunc (-q) = -ratTrunc q := by
  unfold ratTrunc
  rcases lt_trichotomy q 0 with h | h | h
  · rw [if_pos (by linarith), if_neg (by linarith), Int.floor_neg]
  · subst h; norm_num
  · rw [if_neg (by linarith), if_pos (by linarith), Int.ceil_neg]

/-- `getD` with default `false` ignores a `set` at a different position. -/
theorem getD_set_ne (l : List Bool) (n i : ℕ) (h : n ≠ i) (b : Bool) :
    (l.set n b).getD i false = l.getD i false := by
  simp [List.getD, List.getElem?_set_ne h]

/-- `getD` after `set` at the same in-range position. -/
theorem getD_set_self (l : List Bool) (i : ℕ) (h : i < l.length) (b : Bool) :
    (l.set i b).getD i false = b := by
  simp [List.getD, List.getElem?_set_self, h]

/-- The completion scan stops at a false flag 0. -/
theorem countComplete_eq_zero (flags : List Bool)
    (h : flags.getD 0 false = false) : countComplete flags = 0 := by
  cases flags with
  | nil => rfl
  | cons b l =>
    simp [List.getD] at h
    simp [countComplete, List.takeWhile, h]

/-- `getD` of an in-range position is the element there. -/
theorem getD_eq_getElem (l : List Bool) (i : ℕ) (h : i < l.length) :
    l.getD i false = l[i] := by
  simp [List.getD, List.getElem?_eq_getElem h]

/-- If the completion scan reaches 12, every flag below 12 is set. -/
theorem countComplete_all (flags : List Bool) (h : 12 ≤ countComplete flags)
    (i : ℕ) (hi : i < 12) : flags.getD i false = true := by
  unfold countComplete at h
  obtain ⟨r, hr⟩ := (flags.takeWhile_prefix (p := fun b => b))
  have hlen : i < (flags.takeWhile (fun b => b)).length := lt_of_lt_of_le hi h
  have hmem : (flags.takeWhile (fun b => b))[i] ∈ flags.takeWhile (fun b => b) :=
    List.getElem_mem hlen
  have htrue : (flags.takeWhile (fun b => b))[i] = true := by
    simpa using List.mem_takeWhile_imp (p := fun b => b) hmem
  have hsome : flags[i]? = some ((flags.takeWhile (fun b => b))[i]) := by
    conv_lhs => rw [← hr]
    rw [List.getElem?_append, if_pos hlen, List.getElem?_eq_getElem hlen]
  rw [List.getD, List.get?_eq_getElem?, hsome, Option.getD_some, htrue]

/-- If every flag below 12 is set and there are 12, the scan reaches 12. -/
theorem countComplete_of_all (flags : List Bool) (hl : flags.length = 12)
    (h : ∀ i : Fin 12, flags.getD i false = true) :
    12 ≤ countComplete flags := by
  unfold countComplete
  have : flags.takeWhile (fun b => b) = flags := by
    apply List.takeWhile_eq_self_iff.mpr
    intro x hx
    obtain ⟨j, hj, rfl⟩ := List.mem_iff_getElem.mp hx
    have hj12 : j < 12 := by omega
    have := h ⟨j, hj12⟩
    rwa [getD_eq_getElem flags j hj] at this
  rw [this, hl]

/-!
## Per-block contract lemmas
-/

/-- `i1Block` writes only `I1`, `i1_r`, the trail and the flags. -/
theorem i1Block_mask (s : SeqState) (c : ℕ → ℚ) (k : ℕ) :
    maskI1 (i1Block s c k).1 = maskI1 s := by
  unfold i1Block pushSquare maskI1
  split
  · split <;> rfl
  · split <;> rfl

/-- `i1Block` leaves the flags alone or sets flag 0. -/
theorem i1Block_flags (s : SeqState) (c : ℕ → ℚ) (k : ℕ) :
    (i1Block s c k).1.compFlag = s.compFlag ∨
      (i1Block s c k).1.compFlag = s.compFlag.set 0 true := by
  unfold i1Block pushSquare
  split
  · split <;> simp
  · split <;> simp

/-- While moving, `i1Block` does not touch the flags and integrates `I1`. -/
theorem i1Block_move (s : SeqState) (c : ℕ → ℚ) (k : ℕ)
    (h : s.I1 ≤ -1.9) :
    (i1Block s c k).1.compFlag = s.compFlag ∧
      (i1Block s c k).1.I1 = s.I1 + 0.5 * (c (k + 1) - s.pretime) / 1000 := by
  unfold i1Block pushSquare
  rw [if_pos h]
  split <;> simp

/-- Once `I1 > -1.9`, `i1Block` freezes all its data and only raises
flag 0. -/
theorem i1Block_stop (s : SeqState) (c : ℕ → ℚ) (k : ℕ)
    (h : ¬ s.I1 ≤ -1.9) :
    (i1Block s c k).1.I1 = s.I1 ∧ (i1Block s c k).1.i1_r = s.i1_r ∧
      (i1Block s c k).1.squarePos = s.squarePos ∧
      (i1Block s c k).1.index = s.index ∧
      (i1Block s c k).1.compFlag =
        (if s.compFlag.getD 0 false then s.compFlag
         else s.compFlag.set 0 true) := by
  unfold i1Block
  rw [if_neg h]
  split <;> simp_all

/-- The trail cursor of `i1Block` stays within capacity and, at capacity, the
trail is untouched. -/
theorem i1Block_index (s : SeqState) (c : ℕ → ℚ) (k : ℕ) :
    (s.index ≤ indexMax → (i1Block s c k).1.index ≤ indexMax) ∧
      (indexMax ≤ s.index → (i1Block s c k).1.index = s.index ∧
        (i1Block s c k).1.squarePos = s.squarePos) := by
  unfold i1Block pushSquare
  split
  · split
    · rename_i hcond
      constructor
      · intro _; simpa using hcond.2
      · intro hge; exact absurd hcond.2 (by omega)
    · simp
  · split <;> simp

/-- Every draw issued by `i1Block` is a cuboid. -/
theorem i1Block_draws (s : SeqState) (c : ℕ → ℚ) (k : ℕ) :
    ∀ d ∈ (i1Block s c k).2.1, ∃ a b e f, d = Draw.cuboid a b e f := by
  unfold i1Block pushSquare
  split
  · split <;> (intro d hd; simp at hd; exact ⟨_, _, _, _, hd⟩)
  · split <;> (intro d hd; simp at hd)


/-- `i2Block` writes only `I2`, `i2_r`, the trail and the flags. -/
theorem i2Block_mask (s : SeqState) (c : ℕ → ℚ) (k : ℕ) :
    maskI2 (i2Block s c k).1 = maskI2 s := by
  unfold i2Block pushSquare maskI2
  split
  · split <;> rfl
  · split <;> rfl

/-- `i2Block` leaves the flags alone or sets flag 1. -/
theorem i2Block_flags (s : SeqState) (c : ℕ → ℚ) (k : ℕ) :
    (i2Block s c k).1.compFlag = s.compFlag ∨
      (i2Block s c k).1.compFlag = s.compFlag.set 1 true := by
  unfold i2Block pushSquare
  split
  · split <;> simp
  · split <;> simp

/-- While moving, `i2Block` does not touch the flags. -/
theorem i2Block_move_flags (s : SeqState) (c : ℕ → ℚ) (k : ℕ)
    (h : s.I2 ≥ -1.5) : (i2Block s c k).1.compFlag = s.compFlag := by
  unfold i2Block pushSquare
  rw [if_pos h]
  split <;> simp

/-- When its terminal test fails, `i2Block` freezes all its data and only raises
flag 1. -/
theorem i2Block_stop (s : SeqState) (c : ℕ → ℚ) (k : ℕ)
    (h : ¬ (s.I2 ≥ -1.5)) :
    (i2Block s c k).1.I2 = s.I2 ∧ (i2Block s c k).1.i2_r = s.i2_r ∧
      (i2Block s c k).1.squarePos = s.squarePos ∧
      (i2Block s c k).1.index = s.index ∧
      (i2Block s c k).1.compFlag =
        (if s.compFlag.getD 1 false then s.compFlag
         else s.compFlag.set 1 true) := by
  unfold i2Block
  rw [if_neg h]
  split <;> simp_all

/-- The trail cursor of `i2Block` stays within capacity and, at capacity, the
trail is untouched. -/
theorem i2Block_index (s : SeqState) (c : ℕ → ℚ) (k : ℕ) :
    (s.index ≤ indexMax → (i2Block s c k).1.index ≤ indexMax) ∧
      (indexMax ≤ s.index → (i2Block s c k).1.index = s.index ∧
        (i2Block s c k).1.squarePos = s.squarePos) := by
  unfold i2Block pushSquare
  split
  · split
    · rename_i hcond
      constructor
      · intro _; simpa using hcond.2
      · intro hge; exact absurd hcond.2 (by omega)
    · simp
  · split <;> simp

/-- Every draw issued by `i2Block` is a cuboid. -/
theorem i2Block_draws (s : SeqState) (c : ℕ → ℚ) (k : ℕ) :
    ∀ d ∈ (i2Block s c k).2.1, ∃ a b e f, d = Draw.cuboid a b e f := by
  unfold i2Block pushSquare
  split
  · split <;> (intro d hd; simp at hd; exact ⟨_, _, _, _, hd⟩)
  · split <;> (intro d hd; simp at hd)

/-- `i3Block` writes only `I3`, `i3_r`, the trail and the flags. -/
theorem i3Block_mask (s : SeqState) (c : ℕ → ℚ) (k : ℕ) :
    maskI3 (i3Block s c k).1 = maskI3 s := by
  unfold i3Block pushSquare maskI3
  split
  · split <;> rfl
  · split <;> rfl

/-- `i3Block` leaves the flags alone or sets flag 2. -/
theorem i3Block_flags (s : SeqState) (c : ℕ → ℚ) (k : ℕ) :
    (i3Block s c k).1.compFlag = s.compFlag ∨
      (i3Block s c k).1.compFlag = s.compFlag.set 2 true := by
  unfold i3Block pushSquare
  split
  · split <;> simp
  · split <;> simp

/-- While moving, `i3Block` does not touch the flags. -/
theorem i3Block_move_flags (s : SeqState) (c : ℕ → ℚ) (k : ℕ)
    (h : s.I3 ≤ -1.9) : (i3Block s c k).1.compFlag = s.compFlag := by
  unfold i3Block pushSquare
  rw [if_pos h]
  split <;> simp

/-- When its terminal test fails, `i3Block` freezes all its data and only raises
flag 2. -/
theorem i3Block_stop (s : SeqState) (c : ℕ → ℚ) (k : ℕ)
    (h : ¬ (s.I3 ≤ -1.9)) :
    (i3Block s c k).1.I3 = s.I3 ∧ (i3Block s c k).1.i3_r = s.i3_r ∧
      (i3Block s c k).1.squarePos = s.squarePos ∧
      (i3Block s c k).1.index = s.index ∧
      (i3Block s c k).1.compFlag =
        (if s.compFlag.getD 2 false then s.compFlag
         else s.compFlag.set 2 true) := by
  unfold i3Block
  rw [if_neg h]
  split <;> simp_all

/-- The trail cursor of `i3Block` stays within capacity and, at capacity, the
trail is untouched. -/
theorem i3Block_index (s : SeqState) (c : ℕ → ℚ) (k : ℕ) :
    (s.index ≤ indexMax → (i3Block s c k).1.index ≤ indexMax) ∧
      (indexMax ≤ s.index → (i3Block s c k).1.index = s.index ∧
        (i3Block s c k).1.squarePos = s.squarePos) := by
  unfold i3Block pushSquare
  split
  · split
    · rename_i hcond
      constructor
      · intro _; simpa using hcond.2
      · intro hge; exact absurd hcond.2 (by omega)
    · simp
  · split <;> simp

/-- Every draw issued by `i3Block` is a cuboid. -/
theorem i3Block_draws (s : SeqState) (c : ℕ → ℚ) (k : ℕ) :
    ∀ d ∈ (i3Block s c k).2.1, ∃ a b e f, d = Draw.cuboid a b e f := by
  unfold i3Block pushSquare
  split
  · split <;> (intro d hd; simp at hd; exact ⟨_, _, _, _, hd⟩)
  · split <;> (intro d hd; simp at hd)

/-- `k1Block` writes only `K1`, `k1_r`, the trail and the flags. -/
theorem k1Block_mask (s : SeqState) (c : ℕ → ℚ) (k : ℕ) :
    maskK1 (k1Block s c k).1 = maskK1 s := by
  unfold k1Block pushSquare maskK1
  split
  · split <;> rfl
  · split <;> rfl

/-- `k1Block` leaves the flags alone or sets flag 3. -/
theorem k1Block_flags (s : SeqState) (c : ℕ → ℚ) (k : ℕ) :
    (k1Block s c k).1.compFlag = s.compFlag ∨
      (k1Block s c k).1.compFlag = s.compFlag.set 3 true := by
  unfold k1Block pushSquare
  split
  · split <;> simp
  · split <;> simp

/-- While moving, `k1Block` does not touch the flags. -/
theorem k1Block_move_flags (s : SeqState) (c : ℕ → ℚ) (k : ℕ)
    (h : s.K1 ≥ -1.7) : (k1Block s c k).1.compFlag = s.compFlag := by
  unfold k1Block pushSquare
  rw [if_pos h]
  split <;> simp

/-- When its terminal test fails, `k1Block` freezes all its data and only raises
flag 3. -/
theorem k1Block_stop (s : SeqState) (c : ℕ → ℚ) (k : ℕ)
    (h : ¬ (s.K1 ≥ -1.7)) :
    (k1Block s c k).1.K1 = s.K1 ∧ (k1Block s c k).1.k1_r = s.k1_r ∧
      (k1Block s c k).1.squarePos = s.squarePos ∧
      (k1Block s c k).1.index = s.index ∧
      (k1Block s c k).1.compFlag =
        (if s.compFlag.getD 3 false then s.compFlag
         else s.compFlag.set 3 true) := by
  unfold k1Block
  rw [if_neg h]
  split <;> simp_all

/-- The trail cursor of `k1Block` stays within capacity and, at capacity, the
trail is untouched. -/
theorem k1Block_index (s : SeqState) (c : ℕ → ℚ) (k : ℕ) :
    (s.index ≤ indexMax → (k1Block s c k).1.index ≤ indexMax) ∧
      (indexMax ≤ s.index → (k1Block s c k).1.index = s.index ∧
        (k1Block s c k).1.squarePos = s.squarePos) := by
  unfold k1Block pushSquare
  split
  · split
    · rename_i hcond
      constructor
      · intro _; simpa using hcond.2
      · intro hge; exact absurd hcond.2 (by omega)
    · simp
  · split <;> simp

/-- Every draw issued by `k1Block` is a cuboid. -/
theorem k1Block_draws (s : SeqState) (c : ℕ → ℚ) (k : ℕ) :
    ∀ d ∈ (k1Block s c k).2.1, ∃ a b e f, d = Draw.cuboid a b e f := by
  unfold k1Block pushSquare
  split
  · split <;> (intro d hd; simp at hd; exact ⟨_, _, _, _, hd⟩)
  · split <;> (intro d hd; simp at hd)

/-- `e1Block` writes only `e1`, `e1_r`, the trail and the flags. -/
theorem e1Block_mask (s : SeqState) (c : ℕ → ℚ) (k : ℕ) :
    maskE1 (e1Block s c k).1 = maskE1 s := by
  unfold e1Block pushSquare maskE1
  split
  · split <;> rfl
  · split <;> rfl

/-- `e1Block` leaves the flags alone or sets flag 6. -/
theorem e1Block_flags (s : SeqState) (c : ℕ → ℚ) (k : ℕ) :
    (e1Block s c k).1.compFlag = s.compFlag ∨
      (e1Block s c k).1.compFlag = s.compFlag.set 6 true := by
  unfold e1Block pushSquare
  split
  · split <;> simp
  · split <;> simp

/-- While moving, `e1Block` does not touch the flags. -/
theorem e1Block_move_flags (s : SeqState) (c : ℕ → ℚ) (k : ℕ)
    (h : s.e1 ≥ -1.5) : (e1Block s c k).1.compFlag = s.compFlag := by
  unfold e1Block pushSquare
  rw [if_pos h]
  split <;> simp

/-- When its terminal test fails, `e1Block` freezes all its data and only raises
flag 6. -/
theorem e1Block_stop (s : SeqState) (c : ℕ → ℚ) (k : ℕ)
    (h : ¬ (s.e1 ≥ -1.5)) :
    (e1Block s c k).1.e1 = s.e1 ∧ (e1Block s c k).1.e1_r = s.e1_r ∧
      (e1Block s c k).1.squarePos = s.squarePos ∧
      (e1Block s c k).1.index = s.index ∧
      (e1Block s c k).1.compFlag =
        (if s.compFlag.getD 6 false then s.compFlag
         else s.compFlag.set 6 true) := by
  unfold e1Block
  rw [if_neg h]
  split <;> simp_all

/-- The trail cursor of `e1Block` stays within capacity and, at capacity, the
trail is untouched. -/
theorem e1Block_index (s : SeqState) (c : ℕ → ℚ) (k : ℕ) :
    (s.index ≤ indexMax → (e1Block s c k).1.index ≤ indexMax) ∧
      (indexMax ≤ s.index → (e1Block s c k).1.index = s.index ∧
        (e1Block s c k).1.squarePos = s.squarePos) := by
  unfold e1Block pushSquare
  split
  · split
    · rename_i hcond
      constructor
      · intro _; simpa using hcond.2
      · intro hge; exact absurd hcond.2 (by omega)
    · simp
  · split <;> simp

/-- Every draw issued by `e1Block` is a cuboid. -/
theorem e1Block_draws (s : SeqState) (c : ℕ → ℚ) (k : ℕ) :
    ∀ d ∈ (e1Block s c k).2.1, ∃ a b e f, d = Draw.cuboid a b e f := by
  unfold e1Block pushSquare
  split
  · split <;> (intro d hd; simp at hd; exact ⟨_, _, _, _, hd⟩)
  · split <;> (intro d hd; simp at hd)

/-- `p1Block` writes only `p1`, `p1_r`, the trail and the flags. -/
theorem p1Block_mask (s : SeqState) (c : ℕ → ℚ) (k : ℕ) :
    maskP1 (p1Block s c k).1 = maskP1 s := by
  unfold p1Block pushSquare maskP1
  split
  · split <;> rfl
  · split <;> rfl

/-- `p1Block` leaves the flags alone or sets flag 10. -/
theorem p1Block_flags (s : SeqState) (c : ℕ → ℚ) (k : ℕ) :
    (p1Block s c k).1.compFlag = s.compFlag ∨
      (p1Block s c k).1.compFlag = s.compFlag.set 10 true := by
  unfold p1Block pushSquare
  split
  · split <;> simp
  · split <;> simp

/-- While moving, `p1Block` does not touch the flags. -/
theorem p1Block_move_flags (s : SeqState) (c : ℕ → ℚ) (k : ℕ)
    (h : s.p1 ≥ -1.7) : (p1Block s c k).1.compFlag = s.compFlag := by
  unfold p1Block pushSquare
  rw [if_pos h]
  split <;> simp

/-- When its terminal test fails, `p1Block` freezes all its data and only raises
flag 10. -/
theorem p1Block_stop (s : SeqState) (c : ℕ → ℚ) (k : ℕ)
    (h : ¬ (s.p1 ≥ -1.7)) :
    (p1Block s c k).1.p1 = s.p1 ∧ (p1Block s c k).1.p1_r = s.p1_r ∧
      (p1Block s c k).1.squarePos = s.squarePos ∧
      (p1Block s c k).1.index = s.index ∧
      (p1Block s c k).1.compFlag =
        (if s.compFlag.getD 10 false then s.compFlag
         else s.compFlag.set 10 true) := by
  unfold p1Block
  rw [if_neg h]
  split <;> simp_all

/-- The trail cursor of `p1Block` stays within capacity and, at capacity, the
trail is untouched. -/
theorem p1Block_index (s : SeqState) (c : ℕ → ℚ) (k : ℕ) :
    (s.index ≤ indexMax → (p1Block s c k).1.index ≤ indexMax) ∧
      (indexMax ≤ s.index → (p1Block s c k).1.index = s.index ∧
        (p1Block s c k).1.squarePos = s.squarePos) := by
  unfold p1Block pushSquare
  split
  · split
    · rename_i hcond
      constructor
      · intro _; simpa using hcond.2
      · intro hge; exact absurd hcond.2 (by omega)
    · simp
  · split <;> simp

/-- Every draw issued by `p1Block` is a cuboid. -/
theorem p1Block_draws (s : SeqState) (c : ℕ → ℚ) (k : ℕ) :
    ∀ d ∈ (p1Block s c k).2.1, ∃ a b e f, d = Draw.cuboid a b e f := by
  unfold p1Block pushSquare
  split
  · split <;> (intro d hd; simp at hd; exact ⟨_, _, _, _, hd⟩)
  · split <;> (intro d hd; simp at hd)

/-- `k2Block` writes only `k2X`, `k2Y`, `k2_r`, the trail and the flags. -/
theorem k2Block_mask (s : SeqState) (c : ℕ → ℚ) (k : ℕ) :
    maskK2 (k2Block s c k).1 = maskK2 s := by
  unfold k2Block pushSquare maskK2
  split
  · split <;> rfl
  · split <;> rfl

/-- `k2Block` leaves the flags alone or sets flag 4. -/
theorem k2Block_flags (s : SeqState) (c : ℕ → ℚ) (k : ℕ) :
    (k2Block s c k).1.compFlag = s.compFlag ∨
      (k2Block s c k).1.compFlag = s.compFlag.set 4 true := by
  unfold k2Block pushSquare
  split
  · split <;> simp
  · split <;> simp

/-- While moving, `k2Block` does not touch the flags. -/
theorem k2Block_move_flags (s : SeqState) (c : ℕ → ℚ) (k : ℕ)
    (h : s.k2X ≤ 0) : (k2Block s c k).1.compFlag = s.compFlag := by
  unfold k2Block pushSquare
  rw [if_pos h]
  split <;> simp

/-- When its terminal test fails, `k2Block` freezes all its data and only
raises flag 4. -/
theorem k2Block_stop (s : SeqState) (c : ℕ → ℚ) (k : ℕ)
    (h : ¬ s.k2X ≤ 0) :
    (k2Block s c k).1.k2X = s.k2X ∧ (k2Block s c k).1.k2Y = s.k2Y ∧
      (k2Block s c k).1.k2_r = s.k2_r ∧
      (k2Block s c k).1.squarePos = s.squarePos ∧
      (k2Block s c k).1.index = s.index ∧
      (k2Block s c k).1.compFlag =
        (if s.compFlag.getD 4 false then s.compFlag
         else s.compFlag.set 4 true) := by
  unfold k2Block
  rw [if_neg h]
  split <;> simp_all

/-- The trail cursor of `k2Block` stays within capacity and, at capacity, the
trail is untouched. -/
theorem k2Block_index (s : SeqState) (c : ℕ → ℚ) (k : ℕ) :
    (s.index ≤ indexMax → (k2Block s c k).1.index ≤ indexMax) ∧
      (indexMax ≤ s.index → (k2Block s c k).1.index = s.index ∧
        (k2Block s c k).1.squarePos = s.squarePos) := by
  unfold k2Block pushSquare
  split
  · split
    · rename_i hcond
      constructor
      · intro _; simpa using hcond.2
      · intro hge; exact absurd hcond.2 (by omega)
    · simp
  · split <;> simp

/-- Every draw issued by `k2Block` is a cuboid. -/
theorem k2Block_draws (s : SeqState) (c : ℕ → ℚ) (k : ℕ) :
    ∀ d ∈ (k2Block s c k).2.1, ∃ a b e f, d = Draw.cuboid a b e f := by
  unfold k2Block pushSquare
  split
  · split <;> (intro d hd; simp at hd; exact ⟨_, _, _, _, hd⟩)
  · split <;> (intro d hd; simp at hd)

/-- `k3Block` writes only `k3X`, `k3Y`, `k3_r`, the trail and the flags. -/
theorem k3Block_mask (s : SeqState) (c : ℕ → ℚ) (k : ℕ) :
    maskK3 (k3Block s c k).1 = maskK3 s := by
  unfold k3Block pushSquare maskK3
  split
  · split <;> rfl
  · split <;> rfl

/-- `k3Block` leaves the flags alone or sets flag 5. -/
theorem k3Block_flags (s : SeqState) (c : ℕ → ℚ) (k : ℕ) :
    (k3Block s c k).1.compFlag = s.compFlag ∨
      (k3Block s c k).1.compFlag = s.compFlag.set 5 true := by
  unfold k3Block pushSquare
  split
  · split <;> simp
  · split <;> simp

/-- While moving, `k3Block` does not touch the flags. -/
theorem k3Block_move_flags (s : SeqState) (c : ℕ → ℚ) (k : ℕ)
    (h : s.k3X ≤ 0) : (k3Block s c k).1.compFlag = s.compFlag := by
  unfold k3Block pushSquare
  rw [if_pos h]
  split <;> simp

/-- When its terminal test fails, `k3Block` freezes all its data and only
raises flag 5. -/
theorem k3Block_stop (s : SeqState) (c : ℕ → ℚ) (k : ℕ)
    (h : ¬ s.k3X ≤ 0) :
    (k3Block s c k).1.k3X = s.k3X ∧ (k3Block s c k).1.k3Y = s.k3Y ∧
      (k3Block s c k).1.k3_r = s.k3_r ∧
      (k3Block s c k).1.squarePos = s.squarePos ∧
      (k3Block s c k).1.index = s.index ∧
      (k3Block s c k).1.compFlag =
        (if s.compFlag.getD 5 false then s.compFlag
         else s.compFlag.set 5 true) := by
  unfold k3Block
  rw [if_neg h]
  split <;> simp_all

/-- The trail cursor of `k3Block` stays within capacity and, at capacity, the
trail is untouched. -/
theorem k3Block_index (s : SeqState) (c : ℕ → ℚ) (k : ℕ) :
    (s.index ≤ indexMax → (k3Block s c k).1.index ≤ indexMax) ∧
      (indexMax ≤ s.index → (k3Block s c k).1.index = s.index ∧
        (k3Block s c k).1.squarePos = s.squarePos) := by
  unfold k3Block pushSquare
  split
  · split
    · rename_i hcond
      constructor
      · intro _; simpa using hcond.2
      · intro hge; exact absurd hcond.2 (by omega)
    · simp
  · split <;> simp

/-- Every draw issued by `k3Block` is a cuboid. -/
theorem k3Block_draws (s : SeqState) (c : ℕ → ℚ) (k : ℕ) :
    ∀ d ∈ (k3Block s c k).2.1, ∃ a b e f, d = Draw.cuboid a b e f := by
  unfold k3Block pushSquare
  split
  · split <;> (intro d hd; simp at hd; exact ⟨_, _, _, _, hd⟩)
  · split <;> (intro d hd; simp at hd)

/-- `eSubA` writes only the `eBlock` fields. -/
theorem eSubA_mask (s : SeqState) (a b : ℚ) :
    maskE (eSubA s a b).1 = maskE s := by
  unfold eSubA pushSquare maskE
  split <;> rfl

/-- `eSubB` writes only the `eBlock` fields. -/
theorem eSubB_mask (s : SeqState) (a b : ℚ) :
    maskE (eSubB s a b).1 = maskE s := by
  unfold eSubB pushSquare maskE
  split <;> rfl

/-- `eSubC` writes only the `eBlock` fields. -/
theorem eSubC_mask (s : SeqState) (a b d : ℚ) :
    maskE (eSubC s a b d).1 = maskE s := by
  unfold eSubC pushSquare maskE
  split <;> rfl

/-- `eSubA` does not touch the flags. -/
theorem eSubA_flags (s : SeqState) (a b : ℚ) :
    (eSubA s a b).1.compFlag = s.compFlag := by
  unfold eSubA pushSquare
  split <;> simp

/-- `eSubB` does not touch the flags. -/
theorem eSubB_flags (s : SeqState) (a b : ℚ) :
    (eSubB s a b).1.compFlag = s.compFlag := by
  unfold eSubB pushSquare
  split <;> simp

/-- `eSubC` does not touch the flags. -/
theorem eSubC_flags (s : SeqState) (a b d : ℚ) :
    (eSubC s a b d).1.compFlag = s.compFlag := by
  unfold eSubC pushSquare
  split <;> simp

/-- Trail-cursor contract of `eSubA`. -/
theorem eSubA_index (s : SeqState) (a b : ℚ) :
    (s.index ≤ indexMax → (eSubA s a b).1.index ≤ indexMax) ∧
      (indexMax ≤ s.index → (eSubA s a b).1.index = s.index ∧
        (eSubA s a b).1.squarePos = s.squarePos) := by
  unfold eSubA pushSquare
  split
  · rename_i hcond
    constructor
    · intro _; simpa using hcond.2
    · intro hge; exact absurd hcond.2 (by omega)
  · simp

/-- Trail-cursor contract of `eSubB`. -/
theorem eSubB_index (s : SeqState) (a b : ℚ) :
    (s.index ≤ indexMax → (eSubB s a b).1.index ≤ indexMax) ∧
      (indexMax ≤ s.index → (eSubB s a b).1.index = s.index ∧
        (eSubB s a b).1.squarePos = s.squarePos) := by
  unfold eSubB pushSquare
  split
  · rename_i hcond
    constructor
    · intro _; simpa using hcond.2
    · intro hge; exact absurd hcond.2 (by omega)
  · simp

/-- Trail-cursor contract of `eSubC`. -/
theorem eSubC_index (s : SeqState) (a b d : ℚ) :
    (s.index ≤ indexMax → (eSubC s a b d).1.index ≤ indexMax) ∧
      (indexMax ≤ s.index → (eSubC s a b d).1.index = s.index ∧
        (eSubC s a b d).1.squarePos = s.squarePos) := by
  unfold eSubC pushSquare
  split
  · rename_i hcond
    constructor
    · intro _; simpa using hcond.2
    · intro hge; exact absurd hcond.2 (by omega)
  · simp

/-- `eBlock` writes only `e234`, its three phase references, the trail and
the flags. -/
theorem eBlock_mask (s : SeqState) (c : ℕ → ℚ) (k : ℕ) :
    maskE (eBlock s c k).1 = maskE s := by
  unfold eBlock
  split
  · simp only [eSubA_mask, eSubB_mask, eSubC_mask]
  · rfl

/-- While moving, `eBlock` does not touch the flags. -/
theorem eBlock_move_flags (s : SeqState) (c : ℕ → ℚ) (k : ℕ)
    (h : s.e234 ≤ 1.8) : (eBlock s c k).1.compFlag = s.compFlag := by
  unfold eBlock
  rw [if_pos h]
  simp only [eSubA_flags, eSubB_flags, eSubC_flags]

/-- When `e234 > 1.8`, `eBlock` only sets flags 7, 8, 9 (unconditionally). -/
theorem eBlock_stop (s : SeqState) (c : ℕ → ℚ) (k : ℕ)
    (h : ¬ s.e234 ≤ 1.8) :
    (eBlock s c k).1 =
      {s with compFlag := ((s.compFlag.set 7 true).set 8 true).set 9 true} ∧
      (eBlock s c k).2.1 = [] := by
  unfold eBlock
  rw [if_neg h]
  exact ⟨rfl, rfl⟩

/-- `eBlock` leaves the flags alone or sets flags 7, 8, 9 together. -/
theorem eBlock_flags (s : SeqState) (c : ℕ → ℚ) (k : ℕ) :
    (eBlock s c k).1.compFlag = s.compFlag ∨
      (eBlock s c k).1.compFlag =
        ((s.compFlag.set 7 true).set 8 true).set 9 true := by
  by_cases h : s.e234 ≤ 1.8
  · exact Or.inl (eBlock_move_flags s c k h)
  · exact Or.inr (by rw [(eBlock_stop s c k h).1])

/-- Trail-cursor contract of `eBlock`. -/
theorem eBlock_index (s : SeqState) (c : ℕ → ℚ) (k : ℕ) :
    (s.index ≤ indexMax → (eBlock s c k).1.index ≤ indexMax) ∧
      (indexMax ≤ s.index → (eBlock s c k).1.index = s.index ∧
        (eBlock s c k).1.squarePos = s.squarePos) := by
  unfold eBlock
  split
  · constructor
    · intro h0
      exact (eSubC_index _ _ _ _).1 ((eSubB_index _ _ _).1
        ((eSubA_index s _ _).1 h0))
    · intro h0
      have hA' := (eSubA_index s (c (k + 1)) (c (k + 2))).2 h0
      have hB' := (eSubB_index (eSubA s (c (k + 1)) (c (k + 2))).1
        (c (k + 1 + (eSubA s (c (k + 1)) (c (k + 2))).2 + 1))
        (c (k + 1 + (eSubA s (c (k + 1)) (c (k + 2))).2 + 2))).2
        (by rw [hA'.1]; exact h0)
      refine ⟨?_, ?_⟩
      · rw [((eSubC_index _ _ _ _).2 (by rw [hB'.1, hA'.1]; exact h0)).1,
          hB'.1, hA'.1]
      · rw [((eSubC_index _ _ _ _).2 (by rw [hB'.1, hA'.1]; exact h0)).2,
          hB'.2, hA'.2]
  · simp

/-- Every draw issued by `eBlock` is a cuboid. -/
theorem eBlock_draws (s : SeqState) (c : ℕ → ℚ) (k : ℕ) :
    ∀ d ∈ (eBlock s c k).2.1, ∃ a b e f, d = Draw.cuboid a b e f := by
  unfold eBlock
  split
  · intro d hd
    simp at hd
    rcases hd with h | h | h <;> exact ⟨_, _, _, _, h⟩
  · intro d hd
    simp at hd

/-- `p2Block` writes only `p2`, `p2_r`, the trail and the flags. -/
theorem p2Block_mask (s : SeqState) (c : ℕ → ℚ) (k : ℕ) :
    maskP2 (p2Block cosQ sinQ s c k).1 = maskP2 s := by
  unfold p2Block pushSquare maskP2
  split
  · split <;> rfl
  · split <;> rfl

/-- `p2Block` leaves the flags alone or sets flag 11. -/
theorem p2Block_flags (s : SeqState) (c : ℕ → ℚ) (k : ℕ) :
    (p2Block cosQ sinQ s c k).1.compFlag = s.compFlag ∨
      (p2Block cosQ sinQ s c k).1.compFlag = s.compFlag.set 11 true := by
  unfold p2Block pushSquare
  split
  · split <;> simp
  · split <;> simp

/-- While moving, `p2Block` does not touch the flags. -/
theorem p2Block_move_flags (s : SeqState) (c : ℕ → ℚ) (k : ℕ)
    (h : cosQ s.p2 ≥ -0.01) :
    (p2Block cosQ sinQ s c k).1.compFlag = s.compFlag := by
  unfold p2Block pushSquare
  rw [if_pos h]
  split <;> simp

/-- When its terminal test fails, `p2Block` freezes all its data and only
raises flag 11. -/
theorem p2Block_stop (s : SeqState) (c : ℕ → ℚ) (k : ℕ)
    (h : ¬ cosQ s.p2 ≥ -0.01) :
    (p2Block cosQ sinQ s c k).1.p2 = s.p2 ∧
      (p2Block cosQ sinQ s c k).1.p2_r = s.p2_r ∧
      (p2Block cosQ sinQ s c k).1.squarePos = s.squarePos ∧
      (p2Block cosQ sinQ s c k).1.index = s.index ∧
      (p2Block cosQ sinQ s c k).1.compFlag =
        (if s.compFlag.getD 11 false then s.compFlag
         else s.compFlag.set 11 true) := by
  unfold p2Block
  rw [if_neg h]
  split <;> simp_all

/-- The trail cursor of `p2Block` stays within capacity and, at capacity, the
trail is untouched. -/
theorem p2Block_index (s : SeqState) (c : ℕ → ℚ) (k : ℕ) :
    (s.index ≤ indexMax → (p2Block cosQ sinQ s c k).1.index ≤ indexMax) ∧
      (indexMax ≤ s.index → (p2Block cosQ sinQ s c k).1.index = s.index ∧
        (p2Block cosQ sinQ s c k).1.squarePos = s.squarePos) := by
  unfold p2Block pushSquare
  split
  · split
    · rename_i hcond
      constructor
      · intro _; simpa using hcond.2
      · intro hge; exact absurd hcond.2 (by omega)
    · simp
  · split <;> simp

/-- Every draw issued by `p2Block` is a cuboid. -/
theorem p2Block_draws (s : SeqState) (c : ℕ → ℚ) (k : ℕ) :
    ∀ d ∈ (p2Block cosQ sinQ s c k).2.1, ∃ a b e f, d = Draw.cuboid a b e f := by
  unfold p2Block pushSquare
  split
  · split <;> (intro d hd; simp at hd; exact ⟨_, _, _, _, hd⟩)
  · split <;> (intro d hd; simp at hd)


/-- A `set _ true` keeps a true flag true. -/
theorem getD_set_true (l : List Bool) (n i : ℕ) (h : l.getD i false = true) :
    (l.set n true).getD i false = true := by
  by_cases hni : n = i
  · subst hni
    by_cases hl : n < l.length
    · rw [getD_set_self l n hl]
    · rw [List.set_eq_of_length_le (Nat.le_of_not_lt hl)]; exact h
  · rw [getD_set_ne l n i hni]; exact h

/-- `i1Block` is the identity when frozen with its flag already set. -/
theorem i1Block_id (s : SeqState) (c : ℕ → ℚ) (k : ℕ)
    (hc : ¬ s.I1 ≤ -1.9) (hf : s.compFlag.getD 0 false = true) :
    i1Block s c k = (s, [], k) := by
  unfold i1Block
  rw [if_neg hc, if_neg (not_not_intro hf)]

/-- `i1Block` preserves the reachable-state invariant. -/
theorem i1Block_inv (s : SeqState) (c : ℕ → ℚ) (k : ℕ) (h : Inv cosQ s) :
    Inv cosQ (i1Block s c k).1 := by
  have hmask := i1Block_mask s c k
  have fb : (i1Block s c k).1.I2 = s.I2 := by
    have := congrArg SeqState.I2 hmask; exact this
  have fc : (i1Block s c k).1.I3 = s.I3 := by
    have := congrArg SeqState.I3 hmask; exact this
  have fd : (i1Block s c k).1.K1 = s.K1 := by
    have := congrArg SeqState.K1 hmask; exact this
  have fe : (i1Block s c k).1.k2X = s.k2X := by
    have := congrArg SeqState.k2X hmask; exact this
  have ff : (i1Block s c k).1.k3X = s.k3X := by
    have := congrArg SeqState.k3X hmask; exact this
  have fg : (i1Block s c k).1.e1 = s.e1 := by
    have := congrArg SeqState.e1 hmask; exact this
  have fh : (i1Block s c k).1.e234 = s.e234 := by
    have := congrArg SeqState.e234 hmask; exact this
  have fi : (i1Block s c k).1.p1 = s.p1 := by
    have := congrArg SeqState.p1 hmask; exact this
  have fj : (i1Block s c k).1.p2 = s.p2 := by
    have := congrArg SeqState.p2 hmask; exact this
  have fk : (i1Block s c k).1.endGet = s.endGet := by
    have := congrArg SeqState.endGet hmask; exact this
  obtain ⟨g0, g1, g2, g3, g4, g5, g6, g7, g8, g9, g10, g11,
    gidx, glen, g78, g89, gget⟩ := h
  have hidx' := (i1Block_index s c k).1 gidx
  by_cases hc : s.I1 ≤ -1.9
  · have hfl := (i1Block_move s c k hc).1
    unfold Inv flagAt
    simp only [hfl, fb, fc, fd, fe, ff, fg, fh, fi, fj, fk]
    exact ⟨fun hf => absurd hc (g0 hf), g1, g2, g3, g4, g5, g6, g7, g8, g9,
      g10, g11, hidx', glen, g78, g89, gget⟩
  · by_cases hfg : s.compFlag.getD 0 false = true
    · rw [congrArg Prod.fst (i1Block_id s c k hc hfg)]
      exact ⟨g0, g1, g2, g3, g4, g5, g6, g7, g8, g9, g10, g11,
        gidx, glen, g78, g89, gget⟩
    · obtain ⟨hv1, hv2, hsq, hix, hfl⟩ := i1Block_stop s c k hc
      simp only [Bool.not_eq_true] at hfg
      rw [if_neg (by rw [hfg]; simp)] at hfl
      unfold Inv flagAt
      simp only [hfl, fb, fc, fd, fe, ff, fg, fh, fi, fj, fk, hv1, hv2, hsq,
        hix, List.length_set,
        getD_set_ne s.compFlag 0 1 (by norm_num),
        getD_set_ne s.compFlag 0 2 (by norm_num),
        getD_set_ne s.compFlag 0 3 (by norm_num),
        getD_set_ne s.compFlag 0 4 (by norm_num),
        getD_set_ne s.compFlag 0 5 (by norm_num),
        getD_set_ne s.compFlag 0 6 (by norm_num),
        getD_set_ne s.compFlag 0 7 (by norm_num),
        getD_set_ne s.compFlag 0 8 (by norm_num),
        getD_set_ne s.compFlag 0 9 (by norm_num),
        getD_set_ne s.compFlag 0 10 (by norm_num),
        getD_set_ne s.compFlag 0 11 (by norm_num)]
      refine ⟨fun _ => hc, g1, g2, g3, g4, g5, g6, g7, g8, g9, g10, g11,
        gidx, glen, g78, g89, fun hE => by
          have h0 : flagAt s (0 : ℕ) = true := gget hE ⟨0, by norm_num⟩
          unfold flagAt at h0
          rw [hfg] at h0
          exact absurd h0 (by simp)⟩


/-- `i2Block` is the identity when frozen with its flag already set. -/
theorem i2Block_id (s : SeqState) (c : ℕ → ℚ) (k : ℕ)
    (hc : ¬ (s.I2 ≥ -1.5)) (hf : s.compFlag.getD 1 false = true) :
    i2Block s c k = (s, [], k) := by
  unfold i2Block
  rw [if_neg hc, if_neg (not_not_intro hf)]

/-- `i2Block` preserves the reachable-state invariant. -/
theorem i2Block_inv (s : SeqState) (c : ℕ → ℚ) (k : ℕ) (h : Inv cosQ s) :
    Inv cosQ (i2Block s c k).1 := by
  have hmask := i2Block_mask s c k
  have fI1 : (i2Block s c k).1.I1 = s.I1 := by
    have := congrArg SeqState.I1 hmask; exact this
  have fI3 : (i2Block s c k).1.I3 = s.I3 := by
    have := congrArg SeqState.I3 hmask; exact this
  have fK1 : (i2Block s c k).1.K1 = s.K1 := by
    have := congrArg SeqState.K1 hmask; exact this
  have fk2X : (i2Block s c k).1.k2X = s.k2X := by
    have := congrArg SeqState.k2X hmask; exact this
  have fk3X : (i2Block s c k).1.k3X = s.k3X := by
    have := congrArg SeqState.k3X hmask; exact this
  have fe1 : (i2Block s c k).1.e1 = s.e1 := by
    have := congrArg SeqState.e1 hmask; exact this
  have fe234 : (i2Block s c k).1.e234 = s.e234 := by
    have := congrArg SeqState.e234 hmask; exact this
  have fp1 : (i2Block s c k).1.p1 = s.p1 := by
    have := congrArg SeqState.p1 hmask; exact this
  have fp2 : (i2Block s c k).1.p2 = s.p2 := by
    have := congrArg SeqState.p2 hmask; exact this
  have fendGet : (i2Block s c k).1.endGet = s.endGet := by
    have := congrArg SeqState.endGet hmask; exact this
  obtain ⟨g0, g1, g2, g3, g4, g5, g6, g7, g8, g9, g10, g11,
    gidx, glen, g78, g89, gget⟩ := h
  have hidx' := (i2Block_index s c k).1 gidx
  by_cases hc : s.I2 ≥ -1.5
  · have hfl := i2Block_move_flags s c k hc
    unfold Inv flagAt
    simp only [hfl, fI1, fI3, fK1, fk2X, fk3X, fe1, fe234, fp1, fp2, fendGet]
    exact ⟨g0, fun hf => absurd hc (g1 hf), g2, g3, g4, g5, g6, g7, g8, g9, g10, g11, hidx', glen, g78, g89, gget⟩
  · by_cases hfg : s.compFlag.getD 1 false = true
    · rw [congrArg Prod.fst (i2Block_id s c k hc hfg)]
      exact ⟨g0, g1, g2, g3, g4, g5, g6, g7, g8, g9, g10, g11,
        gidx, glen, g78, g89, gget⟩
    · obtain ⟨hv1, hv2, hsq, hix, hfl⟩ := i2Block_stop s c k hc
      simp only [Bool.not_eq_true] at hfg
      rw [if_neg (by rw [hfg]; simp)] at hfl
      unfold Inv flagAt
      simp only [hfl, fI1, fI3, fK1, fk2X, fk3X, fe1, fe234, fp1, fp2, fendGet, hv1, hv2, hsq, hix, List.length_set,
        getD_set_ne s.compFlag 1 0 (by norm_num),
        getD_set_ne s.compFlag 1 2 (by norm_num),
        getD_set_ne s.compFlag 1 3 (by norm_num),
        getD_set_ne s.compFlag 1 4 (by norm_num),
        getD_set_ne s.compFlag 1 5 (by norm_num),
        getD_set_ne s.compFlag 1 6 (by norm_num),
        getD_set_ne s.compFlag 1 7 (by norm_num),
        getD_set_ne s.compFlag 1 8 (by norm_num),
        getD_set_ne s.compFlag 1 9 (by norm_num),
        getD_set_ne s.compFlag 1 10 (by norm_num),
        getD_set_ne s.compFlag 1 11 (by norm_num)]
      refine ⟨g0, fun _ => hc, g2, g3, g4, g5, g6, g7, g8, g9, g10, g11, gidx, glen, g78, g89, fun hE => by
          have h0 : flagAt s (1 : ℕ) = true := gget hE ⟨1, by norm_num⟩
          unfold flagAt at h0
          rw [hfg] at h0
          exact absurd h0 (by simp)⟩

/-- `i3Block` is the identity when frozen with its flag already set. -/
theorem i3Block_id (s : SeqState) (c : ℕ → ℚ) (k : ℕ)
    (hc : ¬ (s.I3 ≤ -1.9)) (hf : s.compFlag.getD 2 false = true) :
    i3Block s c k = (s, [], k) := by
  unfold i3Block
  rw [if_neg hc, if_neg (not_not_intro hf)]

/-- `i3Block` preserves the reachable-state invariant. -/
theorem i3Block_inv (s : SeqState) (c : ℕ → ℚ) (k : ℕ) (h : Inv cosQ s) :
    Inv cosQ (i3Block s c k).1 := by
  have hmask := i3Block_mask s c k
  have fI1 : (i3Block s c k).1.I1 = s.I1 := by
    have := congrArg SeqState.I1 hmask; exact this
  have fI2 : (i3Block s c k).1.I2 = s.I2 := by
    have := congrArg SeqState.I2 hmask; exact this
  have fK1 : (i3Block s c k).1.K1 = s.K1 := by
    have := congrArg SeqState.K1 hmask; exact this
  have fk2X : (i3Block s c k).1.k2X = s.k2X := by
    have := congrArg SeqState.k2X hmask; exact this
  have fk3X : (i3Block s c k).1.k3X = s.k3X := by
    have := congrArg SeqState.k3X hmask; exact this
  have fe1 : (i3Block s c k).1.e1 = s.e1 := by
    have := congrArg SeqState.e1 hmask; exact this
  have fe234 : (i3Block s c k).1.e234 = s.e234 := by
    have := congrArg SeqState.e234 hmask; exact this
  have fp1 : (i3Block s c k).1.p1 = s.p1 := by
    have := congrArg SeqState.p1 hmask; exact this
  have fp2 : (i3Block s c k).1.p2 = s.p2 := by
    have := congrArg SeqState.p2 hmask; exact this
  have fendGet : (i3Block s c k).1.endGet = s.endGet := by
    have := congrArg SeqState.endGet hmask; exact this
  obtain ⟨g0, g1, g2, g3, g4, g5, g6, g7, g8, g9, g10, g11,
    gidx, glen, g78, g89, gget⟩ := h
  have hidx' := (i3Block_index s c k).1 gidx
  by_cases hc : s.I3 ≤ -1.9
  · have hfl := i3Block_move_flags s c k hc
    unfold Inv flagAt
    simp only [hfl, fI1, fI2, fK1, fk2X, fk3X, fe1, fe234, fp1, fp2, fendGet]
    exact ⟨g0, g1, fun hf => absurd hc (g2 hf), g3, g4, g5, g6, g7, g8, g9, g10, g11, hidx', glen, g78, g89, gget⟩
  · by_cases hfg : s.compFlag.getD 2 false = true
    · rw [congrArg Prod.fst (i3Block_id s c k hc hfg)]
      exact ⟨g0, g1, g2, g3, g4, g5, g6, g7, g8, g9, g10, g11,
        gidx, glen, g78, g89, gget⟩
    · obtain ⟨hv1, hv2, hsq, hix, hfl⟩ := i3Block_stop s c k hc
      simp only [Bool.not_eq_true] at hfg
      rw [if_neg (by rw [hfg]; simp)] at hfl
      unfold Inv flagAt
      simp only [hfl, fI1, fI2, fK1, fk2X, fk3X, fe1, fe234, fp1, fp2, fendGet, hv1, hv2, hsq, hix, List.length_set,
        getD_set_ne s.compFlag 2 0 (by norm_num),
        getD_set_ne s.compFlag 2 1 (by norm_num),
        getD_set_ne s.compFlag 2 3 (by norm_num),
        getD_set_ne s.compFlag 2 4 (by norm_num),
        getD_set_ne s.compFlag 2 5 (by norm_num),
        getD_set_ne s.compFlag 2 6 (by norm_num),
        getD_set_ne s.compFlag 2 7 (by norm_num),
        getD_set_ne s.compFlag 2 8 (by norm_num),
        getD_set_ne s.compFlag 2 9 (by norm_num),
        getD_set_ne s.compFlag 2 10 (by norm_num),
        getD_set_ne s.compFlag 2 11 (by norm_num)]
      refine ⟨g0, g1, fun _ => hc, g3, g4, g5, g6, g7, g8, g9, g10, g11, gidx, glen, g78, g89, fun hE => by
          have h0 : flagAt s (2 : ℕ) = true := gget hE ⟨2, by norm_num⟩
          unfold flagAt at h0
          rw [hfg] at h0
          exact absurd h0 (by simp)⟩

/-- `k1Block` is the identity when frozen with its flag already set. -/
theorem k1Block_id (s : SeqState) (c : ℕ → ℚ) (k : ℕ)
    (hc : ¬ (s.K1 ≥ -1.7)) (hf : s.compFlag.getD 3 false = true) :
    k1Block s c k = (s, [], k) := by
  unfold k1Block
  rw [if_neg hc, if_neg (not_not_intro hf)]

/-- `k1Block` preserves the reachable-state invariant. -/
theorem k1Block_inv (s : SeqState) (c : ℕ → ℚ) (k : ℕ) (h : Inv cosQ s) :
    Inv cosQ (k1Block s c k).1 := by
  have hmask := k1Block_mask s c k
  have fI1 : (k1Block s c k).1.I1 = s.I1 := by
    have := congrArg SeqState.I1 hmask; exact this
  have fI2 : (k1Block s c k).1.I2 = s.I2 := by
    have := congrArg SeqState.I2 hmask; exact this
  have fI3 : (k1Block s c k).1.I3 = s.I3 := by
    have := congrArg SeqState.I3 hmask; exact this
  have fk2X : (k1Block s c k).1.k2X = s.k2X := by
    have := congrArg SeqState.k2X hmask; exact this
  have fk3X : (k1Block s c k).1.k3X = s.k3X := by
    have := congrArg SeqState.k3X hmask; exact this
  have fe1 : (k1Block s c k).1.e1 = s.e1 := by
    have := congrArg SeqState.e1 hmask; exact this
  have fe234 : (k1Block s c k).1.e234 = s.e234 := by
    have := congrArg SeqState.e234 hmask; exact this
  have fp1 : (k1Block s c k).1.p1 = s.p1 := by
    have := congrArg SeqState.p1 hmask; exact this
  have fp2 : (k1Block s c k).1.p2 = s.p2 := by
    have := congrArg SeqState.p2 hmask; exact this
  have fendGet : (k1Block s c k).1.endGet = s.endGet := by
    have := congrArg SeqState.endGet hmask; exact this
  obtain ⟨g0, g1, g2, g3, g4, g5, g6, g7, g8, g9, g10, g11,
    gidx, glen, g78, g89, gget⟩ := h
  have hidx' := (k1Block_index s c k).1 gidx
  by_cases hc : s.K1 ≥ -1.7
  · have hfl := k1Block_move_flags s c k hc
    unfold Inv flagAt
    simp only [hfl, fI1, fI2, fI3, fk2X, fk3X, fe1, fe234, fp1, fp2, fendGet]
    exact ⟨g0, g1, g2, fun hf => absurd hc (g3 hf), g4, g5, g6, g7, g8, g9, g10, g11, hidx', glen, g78, g89, gget⟩
  · by_cases hfg : s.compFlag.getD 3 false = true
    · rw [congrArg Prod.fst (k1Block_id s c k hc hfg)]
      exact ⟨g0, g1, g2, g3, g4, g5, g6, g7, g8, g9, g10, g11,
        gidx, glen, g78, g89, gget⟩
    · obtain ⟨hv1, hv2, hsq, hix, hfl⟩ := k1Block_stop s c k hc
      simp only [Bool.not_eq_true] at hfg
      rw [if_neg (by rw [hfg]; simp)] at hfl
      unfold Inv flagAt
      simp only [hfl, fI1, fI2, fI3, fk2X, fk3X, fe1, fe234, fp1, fp2, fendGet, hv1, hv2, hsq, hix, List.length_set,
        getD_set_ne s.compFlag 3 0 (by norm_num),
        getD_set_ne s.compFlag 3 1 (by norm_num),
        getD_set_ne s.compFlag 3 2 (by norm_num),
        getD_set_ne s.compFlag 3 4 (by norm_num),
        getD_set_ne s.compFlag 3 5 (by norm_num),
        getD_set_ne s.compFlag 3 6 (by norm_num),
        getD_set_ne s.compFlag 3 7 (by norm_num),
        getD_set_ne s.compFlag 3 8 (by norm_num),
        getD_set_ne s.compFlag 3 9 (by norm_num),
        getD_set_ne s.compFlag 3 10 (by norm_num),
        getD_set_ne s.compFlag 3 11 (by norm_num)]
      refine ⟨g0, g1, g2, fun _ => hc, g4, g5, g6, g7, g8, g9, g10, g11, gidx, glen, g78, g89, fun hE => by
          have h0 : flagAt s (3 : ℕ) = true := gget hE ⟨3, by norm_num⟩
          unfold flagAt at h0
          rw [hfg] at h0
          exact absurd h0 (by simp)⟩

/-- `e1Block` is the identity when frozen with its flag already set. -/
theorem e1Block_id (s : SeqState) (c : ℕ → ℚ) (k : ℕ)
    (hc : ¬ (s.e1 ≥ -1.5)) (hf : s.compFlag.getD 6 false = true) :
    e1Block s c k = (s, [], k) := by
  unfold e1Block
  rw [if_neg hc, if_neg (not_not_intro hf)]

/-- `e1Block` preserves the reachable-state invariant. -/
theorem e1Block_inv (s : SeqState) (c : ℕ → ℚ) (k : ℕ) (h : Inv cosQ s) :
    Inv cosQ (e1Block s c k).1 := by
  have hmask := e1Block_mask s c k
  have fI1 : (e1Block s c k).1.I1 = s.I1 := by
    have := congrArg SeqState.I1 hmask; exact this
  have fI2 : (e1Block s c k).1.I2 = s.I2 := by
    have := congrArg SeqState.I2 hmask; exact this
  have fI3 : (e1Block s c k).1.I3 = s.I3 := by
    have := congrArg SeqState.I3 hmask; exact this
  have fK1 : (e1Block s c k).1.K1 = s.K1 := by
    have := congrArg SeqState.K1 hmask; exact this
  have fk2X : (e1Block s c k).1.k2X = s.k2X := by
    have := congrArg SeqState.k2X hmask; exact this
  have fk3X : (e1Block s c k).1.k3X = s.k3X := by
    have := congrArg SeqState.k3X hmask; exact this
  have fe234 : (e1Block s c k).1.e234 = s.e234 := by
    have := congrArg SeqState.e234 hmask; exact this
  have fp1 : (e1Block s c k).1.p1 = s.p1 := by
    have := congrArg SeqState.p1 hmask; exact this
  have fp2 : (e1Block s c k).1.p2 = s.p2 := by
    have := congrArg SeqState.p2 hmask; exact this
  have fendGet : (e1Block s c k).1.endGet = s.endGet := by
    have := congrArg SeqState.endGet hmask; exact this
  obtain ⟨g0, g1, g2, g3, g4, g5, g6, g7, g8, g9, g10, g11,
    gidx, glen, g78, g89, gget⟩ := h
  have hidx' := (e1Block_index s c k).1 gidx
  by_cases hc : s.e1 ≥ -1.5
  · have hfl := e1Block_move_flags s c k hc
    unfold Inv flagAt
    simp only [hfl, fI1, fI2, fI3, fK1, fk2X, fk3X, fe234, fp1, fp2, fendGet]
    exact ⟨g0, g1, g2, g3, g4, g5, fun hf => absurd hc (g6 hf), g7, g8, g9, g10, g11, hidx', glen, g78, g89, gget⟩
  · by_cases hfg : s.compFlag.getD 6 false = true
    · rw [congrArg Prod.fst (e1Block_id s c k hc hfg)]
      exact ⟨g0, g1, g2, g3, g4, g5, g6, g7, g8, g9, g10, g11,
        gidx, glen, g78, g89, gget⟩
    · obtain ⟨hv1, hv2, hsq, hix, hfl⟩ := e1Block_stop s c k hc
      simp only [Bool.not_eq_true] at hfg
      rw [if_neg (by rw [hfg]; simp)] at hfl
      unfold Inv flagAt
      simp only [hfl, fI1, fI2, fI3, fK1, fk2X, fk3X, fe234, fp1, fp2, fendGet, hv1, hv2, hsq, hix, List.length_set,
        getD_set_ne s.compFlag 6 0 (by norm_num),
        getD_set_ne s.compFlag 6 1 (by norm_num),
        getD_set_ne s.compFlag 6 2 (by norm_num),
        getD_set_ne s.compFlag 6 3 (by norm_num),
        getD_set_ne s.compFlag 6 4 (by norm_num),
        getD_set_ne s.compFlag 6 5 (by norm_num),
        getD_set_ne s.compFlag 6 7 (by norm_num),
        getD_set_ne s.compFlag 6 8 (by norm_num),
        getD_set_ne s.compFlag 6 9 (by norm_num),
        getD_set_ne s.compFlag 6 10 (by norm_num),
        getD_set_ne s.compFlag 6 11 (by norm_num)]
      refine ⟨g0, g1, g2, g3, g4, g5, fun _ => hc, g7, g8, g9, g10, g11, gidx, glen, g78, g89, fun hE => by
          have h0 : flagAt s (6 : ℕ) = true := gget hE ⟨6, by norm_num⟩
          unfold flagAt at h0
          rw [hfg] at h0
          exact absurd h0 (by simp)⟩

/-- `p1Block` is the identity when frozen with its flag already set. -/
theorem p1Block_id (s : SeqState) (c : ℕ → ℚ) (k : ℕ)
    (hc : ¬ (s.p1 ≥ -1.7)) (hf : s.compFlag.getD 10 false = true) :
    p1Block s c k = (s, [], k) := by
  unfold p1Block
  rw [if_neg hc, if_neg (not_not_intro hf)]

/-- `p1Block` preserves the reachable-state invariant. -/
theorem p1Block_inv (s : SeqState) (c : ℕ → ℚ) (k : ℕ) (h : Inv cosQ s) :
    Inv cosQ (p1Block s c k).1 := by
  have hmask := p1Block_mask s c k
  have fI1 : (p1Block s c k).1.I1 = s.I1 := by
    have := congrArg SeqState.I1 hmask; exact this
  have fI2 : (p1Block s c k).1.I2 = s.I2 := by
    have := congrArg SeqState.I2 hmask; exact this
  have fI3 : (p1Block s c k).1.I3 = s.I3 := by
    have := congrArg SeqState.I3 hmask; exact this
  have fK1 : (p1Block s c k).1.K1 = s.K1 := by
    have := congrArg SeqState.K1 hmask; exact this
  have fk2X : (p1Block s c k).1.k2X = s.k2X := by
    have := congrArg SeqState.k2X hmask; exact this
  have fk3X : (p1Block s c k).1.k3X = s.k3X := by
    have := congrArg SeqState.k3X hmask; exact this
  have fe1 : (p1Block s c k).1.e1 = s.e1 := by
    have := congrArg SeqState.e1 hmask; exact this
  have fe234 : (p1Block s c k).1.e234 = s.e234 := by
    have := congrArg SeqState.e234 hmask; exact this
  have fp2 : (p1Block s c k).1.p2 = s.p2 := by
    have := congrArg SeqState.p2 hmask; exact this
  have fendGet : (p1Block s c k).1.endGet = s.endGet := by
    have := congrArg SeqState.endGet hmask; exact this
  obtain ⟨g0, g1, g2, g3, g4, g5, g6, g7, g8, g9, g10, g11,
    gidx, glen, g78, g89, gget⟩ := h
  have hidx' := (p1Block_index s c k).1 gidx
  by_cases hc : s.p1 ≥ -1.7
  · have hfl := p1Block_move_flags s c k hc
    unfold Inv flagAt
    simp only [hfl, fI1, fI2, fI3, fK1, fk2X, fk3X, fe1, fe234, fp2, fendGet]
    exact ⟨g0, g1, g2, g3, g4, g5, g6, g7, g8, g9, fun hf => absurd hc (g10 hf), g11, hidx', glen, g78, g89, gget⟩
  · by_cases hfg : s.compFlag.getD 10 false = true
    · rw [congrArg Prod.fst (p1Block_id s c k hc hfg)]
      exact ⟨g0, g1, g2, g3, g4, g5, g6, g7, g8, g9, g10, g11,
        gidx, glen, g78, g89, gget⟩
    · obtain ⟨hv1, hv2, hsq, hix, hfl⟩ := p1Block_stop s c k hc
      simp only [Bool.not_eq_true] at hfg
      rw [if_neg (by rw [hfg]; simp)] at hfl
      unfold Inv flagAt
      simp only [hfl, fI1, fI2, fI3, fK1, fk2X, fk3X, fe1, fe234, fp2, fendGet, hv1, hv2, hsq, hix, List.length_set,
        getD_set_ne s.compFlag 10 0 (by norm_num),
        getD_set_ne s.compFlag 10 1 (by norm_num),
        getD_set_ne s.compFlag 10 2 (by norm_num),
        getD_set_ne s.compFlag 10 3 (by norm_num),
        getD_set_ne s.compFlag 10 4 (by norm_num),
        getD_set_ne s.compFlag 10 5 (by norm_num),
        getD_set_ne s.compFlag 10 6 (by norm_num),
        getD_set_ne s.compFlag 10 7 (by norm_num),
        getD_set_ne s.compFlag 10 8 (by norm_num),
        getD_set_ne s.compFlag 10 9 (by norm_num),
        getD_set_ne s.compFlag 10 11 (by norm_num)]
      refine ⟨g0, g1, g2, g3, g4, g5, g6, g7, g8, g9, fun _ => hc, g11, gidx, glen, g78, g89, fun hE => by
          have h0 : flagAt s (10 : ℕ) = true := gget hE ⟨10, by norm_num⟩
          unfold flagAt at h0
          rw [hfg] at h0
          exact absurd h0 (by simp)⟩

/-- `k2Block` is the identity when frozen with its flag already set. -/
theorem k2Block_id (s : SeqState) (c : ℕ → ℚ) (k : ℕ)
    (hc : ¬ (s.k2X ≤ 0)) (hf : s.compFlag.getD 4 false = true) :
    k2Block s c k = (s, [], k) := by
  unfold k2Block
  rw [if_neg hc, if_neg (not_not_intro hf)]

/-- `k2Block` preserves the reachable-state invariant. -/
theorem k2Block_inv (s : SeqState) (c : ℕ → ℚ) (k : ℕ) (h : Inv cosQ s) :
    Inv cosQ (k2Block s c k).1 := by
  have hmask := k2Block_mask s c k
  have fI1 : (k2Block s c k).1.I1 = s.I1 := by
    have := congrArg SeqState.I1 hmask; exact this
  have fI2 : (k2Block s c k).1.I2 = s.I2 := by
    have := congrArg SeqState.I2 hmask; exact this
  have fI3 : (k2Block s c k).1.I3 = s.I3 := by
    have := congrArg SeqState.I3 hmask; exact this
  have fK1 : (k2Block s c k).1.K1 = s.K1 := by
    have := congrArg SeqState.K1 hmask; exact this
  have fk3X : (k2Block s c k).1.k3X = s.k3X := by
    have := congrArg SeqState.k3X hmask; exact this
  have fe1 : (k2Block s c k).1.e1 = s.e1 := by
    have := congrArg SeqState.e1 hmask; exact this
  have fe234 : (k2Block s c k).1.e234 = s.e234 := by
    have := congrArg SeqState.e234 hmask; exact this
  have fp1 : (k2Block s c k).1.p1 = s.p1 := by
    have := congrArg SeqState.p1 hmask; exact this
  have fp2 : (k2Block s c k).1.p2 = s.p2 := by
    have := congrArg SeqState.p2 hmask; exact this
  have fendGet : (k2Block s c k).1.endGet = s.endGet := by
    have := congrArg SeqState.endGet hmask; exact this
  obtain ⟨g0, g1, g2, g3, g4, g5, g6, g7, g8, g9, g10, g11,
    gidx, glen, g78, g89, gget⟩ := h
  have hidx' := (k2Block_index s c k).1 gidx
  by_cases hc : s.k2X ≤ 0
  · have hfl := k2Block_move_flags s c k hc
    unfold Inv flagAt
    simp only [hfl, fI1, fI2, fI3, fK1, fk3X, fe1, fe234, fp1, fp2, fendGet]
    exact ⟨g0, g1, g2, g3, fun hf => absurd hc (g4 hf), g5, g6, g7, g8, g9, g10, g11, hidx', glen, g78, g89, gget⟩
  · by_cases hfg : s.compFlag.getD 4 false = true
    · rw [congrArg Prod.fst (k2Block_id s c k hc hfg)]
      exact ⟨g0, g1, g2, g3, g4, g5, g6, g7, g8, g9, g10, g11,
        gidx, glen, g78, g89, gget⟩
    · obtain ⟨hv1, hv2, hv3, hsq, hix, hfl⟩ := k2Block_stop s c k hc
      simp only [Bool.not_eq_true] at hfg
      rw [if_neg (by rw [hfg]; simp)] at hfl
      unfold Inv flagAt
      simp only [hfl, fI1, fI2, fI3, fK1, fk3X, fe1, fe234, fp1, fp2, fendGet, hv1, hv2, hv3, hsq, hix, List.length_set,
        getD_set_ne s.compFlag 4 0 (by norm_num),
        getD_set_ne s.compFlag 4 1 (by norm_num),
        getD_set_ne s.compFlag 4 2 (by norm_num),
        getD_set_ne s.compFlag 4 3 (by norm_num),
        getD_set_ne s.compFlag 4 5 (by norm_num),
        getD_set_ne s.compFlag 4 6 (by norm_num),
        getD_set_ne s.compFlag 4 7 (by norm_num),
        getD_set_ne s.compFlag 4 8 (by norm_num),
        getD_set_ne s.compFlag 4 9 (by norm_num),
        getD_set_ne s.compFlag 4 10 (by norm_num),
        getD_set_ne s.compFlag 4 11 (by norm_num)]
      refine ⟨g0, g1, g2, g3, fun _ => hc, g5, g6, g7, g8, g9, g10, g11, gidx, glen, g78, g89, fun hE => by
          have h0 : flagAt s (4 : ℕ) = true := gget hE ⟨4, by norm_num⟩
          unfold flagAt at h0
          rw [hfg] at h0
          exact absurd h0 (by simp)⟩

/-- `k3Block` is the identity when frozen with its flag already set. -/
theorem k3Block_id (s : SeqState) (c : ℕ → ℚ) (k : ℕ)
    (hc : ¬ (s.k3X ≤ 0)) (hf : s.compFlag.getD 5 false = true) :
    k3Block s c k = (s, [], k) := by
  unfold k3Block
  rw [if_neg hc, if_neg (not_not_intro hf)]

/-- `k3Block` preserves the reachable-state invariant. -/
theorem k3Block_inv (s : SeqState) (c : ℕ → ℚ) (k : ℕ) (h : Inv cosQ s) :
    Inv cosQ (k3Block s c k).1 := by
  have hmask := k3Block_mask s c k
  have fI1 : (k3Block s c k).1.I1 = s.I1 := by
    have := congrArg SeqState.I1 hmask; exact this
  have fI2 : (k3Block s c k).1.I2 = s.I2 := by
    have := congrArg SeqState.I2 hmask; exact this
  have fI3 : (k3Block s c k).1.I3 = s.I3 := by
    have := congrArg SeqState.I3 hmask; exact this
  have fK1 : (k3Block s c k).1.K1 = s.K1 := by
    have := congrArg SeqState.K1 hmask; exact this
  have fk2X : (k3Block s c k).1.k2X = s.k2X := by
    have := congrArg SeqState.k2X hmask; exact this
  have fe1 : (k3Block s c k).1.e1 = s.e1 := by
    have := congrArg SeqState.e1 hmask; exact this
  have fe234 : (k3Block s c k).1.e234 = s.e234 := by
    have := congrArg SeqState.e234 hmask; exact this
  have fp1 : (k3Block s c k).1.p1 = s.p1 := by
    have := congrArg SeqState.p1 hmask; exact this
  have fp2 : (k3Block s c k).1.p2 = s.p2 := by
    have := congrArg SeqState.p2 hmask; exact this
  have fendGet : (k3Block s c k).1.endGet = s.endGet := by
    have := congrArg SeqState.endGet hmask; exact this
  obtain ⟨g0, g1, g2, g3, g4, g5, g6, g7, g8, g9, g10, g11,
    gidx, glen, g78, g89, gget⟩ := h
  have hidx' := (k3Block_index s c k).1 gidx
  by_cases hc : s.k3X ≤ 0
  · have hfl := k3Block_move_flags s c k hc
    unfold Inv flagAt
    simp only [hfl, fI1, fI2, fI3, fK1, fk2X, fe1, fe234, fp1, fp2, fendGet]
    exact ⟨g0, g1, g2, g3, g4, fun hf => absurd hc (g5 hf), g6, g7, g8, g9, g10, g11, hidx', glen, g78, g89, gget⟩
  · by_cases hfg : s.compFlag.getD 5 false = true
    · rw [congrArg Prod.fst (k3Block_id s c k hc hfg)]
      exact ⟨g0, g1, g2, g3, g4, g5, g6, g7, g8, g9, g10, g11,
        gidx, glen, g78, g89, gget⟩
    · obtain ⟨hv1, hv2, hv3, hsq, hix, hfl⟩ := k3Block_stop s c k hc
      simp only [Bool.not_eq_true] at hfg
      rw [if_neg (by rw [hfg]; simp)] at hfl
      unfold Inv flagAt
      simp only [hfl, fI1, fI2, fI3, fK1, fk2X, fe1, fe234, fp1, fp2, fendGet, hv1, hv2, hv3, hsq, hix, List.length_set,
        getD_set_ne s.compFlag 5 0 (by norm_num),
        getD_set_ne s.compFlag 5 1 (by norm_num),
        getD_set_ne s.compFlag 5 2 (by norm_num),
        getD_set_ne s.compFlag 5 3 (by norm_num),
        getD_set_ne s.compFlag 5 4 (by norm_num),
        getD_set_ne s.compFlag 5 6 (by norm_num),
        getD_set_ne s.compFlag 5 7 (by norm_num),
        getD_set_ne s.compFlag 5 8 (by norm_num),
        getD_set_ne s.compFlag 5 9 (by norm_num),
        getD_set_ne s.compFlag 5 10 (by norm_num),
        getD_set_ne s.compFlag 5 11 (by norm_num)]
      refine ⟨g0, g1, g2, g3, g4, fun _ => hc, g6, g7, g8, g9, g10, g11, gidx, glen, g78, g89, fun hE => by
          have h0 : flagAt s (5 : ℕ) = true := gget hE ⟨5, by norm_num⟩
          unfold flagAt at h0
          rw [hfg] at h0
          exact absurd h0 (by simp)⟩


/-- `p2Block` is the identity when frozen with its flag already set. -/
theorem p2Block_id (s : SeqState) (c : ℕ → ℚ) (k : ℕ)
    (hc : ¬ (cosQ s.p2 ≥ -0.01)) (hf : s.compFlag.getD 11 false = true) :
    p2Block cosQ sinQ s c k = (s, [], k) := by
  unfold p2Block
  rw [if_neg hc, if_neg (not_not_intro hf)]

/-- `p2Block` preserves the reachable-state invariant. -/
theorem p2Block_inv (s : SeqState) (c : ℕ → ℚ) (k : ℕ) (h : Inv cosQ s) :
    Inv cosQ (p2Block cosQ sinQ s c k).1 := by
  have hmask := p2Block_mask cosQ sinQ s c k
  have fa : (p2Block cosQ sinQ s c k).1.I1 = s.I1 := by
    have := congrArg SeqState.I1 hmask; exact this
  have fb : (p2Block cosQ sinQ s c k).1.I2 = s.I2 := by
    have := congrArg SeqState.I2 hmask; exact this
  have fc : (p2Block cosQ sinQ s c k).1.I3 = s.I3 := by
    have := congrArg SeqState.I3 hmask; exact this
  have fd : (p2Block cosQ sinQ s c k).1.K1 = s.K1 := by
    have := congrArg SeqState.K1 hmask; exact this
  have fe : (p2Block cosQ sinQ s c k).1.k2X = s.k2X := by
    have := congrArg SeqState.k2X hmask; exact this
  have ff : (p2Block cosQ sinQ s c k).1.k3X = s.k3X := by
    have := congrArg SeqState.k3X hmask; exact this
  have fg : (p2Block cosQ sinQ s c k).1.e1 = s.e1 := by
    have := congrArg SeqState.e1 hmask; exact this
  have fh : (p2Block cosQ sinQ s c k).1.e234 = s.e234 := by
    have := congrArg SeqState.e234 hmask; exact this
  have fi : (p2Block cosQ sinQ s c k).1.p1 = s.p1 := by
    have := congrArg SeqState.p1 hmask; exact this
  have fk : (p2Block cosQ sinQ s c k).1.endGet = s.endGet := by
    have := congrArg SeqState.endGet hmask; exact this
  obtain ⟨g0, g1, g2, g3, g4, g5, g6, g7, g8, g9, g10, g11,
    gidx, glen, g78, g89, gget⟩ := h
  have hidx' := (p2Block_index cosQ sinQ s c k).1 gidx
  by_cases hc : cosQ s.p2 ≥ -0.01
  · have hfl := p2Block_move_flags cosQ sinQ s c k hc
    unfold Inv flagAt
    simp only [hfl, fa, fb, fc, fd, fe, ff, fg, fh, fi, fk]
    exact ⟨g0, g1, g2, g3, g4, g5, g6, g7, g8, g9, g10,
      fun hf => absurd hc (g11 hf), hidx', glen, g78, g89, gget⟩
  · by_cases hfg : s.compFlag.getD 11 false = true
    · rw [congrArg Prod.fst (p2Block_id cosQ sinQ s c k hc hfg)]
      exact ⟨g0, g1, g2, g3, g4, g5, g6, g7, g8, g9, g10, g11,
        gidx, glen, g78, g89, gget⟩
    · obtain ⟨hv1, hv2, hsq, hix, hfl⟩ := p2Block_stop cosQ sinQ s c k hc
      simp only [Bool.not_eq_true] at hfg
      rw [if_neg (by rw [hfg]; simp)] at hfl
      unfold Inv flagAt
      simp only [hfl, fa, fb, fc, fd, fe, ff, fg, fh, fi, fk, hv1, hv2, hsq,
        hix, List.length_set,
        getD_set_ne s.compFlag 11 0 (by norm_num),
        getD_set_ne s.compFlag 11 1 (by norm_num),
        getD_set_ne s.compFlag 11 2 (by norm_num),
        getD_set_ne s.compFlag 11 3 (by norm_num),
        getD_set_ne s.compFlag 11 4 (by norm_num),
        getD_set_ne s.compFlag 11 5 (by norm_num),
        getD_set_ne s.compFlag 11 6 (by norm_num),
        getD_set_ne s.compFlag 11 7 (by norm_num),
        getD_set_ne s.compFlag 11 8 (by norm_num),
        getD_set_ne s.compFlag 11 9 (by norm_num),
        getD_set_ne s.compFlag 11 10 (by norm_num)]
      refine ⟨g0, g1, g2, g3, g4, g5, g6, g7, g8, g9, g10, fun _ => hc,
        gidx, glen, g78, g89, fun hE => by
          have h0 : flagAt s (11 : ℕ) = true := gget hE ⟨11, by norm_num⟩
          unfold flagAt at h0
          rw [hfg] at h0
          exact absurd h0 (by simp)⟩

/-- `eBlock` preserves the reachable-state invariant. -/
theorem eBlock_inv (s : SeqState) (c : ℕ → ℚ) (k : ℕ) (h : Inv cosQ s) :
    Inv cosQ (eBlock s c k).1 := by
  obtain ⟨g0, g1, g2, g3, g4, g5, g6, g7, g8, g9, g10, g11,
    gidx, glen, g78, g89, gget⟩ := h
  by_cases hc : s.e234 ≤ 1.8
  · have hmask := eBlock_mask s c k
    have fa : (eBlock s c k).1.I1 = s.I1 := by
      have := congrArg SeqState.I1 hmask; exact this
    have fb : (eBlock s c k).1.I2 = s.I2 := by
      have := congrArg SeqState.I2 hmask; exact this
    have fc : (eBlock s c k).1.I3 = s.I3 := by
      have := congrArg SeqState.I3 hmask; exact this
    have fd : (eBlock s c k).1.K1 = s.K1 := by
      have := congrArg SeqState.K1 hmask; exact this
    have fe : (eBlock s c k).1.k2X = s.k2X := by
      have := congrArg SeqState.k2X hmask; exact this
    have ff : (eBlock s c k).1.k3X = s.k3X := by
      have := congrArg SeqState.k3X hmask; exact this
    have fg : (eBlock s c k).1.e1 = s.e1 := by
      have := congrArg SeqState.e1 hmask; exact this
    have fi : (eBlock s c k).1.p1 = s.p1 := by
      have := congrArg SeqState.p1 hmask; exact this
    have fj : (eBlock s c k).1.p2 = s.p2 := by
      have := congrArg SeqState.p2 hmask; exact this
    have fk : (eBlock s c k).1.endGet = s.endGet := by
      have := congrArg SeqState.endGet hmask; exact this
    have hfl := eBlock_move_flags s c k hc
    have hidx' := (eBlock_index s c k).1 gidx
    unfold Inv flagAt
    simp only [hfl, fa, fb, fc, fd, fe, ff, fg, fi, fj, fk]
    exact ⟨g0, g1, g2, g3, g4, g5, g6, fun hf => absurd hc (g7 hf),
      fun hf => absurd hc (g8 hf), fun hf => absurd hc (g9 hf), g10, g11,
      hidx', glen, g78, g89, gget⟩
  · have hstop := (eBlock_stop s c k hc).1
    have hNe : ∀ j : ℕ, j ≠ 7 → j ≠ 8 → j ≠ 9 →
        (((s.compFlag.set 7 true).set 8 true).set 9 true).getD j false =
          s.compFlag.getD j false := by
      intro j h7 h8 h9
      rw [getD_set_ne _ 9 j (Ne.symm h9), getD_set_ne _ 8 j (Ne.symm h8),
        getD_set_ne _ 7 j (Ne.symm h7)]
    have hT : ∀ i : ℕ, s.compFlag.getD i false = true →
        (((s.compFlag.set 7 true).set 8 true).set 9 true).getD i false =
          true :=
      fun i hi => getD_set_true _ _ _ (getD_set_true _ _ _
        (getD_set_true _ _ _ hi))
    have h7t : (((s.compFlag.set 7 true).set 8 true).set 9 true).getD 7 false
        = true := by
      rw [getD_set_ne _ 9 7 (by norm_num), getD_set_ne _ 8 7 (by norm_num),
        getD_set_self _ 7 (by rw [glen]; norm_num)]
    have h8t : (((s.compFlag.set 7 true).set 8 true).set 9 true).getD 8 false
        = true := by
      rw [getD_set_ne _ 9 8 (by norm_num),
        getD_set_self _ 8 (by simp [glen])]
    have h9t : (((s.compFlag.set 7 true).set 8 true).set 9 true).getD 9 false
        = true := by
      rw [getD_set_self _ 9 (by simp [glen])]
    rw [hstop]
    unfold Inv flagAt
    simp only [List.length_set, h7t, h8t, h9t,
      hNe 0 (by norm_num) (by norm_num) (by norm_num),
      hNe 1 (by norm_num) (by norm_num) (by norm_num),
      hNe 2 (by norm_num) (by norm_num) (by norm_num),
      hNe 3 (by norm_num) (by norm_num) (by norm_num),
      hNe 4 (by norm_num) (by norm_num) (by norm_num),
      hNe 5 (by norm_num) (by norm_num) (by norm_num),
      hNe 6 (by norm_num) (by norm_num) (by norm_num),
      hNe 10 (by norm_num) (by norm_num) (by norm_num),
      hNe 11 (by norm_num) (by norm_num) (by norm_num)]
    exact ⟨g0, g1, g2, g3, g4, g5, g6, fun _ => hc, fun _ => hc, fun _ => hc,
      g10, g11, gidx, glen, trivial, trivial, fun hE i => hT i (gget hE i)⟩


/-!
## Composition over the block list
-/

/-- A state predicate preserved by every block of a list is preserved by
running the list. -/
theorem runBlocks_pres (P : SeqState → Prop) :
    ∀ (bs : List BlockFn),
      (∀ b ∈ bs, ∀ x (c : ℕ → ℚ) (k : ℕ), P x → P (b x c k).1) →
      ∀ s (c : ℕ → ℚ) (k : ℕ), P s → P (runBlocks bs s c k).1 := by
  intro bs
  induction bs with
  | nil => intro _ s c k hP; exact hP
  | cons b rest ih =>
    intro hb s c k hP
    exact ih (fun b' hb' x c' k' => hb b' (List.mem_cons_of_mem _ hb') x c' k')
      _ c _ (hb b (List.mem_cons_self _ _) s c k hP)

/-- A property of every draw issued by every block of a list holds for the
run of the list. -/
theorem runBlocks_draws (Q : Draw → Prop) :
    ∀ (bs : List BlockFn),
      (∀ b ∈ bs, ∀ x (c : ℕ → ℚ) (k : ℕ), ∀ d ∈ (b x c k).2.1, Q d) →
      ∀ s (c : ℕ → ℚ) (k : ℕ), ∀ d ∈ (runBlocks bs s c k).2.1, Q d := by
  intro bs
  induction bs with
  | nil => intro _ s c k d hd; exact absurd hd (List.not_mem_nil d)
  | cons b rest ih =>
    intro hb s c k d hd
    rcases List.mem_append.mp hd with hd | hd
    · exact hb b (List.mem_cons_self _ _) s c k d hd
    · exact ih (fun b' hb' x c' k' => hb b' (List.mem_cons_of_mem _ hb') x c' k')
        _ c _ d hd

/-- A `set` of some flag keeps a true flag true. -/
theorem flag_or_pres {x x' : SeqState} (n : ℕ)
    (h : x'.compFlag = x.compFlag ∨ x'.compFlag = x.compFlag.set n true)
    (i : ℕ) (hi : flagAt x i = true) : flagAt x' i = true := by
  unfold flagAt at *
  rcases h with h | h
  · rw [h]; exact hi
  · rw [h]; exact getD_set_true _ _ _ hi

/-- A `set` of a flag other than `i` does not change flag `i`. -/
theorem flag_or_far {x x' : SeqState} (n : ℕ)
    (h : x'.compFlag = x.compFlag ∨ x'.compFlag = x.compFlag.set n true)
    (i : ℕ) (hni : n ≠ i) : flagAt x' i = flagAt x i := by
  unfold flagAt
  rcases h with h | h
  · rw [h]
  · rw [h, getD_set_ne _ _ _ hni]

/-- The actor phase preserves the reachable-state invariant. -/
theorem actorsPhase_inv (s : SeqState) (c : ℕ → ℚ) (k : ℕ)
    (h : Inv cosQ s) : Inv cosQ (actorsPhase cosQ sinQ s c k).1 := by
  unfold actorsPhase
  refine runBlocks_pres (Inv cosQ) _ ?_ s c k h
  intro b hb
  simp only [blocks, restBlocks, List.mem_cons, List.not_mem_nil,
    or_false] at hb
  rcases hb with rfl | rfl | rfl | rfl | rfl | rfl | rfl | rfl | rfl | rfl
  · exact fun x c' k' => i1Block_inv cosQ x c' k'
  · exact fun x c' k' => i2Block_inv cosQ x c' k'
  · exact fun x c' k' => i3Block_inv cosQ x c' k'
  · exact fun x c' k' => k1Block_inv cosQ x c' k'
  · exact fun x c' k' => k2Block_inv cosQ x c' k'
  · exact fun x c' k' => k3Block_inv cosQ x c' k'
  · exact fun x c' k' => e1Block_inv cosQ x c' k'
  · exact fun x c' k' => eBlock_inv cosQ x c' k'
  · exact fun x c' k' => p1Block_inv cosQ x c' k'
  · exact fun x c' k' => p2Block_inv cosQ sinQ x c' k'

/-- The actor phase never clears a completion flag. -/
theorem actorsPhase_flag_mono (s : SeqState) (c : ℕ → ℚ) (k : ℕ) (i : ℕ)
    (hi : flagAt s i = true) :
    flagAt (actorsPhase cosQ sinQ s c k).1 i = true := by
  unfold actorsPhase
  refine runBlocks_pres (fun x => flagAt x i = true) _ ?_ s c k hi
  intro b hb
  simp only [blocks, restBlocks, List.mem_cons, List.not_mem_nil,
    or_false] at hb
  rcases hb with rfl | rfl | rfl | rfl | rfl | rfl | rfl | rfl | rfl | rfl
  · exact fun x c' k' => flag_or_pres 0 (i1Block_flags x c' k') i
  · exact fun x c' k' => flag_or_pres 1 (i2Block_flags x c' k') i
  · exact fun x c' k' => flag_or_pres 2 (i3Block_flags x c' k') i
  · exact fun x c' k' => flag_or_pres 3 (k1Block_flags x c' k') i
  · exact fun x c' k' => flag_or_pres 4 (k2Block_flags x c' k') i
  · exact fun x c' k' => flag_or_pres 5 (k3Block_flags x c' k') i
  · exact fun x c' k' => flag_or_pres 6 (e1Block_flags x c' k') i
  · intro x c' k' hx
    unfold flagAt at *
    rcases eBlock_flags x c' k' with hf | hf
    · rw [hf]; exact hx
    · rw [hf]
      exact getD_set_true _ _ _ (getD_set_true _ _ _ (getD_set_true _ _ _ hx))
  · exact fun x c' k' => flag_or_pres 10 (p1Block_flags x c' k') i
  · exact fun x c' k' => flag_or_pres 11 (p2Block_flags cosQ sinQ x c' k') i

/-- The trail cursor never exceeds the capacity across the actor phase. -/
theorem actorsPhase_index_le (s : SeqState) (c : ℕ → ℚ) (k : ℕ)
    (h : s.index ≤ indexMax) :
    (actorsPhase cosQ sinQ s c k).1.index ≤ indexMax := by
  unfold actorsPhase
  refine runBlocks_pres (fun x => x.index ≤ indexMax) _ ?_ s c k h
  intro b hb
  simp only [blocks, restBlocks, List.mem_cons, List.not_mem_nil,
    or_false] at hb
  rcases hb with rfl | rfl | rfl | rfl | rfl | rfl | rfl | rfl | rfl | rfl
  · exact fun x c' k' => (i1Block_index x c' k').1
  · exact fun x c' k' => (i2Block_index x c' k').1
  · exact fun x c' k' => (i3Block_index x c' k').1
  · exact fun x c' k' => (k1Block_index x c' k').1
  · exact fun x c' k' => (k2Block_index x c' k').1
  · exact fun x c' k' => (k3Block_index x c' k').1
  · exact fun x c' k' => (e1Block_index x c' k').1
  · exact fun x c' k' => (eBlock_index x c' k').1
  · exact fun x c' k' => (p1Block_index x c' k').1
  · exact fun x c' k' => (p2Block_index cosQ sinQ x c' k').1

/-- When the trail is full, the actor phase drops every emission: the cursor
and the stored squares are untouched. -/
theorem actorsPhase_full (s : SeqState) (c : ℕ → ℚ) (k : ℕ)
    (h : indexMax ≤ s.index) :
    (actorsPhase cosQ sinQ s c k).1.index = s.index ∧
      (actorsPhase cosQ sinQ s c k).1.squarePos = s.squarePos := by
  unfold actorsPhase
  refine runBlocks_pres
    (fun x => x.index = s.index ∧ x.squarePos = s.squarePos) _ ?_ s c k
    ⟨rfl, rfl⟩
  intro b hb
  simp only [blocks, restBlocks, List.mem_cons, List.not_mem_nil,
    or_false] at hb
  have step : ∀ (f : BlockFn),
      (∀ x (c' : ℕ → ℚ) (k' : ℕ), indexMax ≤ x.index →
        (f x c' k').1.index = x.index ∧ (f x c' k').1.squarePos = x.squarePos) →
      ∀ x (c' : ℕ → ℚ) (k' : ℕ),
        x.index = s.index ∧ x.squarePos = s.squarePos →
        (f x c' k').1.index = s.index ∧
          (f x c' k').1.squarePos = s.squarePos := by
    intro f hf x c' k' hx
    have := hf x c' k' (by rw [hx.1]; exact h)
    exact ⟨this.1.trans hx.1, this.2.trans hx.2⟩
  rcases hb with rfl | rfl | rfl | rfl | rfl | rfl | rfl | rfl | rfl | rfl
  · exact step _ (fun x c' k' hx => (i1Block_index x c' k').2 hx)
  · exact step _ (fun x c' k' hx => (i2Block_index x c' k').2 hx)
  · exact step _ (fun x c' k' hx => (i3Block_index x c' k').2 hx)
  · exact step _ (fun x c' k' hx => (k1Block_index x c' k').2 hx)
  · exact step _ (fun x c' k' hx => (k2Block_index x c' k').2 hx)
  · exact step _ (fun x c' k' hx => (k3Block_index x c' k').2 hx)
  · exact step _ (fun x c' k' hx => (e1Block_index x c' k').2 hx)
  · exact step _ (fun x c' k' hx => (eBlock_index x c' k').2 hx)
  · exact step _ (fun x c' k' hx => (p1Block_index x c' k').2 hx)
  · exact step _ (fun x c' k' hx => (p2Block_index cosQ sinQ x c' k').2 hx)

/-- The actor phase never touches `pretime`, `endTime` or `endGet`. -/
theorem actorsPhase_time (s : SeqState) (c : ℕ → ℚ) (k : ℕ) :
    (actorsPhase cosQ sinQ s c k).1.pretime = s.pretime ∧
      (actorsPhase cosQ sinQ s c k).1.endTime = s.endTime ∧
      (actorsPhase cosQ sinQ s c k).1.endGet = s.endGet := by
  unfold actorsPhase
  refine runBlocks_pres
    (fun x => x.pretime = s.pretime ∧ x.endTime = s.endTime ∧
      x.endGet = s.endGet) _ ?_ s c k ⟨rfl, rfl, rfl⟩
  intro b hb
  simp only [blocks, restBlocks, List.mem_cons, List.not_mem_nil,
    or_false] at hb
  have step : ∀ (f : BlockFn), (∀ x (c' : ℕ → ℚ) (k' : ℕ),
      (f x c' k').1.pretime = x.pretime ∧ (f x c' k').1.endTime = x.endTime ∧
        (f x c' k').1.endGet = x.endGet) →
      ∀ x (c' : ℕ → ℚ) (k' : ℕ),
        x.pretime = s.pretime ∧ x.endTime = s.endTime ∧ x.endGet = s.endGet →
        (f x c' k').1.pretime = s.pretime ∧
          (f x c' k').1.endTime = s.endTime ∧
          (f x c' k').1.endGet = s.endGet := by
    intro f hf x c' k' hx
    have := hf x c' k'
    exact ⟨this.1.trans hx.1, this.2.1.trans hx.2.1, this.2.2.trans hx.2.2⟩
  rcases hb with rfl | rfl | rfl | rfl | rfl | rfl | rfl | rfl | rfl | rfl
  · refine step _ (fun x c' k' => ?_)
    have hm := i1Block_mask x c' k'
    refine ⟨?_, ?_, ?_⟩
    · have := congrArg SeqState.pretime hm; exact this
    · have := congrArg SeqState.endTime hm; exact this
    · have := congrArg SeqState.endGet hm; exact this
  · refine step _ (fun x c' k' => ?_)
    have hm := i2Block_mask x c' k'
    refine ⟨?_, ?_, ?_⟩
    · have := congrArg SeqState.pretime hm; exact this
    · have := congrArg SeqState.endTime hm; exact this
    · have := congrArg SeqState.endGet hm; exact this
  · refine step _ (fun x c' k' => ?_)
    have hm := i3Block_mask x c' k'
    refine ⟨?_, ?_, ?_⟩
    · have := congrArg SeqState.pretime hm; exact this
    · have := congrArg SeqState.endTime hm; exact this
    · have := congrArg SeqState.endGet hm; exact this
  · refine step _ (fun x c' k' => ?_)
    have hm := k1Block_mask x c' k'
    refine ⟨?_, ?_, ?_⟩
    · have := congrArg SeqState.pretime hm; exact this
    · have := congrArg SeqState.endTime hm; exact this
    · have := congrArg SeqState.endGet hm; exact this
  · refine step _ (fun x c' k' => ?_)
    have hm := k2Block_mask x c' k'
    refine ⟨?_, ?_, ?_⟩
    · have := congrArg SeqState.pretime hm; exact this
    · have := congrArg SeqState.endTime hm; exact this
    · have := congrArg SeqState.endGet hm; exact this
  · refine step _ (fun x c' k' => ?_)
    have hm := k3Block_mask x c' k'
    refine ⟨?_, ?_, ?_⟩
    · have := congrArg SeqState.pretime hm; exact this
    · have := congrArg SeqState.endTime hm; exact this
    · have := congrArg SeqState.endGet hm; exact this
  · refine step _ (fun x c' k' => ?_)
    have hm := e1Block_mask x c' k'
    refine ⟨?_, ?_, ?_⟩
    · have := congrArg SeqState.pretime hm; exact this
    · have := congrArg SeqState.endTime hm; exact this
    · have := congrArg SeqState.endGet hm; exact this
  · refine step _ (fun x c' k' => ?_)
    have hm := eBlock_mask x c' k'
    refine ⟨?_, ?_, ?_⟩
    · have := congrArg SeqState.pretime hm; exact this
    · have := congrArg SeqState.endTime hm; exact this
    · have := congrArg SeqState.endGet hm; exact this
  · refine step _ (fun x c' k' => ?_)
    have hm := p1Block_mask x c' k'
    refine ⟨?_, ?_, ?_⟩
    · have := congrArg SeqState.pretime hm; exact this
    · have := congrArg SeqState.endTime hm; exact this
    · have := congrArg SeqState.endGet hm; exact this
  · refine step _ (fun x c' k' => ?_)
    have hm := p2Block_mask cosQ sinQ x c' k'
    refine ⟨?_, ?_, ?_⟩
    · have := congrArg SeqState.pretime hm; exact this
    · have := congrArg SeqState.endTime hm; exact this
    · have := congrArg SeqState.endGet hm; exact this

/-- Every draw issued by the actor phase is a cuboid. -/
theorem actorsPhase_draws (s : SeqState) (c : ℕ → ℚ) (k : ℕ) :
    ∀ d ∈ (actorsPhase cosQ sinQ s c k).2.1,
      ∃ a b e f, d = Draw.cuboid a b e f := by
  unfold actorsPhase
  refine runBlocks_draws _ _ ?_ s c k
  intro b hb
  simp only [blocks, restBlocks, List.mem_cons, List.not_mem_nil,
    or_false] at hb
  rcases hb with rfl | rfl | rfl | rfl | rfl | rfl | rfl | rfl | rfl | rfl
  · exact i1Block_draws
  · exact i2Block_draws
  · exact i3Block_draws
  · exact k1Block_draws
  · exact k2Block_draws
  · exact k3Block_draws
  · exact e1Block_draws
  · exact eBlock_draws
  · exact p1Block_draws
  · exact p2Block_draws cosQ sinQ


/-- If actor (viewI1) is frozen (its terminal test fails), the whole actor
phase leaves its position data and phase reference unchanged. -/
theorem actorsPhase_frozen_viewI1 (s : SeqState) (c : ℕ → ℚ) (k : ℕ)
    (hc : ¬ (s.I1 ≤ -1.9)) :
    viewI1 (actorsPhase cosQ sinQ s c k).1 = viewI1 s := by
  unfold actorsPhase
  refine runBlocks_pres (fun x => viewI1 x = viewI1 s) _ ?_ s c k rfl
  intro b hb
  simp only [blocks, restBlocks, List.mem_cons, List.not_mem_nil,
    or_false] at hb
  rcases hb with rfl | rfl | rfl | rfl | rfl | rfl | rfl | rfl | rfl | rfl
  · intro x c' k' hx
    have hvx : x.I1 = s.I1 := congrArg Prod.fst hx
    have hcx : ¬ (x.I1 ≤ -1.9) := by
      intro hcc
      rw [hvx] at hcc
      exact hc hcc
    have st := i1Block_stop x c' k' hcx
    refine Eq.trans ?_ hx
    unfold viewI1
    rw [st.1, st.2.1]
  · intro x c' k' hx
    have hm := i2Block_mask x c' k'
    have hv : viewI1 (i2Block x c' k').1 = viewI1 x := by
      have := congrArg viewI1 hm; exact this
    exact hv.trans hx
  · intro x c' k' hx
    have hm := i3Block_mask x c' k'
    have hv : viewI1 (i3Block x c' k').1 = viewI1 x := by
      have := congrArg viewI1 hm; exact this
    exact hv.trans hx
  · intro x c' k' hx
    have hm := k1Block_mask x c' k'
    have hv : viewI1 (k1Block x c' k').1 = viewI1 x := by
      have := congrArg viewI1 hm; exact this
    exact hv.trans hx
  · intro x c' k' hx
    have hm := k2Block_mask x c' k'
    have hv : viewI1 (k2Block x c' k').1 = viewI1 x := by
      have := congrArg viewI1 hm; exact this
    exact hv.trans hx
  · intro x c' k' hx
    have hm := k3Block_mask x c' k'
    have hv : viewI1 (k3Block x c' k').1 = viewI1 x := by
      have := congrArg viewI1 hm; exact this
    exact hv.trans hx
  · intro x c' k' hx
    have hm := e1Block_mask x c' k'
    have hv : viewI1 (e1Block x c' k').1 = viewI1 x := by
      have := congrArg viewI1 hm; exact this
    exact hv.trans hx
  · intro x c' k' hx
    have hm := eBlock_mask x c' k'
    have hv : viewI1 (eBlock x c' k').1 = viewI1 x := by
      have := congrArg viewI1 hm; exact this
    exact hv.trans hx
  · intro x c' k' hx
    have hm := p1Block_mask x c' k'
    have hv : viewI1 (p1Block x c' k').1 = viewI1 x := by
      have := congrArg viewI1 hm; exact this
    exact hv.trans hx
  · intro x c' k' hx
    have hm := p2Block_mask cosQ sinQ x c' k'
    have hv : viewI1 (p2Block cosQ sinQ x c' k').1 = viewI1 x := by
      have := congrArg viewI1 hm; exact this
    exact hv.trans hx

/-- If actor (viewI2) is frozen (its terminal test fails), the whole actor
phase leaves its position data and phase reference unchanged. -/
theorem actorsPhase_frozen_viewI2 (s : SeqState) (c : ℕ → ℚ) (k : ℕ)
    (hc : ¬ (s.I2 ≥ -1.5)) :
    viewI2 (actorsPhase cosQ sinQ s c k).1 = viewI2 s := by
  unfold actorsPhase
  refine runBlocks_pres (fun x => viewI2 x = viewI2 s) _ ?_ s c k rfl
  intro b hb
  simp only [blocks, restBlocks, List.mem_cons, List.not_mem_nil,
    or_false] at hb
  rcases hb with rfl | rfl | rfl | rfl | rfl | rfl | rfl | rfl | rfl | rfl
  · intro x c' k' hx
    have hm := i1Block_mask x c' k'
    have hv : viewI2 (i1Block x c' k').1 = viewI2 x := by
      have := congrArg viewI2 hm; exact this
    exact hv.trans hx
  · intro x c' k' hx
    have hvx : x.I2 = s.I2 := congrArg Prod.fst hx
    have hcx : ¬ (x.I2 ≥ -1.5) := by
      intro hcc
      rw [hvx] at hcc
      exact hc hcc
    have st := i2Block_stop x c' k' hcx
    refine Eq.trans ?_ hx
    unfold viewI2
    rw [st.1, st.2.1]
  · intro x c' k' hx
    have hm := i3Block_mask x c' k'
    have hv : viewI2 (i3Block x c' k').1 = viewI2 x := by
      have := congrArg viewI2 hm; exact this
    exact hv.trans hx
  · intro x c' k' hx
    have hm := k1Block_mask x c' k'
    have hv : viewI2 (k1Block x c' k').1 = viewI2 x := by
      have := congrArg viewI2 hm; exact this
    exact hv.trans hx
  · intro x c' k' hx
    have hm := k2Block_mask x c' k'
    have hv : viewI2 (k2Block x c' k').1 = viewI2 x := by
      have := congrArg viewI2 hm; exact this
    exact hv.trans hx
  · intro x c' k' hx
    have hm := k3Block_mask x c' k'
    have hv : viewI2 (k3Block x c' k').1 = viewI2 x := by
      have := congrArg viewI2 hm; exact this
    exact hv.trans hx
  · intro x c' k' hx
    have hm := e1Block_mask x c' k'
    have hv : viewI2 (e1Block x c' k').1 = viewI2 x := by
      have := congrArg viewI2 hm; exact this
    exact hv.trans hx
  · intro x c' k' hx
    have hm := eBlock_mask x c' k'
    have hv : viewI2 (eBlock x c' k').1 = viewI2 x := by
      have := congrArg viewI2 hm; exact this
    exact hv.trans hx
  · intro x c' k' hx
    have hm := p1Block_mask x c' k'
    have hv : viewI2 (p1Block x c' k').1 = viewI2 x := by
      have := congrArg viewI2 hm; exact this
    exact hv.trans hx
  · intro x c' k' hx
    have hm := p2Block_mask cosQ sinQ x c' k'
    have hv : viewI2 (p2Block cosQ sinQ x c' k').1 = viewI2 x := by
      have := congrArg viewI2 hm; exact this
    exact hv.trans hx

/-- If actor (viewI3) is frozen (its terminal test fails), the whole actor
phase leaves its position data and phase reference unchanged. -/
theorem actorsPhase_frozen_viewI3 (s : SeqState) (c : ℕ → ℚ) (k : ℕ)
    (hc : ¬ (s.I3 ≤ -1.9)) :
    viewI3 (actorsPhase cosQ sinQ s c k).1 = viewI3 s := by
  unfold actorsPhase
  refine runBlocks_pres (fun x => viewI3 x = viewI3 s) _ ?_ s c k rfl
  intro b hb
  simp only [blocks, restBlocks, List.mem_cons, List.not_mem_nil,
    or_false] at hb
  rcases hb with rfl | rfl | rfl | rfl | rfl | rfl | rfl | rfl | rfl | rfl
  · intro x c' k' hx
    have hm := i1Block_mask x c' k'
    have hv : viewI3 (i1Block x c' k').1 = viewI3 x := by
      have := congrArg viewI3 hm; exact this
    exact hv.trans hx
  · intro x c' k' hx
    have hm := i2Block_mask x c' k'
    have hv : viewI3 (i2Block x c' k').1 = viewI3 x := by
      have := congrArg viewI3 hm; exact this
    exact hv.trans hx
  · intro x c' k' hx
    have hvx : x.I3 = s.I3 := congrArg Prod.fst hx
    have hcx : ¬ (x.I3 ≤ -1.9) := by
      intro hcc
      rw [hvx] at hcc
      exact hc hcc
    have st := i3Block_stop x c' k' hcx
    refine Eq.trans ?_ hx
    unfold viewI3
    rw [st.1, st.2.1]
  · intro x c' k' hx
    have hm := k1Block_mask x c' k'
    have hv : viewI3 (k1Block x c' k').1 = viewI3 x := by
      have := congrArg viewI3 hm; exact this
    exact hv.trans hx
  · intro x c' k' hx
    have hm := k2Block_mask x c' k'
    have hv : viewI3 (k2Block x c' k').1 = viewI3 x := by
      have := congrArg viewI3 hm; exact this
    exact hv.trans hx
  · intro x c' k' hx
    have hm := k3Block_mask x c' k'
    have hv : viewI3 (k3Block x c' k').1 = viewI3 x := by
      have := congrArg viewI3 hm; exact this
    exact hv.trans hx
  · intro x c' k' hx
    have hm := e1Block_mask x c' k'
    have hv : viewI3 (e1Block x c' k').1 = viewI3 x := by
      have := congrArg viewI3 hm; exact this
    exact hv.trans hx
  · intro x c' k' hx
    have hm := eBlock_mask x c' k'
    have hv : viewI3 (eBlock x c' k').1 = viewI3 x := by
      have := congrArg viewI3 hm; exact this
    exact hv.trans hx
  · intro x c' k' hx
    have hm := p1Block_mask x c' k'
    have hv : viewI3 (p1Block x c' k').1 = viewI3 x := by
      have := congrArg viewI3 hm; exact this
    exact hv.trans hx
  · intro x c' k' hx
    have hm := p2Block_mask cosQ sinQ x c' k'
    have hv : viewI3 (p2Block cosQ sinQ x c' k').1 = viewI3 x := by
      have := congrArg viewI3 hm; exact this
    exact hv.trans hx

/-- If actor (viewK1) is frozen (its terminal test fails), the whole actor
phase leaves its position data and phase reference unchanged. -/
theorem actorsPhase_frozen_viewK1 (s : SeqState) (c : ℕ → ℚ) (k : ℕ)
    (hc : ¬ (s.K1 ≥ -1.7)) :
    viewK1 (actorsPhase cosQ sinQ s c k).1 = viewK1 s := by
  unfold actorsPhase
  refine runBlocks_pres (fun x => viewK1 x = viewK1 s) _ ?_ s c k rfl
  intro b hb
  simp only [blocks, restBlocks, List.mem_cons, List.not_mem_nil,
    or_false] at hb
  rcases hb with rfl | rfl | rfl | rfl | rfl | rfl | rfl | rfl | rfl | rfl
  · intro x c' k' hx
    have hm := i1Block_mask x c' k'
    have hv : viewK1 (i1Block x c' k').1 = viewK1 x := by
      have := congrArg viewK1 hm; exact this
    exact hv.trans hx
  · intro x c' k' hx
    have hm := i2Block_mask x c' k'
    have hv : viewK1 (i2Block x c' k').1 = viewK1 x := by
      have := congrArg viewK1 hm; exact this
    exact hv.trans hx
  · intro x c' k' hx
    have hm := i3Block_mask x c' k'
    have hv : viewK1 (i3Block x c' k').1 = viewK1 x := by
      have := congrArg viewK1 hm; exact this
    exact hv.trans hx
  · intro x c' k' hx
    have hvx : x.K1 = s.K1 := congrArg Prod.fst hx
    have hcx : ¬ (x.K1 ≥ -1.7) := by
      intro hcc
      rw [hvx] at hcc
      exact hc hcc
    have st := k1Block_stop x c' k' hcx
    refine Eq.trans ?_ hx
    unfold viewK1
    rw [st.1, st.2.1]
  · intro x c' k' hx
    have hm := k2Block_mask x c' k'
    have hv : viewK1 (k2Block x c' k').1 = viewK1 x := by
      have := congrArg viewK1 hm; exact this
    exact hv.trans hx
  · intro x c' k' hx
    have hm := k3Block_mask x c' k'
    have hv : viewK1 (k3Block x c' k').1 = viewK1 x := by
      have := congrArg viewK1 hm; exact this
    exact hv.trans hx
  · intro x c' k' hx
    have hm := e1Block_mask x c' k'
    have hv : viewK1 (e1Block x c' k').1 = viewK1 x := by
      have := congrArg viewK1 hm; exact this
    exact hv.trans hx
  · intro x c' k' hx
    have hm := eBlock_mask x c' k'
    have hv : viewK1 (eBlock x c' k').1 = viewK1 x := by
      have := congrArg viewK1 hm; exact this
    exact hv.trans hx
  · intro x c' k' hx
    have hm := p1Block_mask x c' k'
    have hv : viewK1 (p1Block x c' k').1 = viewK1 x := by
      have := congrArg viewK1 hm; exact this
    exact hv.trans hx
  · intro x c' k' hx
    have hm := p2Block_mask cosQ sinQ x c' k'
    have hv : viewK1 (p2Block cosQ sinQ x c' k').1 = viewK1 x := by
      have := congrArg viewK1 hm; exact this
    exact hv.trans hx

/-- If actor (viewK2) is frozen (its terminal test fails), the whole actor
phase leaves its position data and phase reference unchanged. -/
theorem actorsPhase_frozen_viewK2 (s : SeqState) (c : ℕ → ℚ) (k : ℕ)
    (hc : ¬ (s.k2X ≤ 0)) :
    viewK2 (actorsPhase cosQ sinQ s c k).1 = viewK2 s := by
  unfold actorsPhase
  refine runBlocks_pres (fun x => viewK2 x = viewK2 s) _ ?_ s c k rfl
  intro b hb
  simp only [blocks, restBlocks, List.mem_cons, List.not_mem_nil,
    or_false] at hb
  rcases hb with rfl | rfl | rfl | rfl | rfl | rfl | rfl | rfl | rfl | rfl
  · intro x c' k' hx
    have hm := i1Block_mask x c' k'
    have hv : viewK2 (i1Block x c' k').1 = viewK2 x := by
      have := congrArg viewK2 hm; exact this
    exact hv.trans hx
  · intro x c' k' hx
    have hm := i2Block_mask x c' k'
    have hv : viewK2 (i2Block x c' k').1 = viewK2 x := by
      have := congrArg viewK2 hm; exact this
    exact hv.trans hx
  · intro x c' k' hx
    have hm := i3Block_mask x c' k'
    have hv : viewK2 (i3Block x c' k').1 = viewK2 x := by
      have := congrArg viewK2 hm; exact this
    exact hv.trans hx
  · intro x c' k' hx
    have hm := k1Block_mask x c' k'
    have hv : viewK2 (k1Block x c' k').1 = viewK2 x := by
      have := congrArg viewK2 hm; exact this
    exact hv.trans hx
  · intro x c' k' hx
    have hvx : x.k2X = s.k2X := congrArg Prod.fst hx
    have hcx : ¬ (x.k2X ≤ 0) := by
      intro hcc
      rw [hvx] at hcc
      exact hc hcc
    have st := k2Block_stop x c' k' hcx
    refine Eq.trans ?_ hx
    unfold viewK2
    rw [st.1, st.2.1, st.2.2.1]
  · intro x c' k' hx
    have hm := k3Block_mask x c' k'
    have hv : viewK2 (k3Block x c' k').1 = viewK2 x := by
      have := congrArg viewK2 hm; exact this
    exact hv.trans hx
  · intro x c' k' hx
    have hm := e1Block_mask x c' k'
    have hv : viewK2 (e1Block x c' k').1 = viewK2 x := by
      have := congrArg viewK2 hm; exact this
    exact hv.trans hx
  · intro x c' k' hx
    have hm := eBlock_mask x c' k'
    have hv : viewK2 (eBlock x c' k').1 = viewK2 x := by
      have := congrArg viewK2 hm; exact this
    exact hv.trans hx
  · intro x c' k' hx
    have hm := p1Block_mask x c' k'
    have hv : viewK2 (p1Block x c' k').1 = viewK2 x := by
      have := congrArg viewK2 hm; exact this
    exact hv.trans hx
  · intro x c' k' hx
    have hm := p2Block_mask cosQ sinQ x c' k'
    have hv : viewK2 (p2Block cosQ sinQ x c' k').1 = viewK2 x := by
      have := congrArg viewK2 hm; exact this
    exact hv.trans hx

/-- If actor (viewK3) is frozen (its terminal test fails), the whole actor
phase leaves its position data and phase reference unchanged. -/
theorem actorsPhase_frozen_viewK3 (s : SeqState) (c : ℕ → ℚ) (k : ℕ)
    (hc : ¬ (s.k3X ≤ 0)) :
    viewK3 (actorsPhase cosQ sinQ s c k).1 = viewK3 s := by
  unfold actorsPhase
  refine runBlocks_pres (fun x => viewK3 x = viewK3 s) _ ?_ s c k rfl
  intro b hb
  simp only [blocks, restBlocks, List.mem_cons, List.not_mem_nil,
    or_false] at hb
  rcases hb with rfl | rfl | rfl | rfl | rfl | rfl | rfl | rfl | rfl | rfl
  · intro x c' k' hx
    have hm := i1Block_mask x c' k'
    have hv : viewK3 (i1Block x c' k').1 = viewK3 x := by
      have := congrArg viewK3 hm; exact this
    exact hv.trans hx
  · intro x c' k' hx
    have hm := i2Block_mask x c' k'
    have hv : viewK3 (i2Block x c' k').1 = viewK3 x := by
      have := congrArg viewK3 hm; exact this
    exact hv.trans hx
  · intro x c' k' hx
    have hm := i3Block_mask x c' k'
    have hv : viewK3 (i3Block x c' k').1 = viewK3 x := by
      have := congrArg viewK3 hm; exact this
    exact hv.trans hx
  · intro x c' k' hx
    have hm := k1Block_mask x c' k'
    have hv : viewK3 (k1Block x c' k').1 = viewK3 x := by
      have := congrArg viewK3 hm; exact this
    exact hv.trans hx
  · intro x c' k' hx
    have hm := k2Block_mask x c' k'
    have hv : viewK3 (k2Block x c' k').1 = viewK3 x := by
      have := congrArg viewK3 hm; exact this
    exact hv.trans hx
  · intro x c' k' hx
    have hvx : x.k3X = s.k3X := congrArg Prod.fst hx
    have hcx : ¬ (x.k3X ≤ 0) := by
      intro hcc
      rw [hvx] at hcc
      exact hc hcc
    have st := k3Block_stop x c' k' hcx
    refine Eq.trans ?_ hx
    unfold viewK3
    rw [st.1, st.2.1, st.2.2.1]
  · intro x c' k' hx
    have hm := e1Block_mask x c' k'
    have hv : viewK3 (e1Block x c' k').1 = viewK3 x := by
      have := congrArg viewK3 hm; exact this
    exact hv.trans hx
  · intro x c' k' hx
    have hm := eBlock_mask x c' k'
    have hv : viewK3 (eBlock x c' k').1 = viewK3 x := by
      have := congrArg viewK3 hm; exact this
    exact hv.trans hx
  · intro x c' k' hx
    have hm := p1Block_mask x c' k'
    have hv : viewK3 (p1Block x c' k').1 = viewK3 x := by
      have := congrArg viewK3 hm; exact this
    exact hv.trans hx
  · intro x c' k' hx
    have hm := p2Block_mask cosQ sinQ x c' k'
    have hv : viewK3 (p2Block cosQ sinQ x c' k').1 = viewK3 x := by
      have := congrArg viewK3 hm; exact this
    exact hv.trans hx

/-- If actor (viewE1) is frozen (its terminal test fails), the whole actor
phase leaves its position data and phase reference unchanged. -/
theorem actorsPhase_frozen_viewE1 (s : SeqState) (c : ℕ → ℚ) (k : ℕ)
    (hc : ¬ (s.e1 ≥ -1.5)) :
    viewE1 (actorsPhase cosQ sinQ s c k).1 = viewE1 s := by
  unfold actorsPhase
  refine runBlocks_pres (fun x => viewE1 x = viewE1 s) _ ?_ s c k rfl
  intro b hb
  simp only [blocks, restBlocks, List.mem_cons, List.not_mem_nil,
    or_false] at hb
  rcases hb with rfl | rfl | rfl | rfl | rfl | rfl | rfl | rfl | rfl | rfl
  · intro x c' k' hx
    have hm := i1Block_mask x c' k'
    have hv : viewE1 (i1Block x c' k').1 = viewE1 x := by
      have := congrArg viewE1 hm; exact this
    exact hv.trans hx
  · intro x c' k' hx
    have hm := i2Block_mask x c' k'
    have hv : viewE1 (i2Block x c' k').1 = viewE1 x := by
      have := congrArg viewE1 hm; exact this
    exact hv.trans hx
  · intro x c' k' hx
    have hm := i3Block_mask x c' k'
    have hv : viewE1 (i3Block x c' k').1 = viewE1 x := by
      have := congrArg viewE1 hm; exact this
    exact hv.trans hx
  · intro x c' k' hx
    have hm := k1Block_mask x c' k'
    have hv : viewE1 (k1Block x c' k').1 = viewE1 x := by
      have := congrArg viewE1 hm; exact this
    exact hv.trans hx
  · intro x c' k' hx
    have hm := k2Block_mask x c' k'
    have hv : viewE1 (k2Block x c' k').1 = viewE1 x := by
      have := congrArg viewE1 hm; exact this
    exact hv.trans hx
  · intro x c' k' hx
    have hm := k3Block_mask x c' k'
    have hv : viewE1 (k3Block x c' k').1 = viewE1 x := by
      have := congrArg viewE1 hm; exact this
    exact hv.trans hx
  · intro x c' k' hx
    have hvx : x.e1 = s.e1 := congrArg Prod.fst hx
    have hcx : ¬ (x.e1 ≥ -1.5) := by
      intro hcc
      rw [hvx] at hcc
      exact hc hcc
    have st := e1Block_stop x c' k' hcx
    refine Eq.trans ?_ hx
    unfold viewE1
    rw [st.1, st.2.1]
  · intro x c' k' hx
    have hm := eBlock_mask x c' k'
    have hv : viewE1 (eBlock x c' k').1 = viewE1 x := by
      have := congrArg viewE1 hm; exact this
    exact hv.trans hx
  · intro x c' k' hx
    have hm := p1Block_mask x c' k'
    have hv : viewE1 (p1Block x c' k').1 = viewE1 x := by
      have := congrArg viewE1 hm; exact this
    exact hv.trans hx
  · intro x c' k' hx
    have hm := p2Block_mask cosQ sinQ x c' k'
    have hv : viewE1 (p2Block cosQ sinQ x c' k').1 = viewE1 x := by
      have := congrArg viewE1 hm; exact this
    exact hv.trans hx

/-- If actor (viewE) is frozen (its terminal test fails), the whole actor
phase leaves its position data and phase reference unchanged. -/
theorem actorsPhase_frozen_viewE (s : SeqState) (c : ℕ → ℚ) (k : ℕ)
    (hc : ¬ (s.e234 ≤ 1.8)) :
    viewE (actorsPhase cosQ sinQ s c k).1 = viewE s := by
  unfold actorsPhase
  refine runBlocks_pres (fun x => viewE x = viewE s) _ ?_ s c k rfl
  intro b hb
  simp only [blocks, restBlocks, List.mem_cons, List.not_mem_nil,
    or_false] at hb
  rcases hb with rfl | rfl | rfl | rfl | rfl | rfl | rfl | rfl | rfl | rfl
  · intro x c' k' hx
    have hm := i1Block_mask x c' k'
    have hv : viewE (i1Block x c' k').1 = viewE x := by
      have := congrArg viewE hm; exact this
    exact hv.trans hx
  · intro x c' k' hx
    have hm := i2Block_mask x c' k'
    have hv : viewE (i2Block x c' k').1 = viewE x := by
      have := congrArg viewE hm; exact this
    exact hv.trans hx
  · intro x c' k' hx
    have hm := i3Block_mask x c' k'
    have hv : viewE (i3Block x c' k').1 = viewE x := by
      have := congrArg viewE hm; exact this
    exact hv.trans hx
  · intro x c' k' hx
    have hm := k1Block_mask x c' k'
    have hv : viewE (k1Block x c' k').1 = viewE x := by
      have := congrArg viewE hm; exact this
    exact hv.trans hx
  · intro x c' k' hx
    have hm := k2Block_mask x c' k'
    have hv : viewE (k2Block x c' k').1 = viewE x := by
      have := congrArg viewE hm; exact this
    exact hv.trans hx
  · intro x c' k' hx
    have hm := k3Block_mask x c' k'
    have hv : viewE (k3Block x c' k').1 = viewE x := by
      have := congrArg viewE hm; exact this
    exact hv.trans hx
  · intro x c' k' hx
    have hm := e1Block_mask x c' k'
    have hv : viewE (e1Block x c' k').1 = viewE x := by
      have := congrArg viewE hm; exact this
    exact hv.trans hx
  · intro x c' k' hx
    have hvx : x.e234 = s.e234 := congrArg Prod.fst hx
    have hcx : ¬ (x.e234 ≤ 1.8) := by
      intro hcc
      rw [hvx] at hcc
      exact hc hcc
    refine Eq.trans ?_ hx
    rw [(eBlock_stop x c' k' hcx).1]
    rfl
  · intro x c' k' hx
    have hm := p1Block_mask x c' k'
    have hv : viewE (p1Block x c' k').1 = viewE x := by
      have := congrArg viewE hm; exact this
    exact hv.trans hx
  · intro x c' k' hx
    have hm := p2Block_mask cosQ sinQ x c' k'
    have hv : viewE (p2Block cosQ sinQ x c' k').1 = viewE x := by
      have := congrArg viewE hm; exact this
    exact hv.trans hx

/-- If actor (viewP1) is frozen (its terminal test fails), the whole actor
phase leaves its position data and phase reference unchanged. -/
theorem actorsPhase_frozen_viewP1 (s : SeqState) (c : ℕ → ℚ) (k : ℕ)
    (hc : ¬ (s.p1 ≥ -1.7)) :
    viewP1 (actorsPhase cosQ sinQ s c k).1 = viewP1 s := by
  unfold actorsPhase
  refine runBlocks_pres (fun x => viewP1 x = viewP1 s) _ ?_ s c k rfl
  intro b hb
  simp only [blocks, restBlocks, List.mem_cons, List.not_mem_nil,
    or_false] at hb
  rcases hb with rfl | rfl | rfl | rfl | rfl | rfl | rfl | rfl | rfl | rfl
  · intro x c' k' hx
    have hm := i1Block_mask x c' k'
    have hv : viewP1 (i1Block x c' k').1 = viewP1 x := by
      have := congrArg viewP1 hm; exact this
    exact hv.trans hx
  · intro x c' k' hx
    have hm := i2Block_mask x c' k'
    have hv : viewP1 (i2Block x c' k').1 = viewP1 x := by
      have := congrArg viewP1 hm; exact this
    exact hv.trans hx
  · intro x c' k' hx
    have hm := i3Block_mask x c' k'
    have hv : viewP1 (i3Block x c' k').1 = viewP1 x := by
      have := congrArg viewP1 hm; exact this
    exact hv.trans hx
  · intro x c' k' hx
    have hm := k1Block_mask x c' k'
    have hv : viewP1 (k1Block x c' k').1 = viewP1 x := by
      have := congrArg viewP1 hm; exact this
    exact hv.trans hx
  · intro x c' k' hx
    have hm := k2Block_mask x c' k'
    have hv : viewP1 (k2Block x c' k').1 = viewP1 x := by
      have := congrArg viewP1 hm; exact this
    exact hv.trans hx
  · intro x c' k' hx
    have hm := k3Block_mask x c' k'
    have hv : viewP1 (k3Block x c' k').1 = viewP1 x := by
      have := congrArg viewP1 hm; exact this
    exact hv.trans hx
  · intro x c' k' hx
    have hm := e1Block_mask x c' k'
    have hv : viewP1 (e1Block x c' k').1 = viewP1 x := by
      have := congrArg viewP1 hm; exact this
    exact hv.trans hx
  · intro x c' k' hx
    have hm := eBlock_mask x c' k'
    have hv : viewP1 (eBlock x c' k').1 = viewP1 x := by
      have := congrArg viewP1 hm; exact this
    exact hv.trans hx
  · intro x c' k' hx
    have hvx : x.p1 = s.p1 := congrArg Prod.fst hx
    have hcx : ¬ (x.p1 ≥ -1.7) := by
      intro hcc
      rw [hvx] at hcc
      exact hc hcc
    have st := p1Block_stop x c' k' hcx
    refine Eq.trans ?_ hx
    unfold viewP1
    rw [st.1, st.2.1]
  · intro x c' k' hx
    have hm := p2Block_mask cosQ sinQ x c' k'
    have hv : viewP1 (p2Block cosQ sinQ x c' k').1 = viewP1 x := by
      have := congrArg viewP1 hm; exact this
    exact hv.trans hx

/-- If actor (viewP2) is frozen (its terminal test fails), the whole actor
phase leaves its position data and phase reference unchanged. -/
theorem actorsPhase_frozen_viewP2 (s : SeqState) (c : ℕ → ℚ) (k : ℕ)
    (hc : ¬ (cosQ s.p2 ≥ -0.01)) :
    viewP2 (actorsPhase cosQ sinQ s c k).1 = viewP2 s := by
  unfold actorsPhase
  refine runBlocks_pres (fun x => viewP2 x = viewP2 s) _ ?_ s c k rfl
  intro b hb
  simp only [blocks, restBlocks, List.mem_cons, List.not_mem_nil,
    or_false] at hb
  rcases hb with rfl | rfl | rfl | rfl | rfl | rfl | rfl | rfl | rfl | rfl
  · intro x c' k' hx
    have hm := i1Block_mask x c' k'
    have hv : viewP2 (i1Block x c' k').1 = viewP2 x := by
      have := congrArg viewP2 hm; exact this
    exact hv.trans hx
  · intro x c' k' hx
    have hm := i2Block_mask x c' k'
    have hv : viewP2 (i2Block x c' k').1 = viewP2 x := by
      have := congrArg viewP2 hm; exact this
    exact hv.trans hx
  · intro x c' k' hx
    have hm := i3Block_mask x c' k'
    have hv : viewP2 (i3Block x c' k').1 = viewP2 x := by
      have := congrArg viewP2 hm; exact this
    exact hv.trans hx
  · intro x c' k' hx
    have hm := k1Block_mask x c' k'
    have hv : viewP2 (k1Block x c' k').1 = viewP2 x := by
      have := congrArg viewP2 hm; exact this
    exact hv.trans hx
  · intro x c' k' hx
    have hm := k2Block_mask x c' k'
    have hv : viewP2 (k2Block x c' k').1 = viewP2 x := by
      have := congrArg viewP2 hm; exact this
    exact hv.trans hx
  · intro x c' k' hx
    have hm := k3Block_mask x c' k'
    have hv : viewP2 (k3Block x c' k').1 = viewP2 x := by
      have := congrArg viewP2 hm; exact this
    exact hv.trans hx
  · intro x c' k' hx
    have hm := e1Block_mask x c' k'
    have hv : viewP2 (e1Block x c' k').1 = viewP2 x := by
      have := congrArg viewP2 hm; exact this
    exact hv.trans hx
  · intro x c' k' hx
    have hm := eBlock_mask x c' k'
    have hv : viewP2 (eBlock x c' k').1 = viewP2 x := by
      have := congrArg viewP2 hm; exact this
    exact hv.trans hx
  · intro x c' k' hx
    have hm := p1Block_mask x c' k'
    have hv : viewP2 (p1Block x c' k').1 = viewP2 x := by
      have := congrArg viewP2 hm; exact this
    exact hv.trans hx
  · intro x c' k' hx
    have hvx : x.p2 = s.p2 := congrArg Prod.fst hx
    have hcx : ¬ (cosQ x.p2 ≥ -0.01) := by
      intro hcc
      rw [hvx] at hcc
      exact hc hcc
    have st := p2Block_stop cosQ sinQ x c' k' hcx
    refine Eq.trans ?_ hx
    unfold viewP2
    rw [st.1, st.2.1]

/-- The blocks after actor 0 leave `I1` and `i1_r` unchanged. -/
theorem restBlocks_viewI1 (x : SeqState) (c : ℕ → ℚ) (k : ℕ) :
    viewI1 (runBlocks (restBlocks cosQ sinQ) x c k).1 = viewI1 x := by
  refine runBlocks_pres (fun y => viewI1 y = viewI1 x) _ ?_ x c k rfl
  intro b hb
  simp only [restBlocks, List.mem_cons, List.not_mem_nil, or_false] at hb
  rcases hb with rfl | rfl | rfl | rfl | rfl | rfl | rfl | rfl | rfl
  · intro x c' k' hx
    have hm := i2Block_mask x c' k'
    have hv : viewI1 (i2Block x c' k').1 = viewI1 x := by
      have := congrArg viewI1 hm; exact this
    exact hv.trans hx
  · intro x c' k' hx
    have hm := i3Block_mask x c' k'
    have hv : viewI1 (i3Block x c' k').1 = viewI1 x := by
      have := congrArg viewI1 hm; exact this
    exact hv.trans hx
  · intro x c' k' hx
    have hm := k1Block_mask x c' k'
    have hv : viewI1 (k1Block x c' k').1 = viewI1 x := by
      have := congrArg viewI1 hm; exact this
    exact hv.trans hx
  · intro x c' k' hx
    have hm := k2Block_mask x c' k'
    have hv : viewI1 (k2Block x c' k').1 = viewI1 x := by
      have := congrArg viewI1 hm; exact this
    exact hv.trans hx
  · intro x c' k' hx
    have hm := k3Block_mask x c' k'
    have hv : viewI1 (k3Block x c' k').1 = viewI1 x := by
      have := congrArg viewI1 hm; exact this
    exact hv.trans hx
  · intro x c' k' hx
    have hm := e1Block_mask x c' k'
    have hv : viewI1 (e1Block x c' k').1 = viewI1 x := by
      have := congrArg viewI1 hm; exact this
    exact hv.trans hx
  · intro x c' k' hx
    have hm := eBlock_mask x c' k'
    have hv : viewI1 (eBlock x c' k').1 = viewI1 x := by
      have := congrArg viewI1 hm; exact this
    exact hv.trans hx
  · intro x c' k' hx
    have hm := p1Block_mask x c' k'
    have hv : viewI1 (p1Block x c' k').1 = viewI1 x := by
      have := congrArg viewI1 hm; exact this
    exact hv.trans hx
  · intro x c' k' hx
    have hm := p2Block_mask cosQ sinQ x c' k'
    have hv : viewI1 (p2Block cosQ sinQ x c' k').1 = viewI1 x := by
      have := congrArg viewI1 hm; exact this
    exact hv.trans hx

/-- The blocks after actor 0 leave flag 0 unchanged. -/
theorem restBlocks_flag0 (x : SeqState) (c : ℕ → ℚ) (k : ℕ) :
    flagAt (runBlocks (restBlocks cosQ sinQ) x c k).1 0 = flagAt x 0 := by
  refine runBlocks_pres (fun y => flagAt y 0 = flagAt x 0) _ ?_ x c k rfl
  intro b hb
  simp only [restBlocks, List.mem_cons, List.not_mem_nil, or_false] at hb
  rcases hb with rfl | rfl | rfl | rfl | rfl | rfl | rfl | rfl | rfl
  · intro x c' k' hx
    exact (flag_or_far 1 (i2Block_flags x c' k') 0 (by norm_num)).trans hx
  · intro x c' k' hx
    exact (flag_or_far 2 (i3Block_flags x c' k') 0 (by norm_num)).trans hx
  · intro x c' k' hx
    exact (flag_or_far 3 (k1Block_flags x c' k') 0 (by norm_num)).trans hx
  · intro x c' k' hx
    exact (flag_or_far 4 (k2Block_flags x c' k') 0 (by norm_num)).trans hx
  · intro x c' k' hx
    exact (flag_or_far 5 (k3Block_flags x c' k') 0 (by norm_num)).trans hx
  · intro x c' k' hx
    exact (flag_or_far 6 (e1Block_flags x c' k') 0 (by norm_num)).trans hx
  · intro x c' k' hx
    unfold flagAt at *
    rcases eBlock_flags x c' k' with hf | hf
    · rw [hf]; exact hx
    · rw [hf, getD_set_ne _ 9 0 (by norm_num), getD_set_ne _ 8 0 (by norm_num),
        getD_set_ne _ 7 0 (by norm_num)]
      exact hx
  · intro x c' k' hx
    exact (flag_or_far 10 (p1Block_flags x c' k') 0 (by norm_num)).trans hx
  · intro x c' k' hx
    exact (flag_or_far 11 (p2Block_flags cosQ sinQ x c' k') 0 (by norm_num)).trans hx


/-!
## Gate lemmas
-/

/-- With any flag short of twelve, the gate does nothing. -/
theorem gatePhase_not_all (s : SeqState) (c : ℕ → ℚ) (k : ℕ)
    (h : ¬ 12 ≤ countComplete s.compFlag) : gatePhase s c k = s := by
  unfold gatePhase
  rw [if_neg h]

/-- With flag 0 clear, the completion scan is 0 and the gate does nothing. -/
theorem gatePhase_flag0 (s : SeqState) (c : ℕ → ℚ) (k : ℕ)
    (h : flagAt s 0 = false) : gatePhase s c k = s := by
  refine gatePhase_not_all s c k ?_
  rw [countComplete_eq_zero s.compFlag h]
  norm_num

/-- The four possible outcomes of the gate. -/
theorem gatePhase_cases (s : SeqState) (c : ℕ → ℚ) (k : ℕ) :
    gatePhase s c k = s ∨
      gatePhase s c k = {s with endTime := c k, endGet := true} ∨
      gatePhase s c k = resetS s ∨
      gatePhase s c k = resetS {s with endTime := c k, endGet := true} := by
  unfold gatePhase
  split
  · split
    · split
      · exact Or.inr (Or.inr (Or.inl rfl))
      · exact Or.inl rfl
    · split
      · exact Or.inr (Or.inr (Or.inr rfl))
      · exact Or.inr (Or.inl rfl)
  · exact Or.inl rfl

/-- Once latched, `endTime` is never recaptured (the reset keeps it too). -/
theorem gatePhase_endTime_of_endGet (s : SeqState) (c : ℕ → ℚ) (k : ℕ)
    (h : s.endGet = true) : (gatePhase s c k).endTime = s.endTime := by
  by_cases hall : 12 ≤ countComplete s.compFlag
  · unfold gatePhase
    rw [if_pos hall, if_pos h]
    by_cases hr : 1000 * 5 < c k - s.endTime
    · rw [if_pos hr]
      rfl
    · rw [if_neg hr]
  · rw [gatePhase_not_all s c k hall]

/-- On the first all-complete frame (latch still clear), the gate only
captures `endTime = now`; with a constant clock it cannot reset on that same
frame. -/
theorem gatePhase_latch (s : SeqState) (now : ℚ) (k : ℕ)
    (hall : 12 ≤ countComplete s.compFlag) (hg : s.endGet = false) :
    gatePhase s (fun _ => now) k = {s with endTime := now, endGet := true} := by
  unfold gatePhase
  rw [if_pos hall, if_neg (by rw [hg]; simp), if_neg (by norm_num)]

/-- A reset can only fire with the latch already set and the hold expired. -/
theorem gateResets_endGet (s : SeqState) (now : ℚ) (h : gateResets s now) :
    s.endGet = true ∧ 1000 * 5 < now - s.endTime := by
  obtain ⟨h1, h2⟩ := h
  by_cases hg : s.endGet = true
  · rw [if_pos hg] at h2
    exact ⟨hg, h2⟩
  · simp only [Bool.not_eq_true] at hg
    rw [if_neg (by rw [hg]; simp)] at h2
    norm_num at h2

/-- When `gateResets` holds, the gate performs exactly the reset. -/
theorem gatePhase_resets (s : SeqState) (now : ℚ) (k : ℕ)
    (h : gateResets s now) :
    gatePhase s (fun _ => now) k = resetS s := by
  obtain ⟨hg, ht⟩ := gateResets_endGet s now h
  unfold gatePhase
  rw [if_pos h.1, if_pos hg, if_pos ht]

/-- When `gateResets` fails, the gate does not reset: it is the identity or
the one-time latch. -/
theorem gatePhase_no_reset (s : SeqState) (now : ℚ) (k : ℕ)
    (h : ¬ gateResets s now) :
    gatePhase s (fun _ => now) k = s ∨
      gatePhase s (fun _ => now) k =
        {s with endTime := now, endGet := true} := by
  by_cases hall : 12 ≤ countComplete s.compFlag
  · by_cases hg : s.endGet = true
    · left
      unfold gatePhase
      rw [if_pos hall, if_pos hg, if_neg ?_]
      intro hlt
      exact h ⟨hall, by rw [if_pos hg]; exact hlt⟩
    · right
      simp only [Bool.not_eq_true] at hg
      exact gatePhase_latch s now k hall hg
  · left
    exact gatePhase_not_all s _ k hall

/-- The reset restores the initial state except for `pretime` (kept) and
`endTime` (kept). -/
theorem resetS_eq (s : SeqState) :
    resetS s = {initState s.pretime with endTime := s.endTime} := by
  cases s
  rfl

/-- Reading any position of an all-false flag array gives `false`. -/
theorem getD_replicate_false (i : ℕ) :
    (List.replicate 12 false).getD i false = false := by
  rcases Nat.lt_or_ge i 12 with h | h
  · rw [getD_eq_getElem _ _ (by simpa using h)]
    interval_cases i <;> rfl
  · rw [List.getD, List.get?_eq_getElem?, List.getElem?_eq_none (by simpa using h)]
    rfl

/-- A state with cleared flags, a small cursor and a clear latch satisfies
the invariant. -/
theorem Inv_of_cleared (s : SeqState)
    (hf : ∀ i : ℕ, flagAt s i = false)
    (hidx : s.index ≤ indexMax) (hlen : s.compFlag.length = 12)
    (hg : s.endGet = false) : Inv cosQ s := by
  refine ⟨fun h => ?_, fun h => ?_, fun h => ?_, fun h => ?_, fun h => ?_,
    fun h => ?_, fun h => ?_, fun h => ?_, fun h => ?_, fun h => ?_,
    fun h => ?_, fun h => ?_, hidx, hlen, by rw [hf 7, hf 8],
    by rw [hf 8, hf 9], fun hE => by rw [hg] at hE; exact absurd hE (by simp)⟩
  all_goals rw [hf _] at h
  all_goals exact absurd h (by simp)

/-- The invariant holds after a reset. -/
theorem Inv_resetS (s : SeqState) : Inv cosQ (resetS s) := by
  refine Inv_of_cleared cosQ _ (fun i => ?_)
    (by show (0 : ℕ) ≤ indexMax; decide)
    (by show (List.replicate 12 false).length = 12; simp) rfl
  exact getD_replicate_false i

/-- The invariant holds at startup. -/
theorem Inv_initState (t0 : ℚ) : Inv cosQ (initState t0) := by
  refine Inv_of_cleared cosQ _ (fun i => ?_)
    (by show (0 : ℕ) ≤ indexMax; decide)
    (by show (List.replicate 12 false).length = 12; simp) rfl
  exact getD_replicate_false i

/-- The gate preserves the invariant. -/
theorem gatePhase_inv (s : SeqState) (c : ℕ → ℚ) (k : ℕ)
    (h : Inv cosQ s) : Inv cosQ (gatePhase s c k) := by
  unfold gatePhase
  split
  · rename_i hall
    split
    · split
      · exact Inv_resetS cosQ s
      · exact h
    · split
      · exact Inv_resetS cosQ _
      · obtain ⟨g0, g1, g2, g3, g4, g5, g6, g7, g8, g9, g10, g11,
          gidx, glen, g78, g89, _⟩ := h
        exact ⟨g0, g1, g2, g3, g4, g5, g6, g7, g8, g9, g10, g11,
          gidx, glen, g78, g89,
          fun _ i => countComplete_all s.compFlag hall i i.isLt⟩
  · exact h

/-- Convenient unfolding of one frame. -/
theorem renderFrameM_eq (s : SeqState) (c : ℕ → ℚ) :
    renderFrameM cosQ sinQ s c =
      (gatePhase
        {(actorsPhase cosQ sinQ s c 0).1 with
          pretime := c (actorsPhase cosQ sinQ s c 0).2.2} c
        ((actorsPhase cosQ sinQ s c 0).2.2 + 1),
       staticDraws ++ trailDraws s ++ (actorsPhase cosQ sinQ s c 0).2.1) :=
  rfl

/-- One frame preserves the invariant. -/
theorem renderFrameM_inv (s : SeqState) (c : ℕ → ℚ) (h : Inv cosQ s) :
    Inv cosQ (renderFrameM cosQ sinQ s c).1 := by
  rw [renderFrameM_eq]
  refine gatePhase_inv cosQ _ c _ ?_
  exact actorsPhase_inv cosQ sinQ s c 0 h

/-- Every reachable state satisfies the invariant. -/
theorem reachable_inv (s : SeqState) (h : Reachable cosQ sinQ s) :
    Inv cosQ s := by
  induction h with
  | init t0 => exact Inv_initState cosQ t0
  | step _ c ih => exact renderFrameM_inv cosQ sinQ _ c ih


/-- No flag survives a reset. -/
theorem not_flag_resetS (Y : SeqState) (i : ℕ) :
    ¬ (flagAt (resetS Y) i = true) := by
  intro hh
  have h : flagAt (resetS Y) i = false := getD_replicate_false i
  rw [hh] at h
  exact absurd h (by simp)

/-- While actor 0 is still short of its mark, a constant-clock frame
integrates `I1` by half a unit per second of delta, stamps `pretime`, and
leaves flag 0 clear. -/
theorem renderStep_move0 (s : SeqState) (now : ℚ)
    (hc : s.I1 ≤ -1.9) (hf : flagAt s 0 = false) :
    (renderStep cosQ sinQ s now).I1 =
        s.I1 + 0.5 * (now - s.pretime) / 1000 ∧
      (renderStep cosQ sinQ s now).pretime = now ∧
      flagAt (renderStep cosQ sinQ s now) 0 = false := by
  have hap : (actorsPhase cosQ sinQ s (fun _ => now) 0).1 =
      (runBlocks (restBlocks cosQ sinQ) (i1Block s (fun _ => now) 0).1
        (fun _ => now) (i1Block s (fun _ => now) 0).2.2).1 := rfl
  have hfl0 : flagAt (actorsPhase cosQ sinQ s (fun _ => now) 0).1 0 = false := by
    rw [hap, restBlocks_flag0]
    show (i1Block s (fun _ => now) 0).1.compFlag.getD 0 false = false
    rw [(i1Block_move s (fun _ => now) 0 hc).1]
    exact hf
  have hv := restBlocks_viewI1 cosQ sinQ (i1Block s (fun _ => now) 0).1
    (fun _ => now) (i1Block s (fun _ => now) 0).2.2
  have hI1 : (actorsPhase cosQ sinQ s (fun _ => now) 0).1.I1 =
      s.I1 + 0.5 * (now - s.pretime) / 1000 := by
    have h1 : (actorsPhase cosQ sinQ s (fun _ => now) 0).1.I1 =
        (i1Block s (fun _ => now) 0).1.I1 := congrArg Prod.fst hv
    rw [h1, (i1Block_move s (fun _ => now) 0 hc).2]
  have hfin : renderStep cosQ sinQ s now =
      gatePhase
        {(actorsPhase cosQ sinQ s (fun _ => now) 0).1 with
          pretime := now} (fun _ => now)
        ((actorsPhase cosQ sinQ s (fun _ => now) 0).2.2 + 1) := rfl
  rw [hfin, gatePhase_flag0 _ _ _ (by exact hfl0)]
  exact ⟨hI1, rfl, hfl0⟩

/-- The frame on which actor 0 is first past its mark (flag still clear, hold
latch clear): the actor phase raises flag 0 and the gate cannot reset. -/
theorem renderStep_flip0 (s : SeqState) (now : ℚ)
    (hc : ¬ s.I1 ≤ -1.9) (hf : flagAt s 0 = false)
    (hlen : s.compFlag.length = 12) (hg : s.endGet = false) :
    flagAt (renderStep cosQ sinQ s now) 0 = true := by
  have hap : (actorsPhase cosQ sinQ s (fun _ => now) 0).1 =
      (runBlocks (restBlocks cosQ sinQ) (i1Block s (fun _ => now) 0).1
        (fun _ => now) (i1Block s (fun _ => now) 0).2.2).1 := rfl
  have hfl1 : flagAt (i1Block s (fun _ => now) 0).1 0 = true := by
    have hst := (i1Block_stop s (fun _ => now) 0 hc).2.2.2.2
    show (i1Block s (fun _ => now) 0).1.compFlag.getD 0 false = true
    rw [hst, if_neg (by rw [show s.compFlag.getD 0 false = false from hf]; simp)]
    exact getD_set_self s.compFlag 0 (by rw [hlen]; norm_num) true
  have hfl0 : flagAt (actorsPhase cosQ sinQ s (fun _ => now) 0).1 0 = true := by
    rw [hap, restBlocks_flag0]
    exact hfl1
  have hgET : (actorsPhase cosQ sinQ s (fun _ => now) 0).1.endGet = s.endGet :=
    (actorsPhase_time cosQ sinQ s (fun _ => now) 0).2.2
  have hfin : renderStep cosQ sinQ s now =
      gatePhase
        {(actorsPhase cosQ sinQ s (fun _ => now) 0).1 with
          pretime := now} (fun _ => now)
        ((actorsPhase cosQ sinQ s (fun _ => now) 0).2.2 + 1) := rfl
  rw [hfin]
  have hnr : ¬ gateResets
      {(actorsPhase cosQ sinQ s (fun _ => now) 0).1 with pretime := now}
      now := by
    intro hr
    have h1 := (gateResets_endGet _ _ hr).1
    have h2 : (actorsPhase cosQ sinQ s (fun _ => now) 0).1.endGet = true := h1
    rw [hgET, hg] at h2
    exact absurd h2 (by simp)
  rcases gatePhase_no_reset _ now _ hnr with heq | heq <;> rw [heq] <;>
    exact hfl0

/-- Accumulation law for actor 0 along a monotone frame-time list that stays
within 2200 ms of the start: `I1` is the integral of its velocity, `pretime`
is the last frame time, flag 0 stays clear, and the latch stays clear. -/
theorem runFrames_I1 (ts : List ℚ) :
    ∀ (s : SeqState) (tp t0 : ℚ), List.Chain (· ≤ ·) tp ts →
      (∀ t ∈ ts, t ≤ t0 + 2200) →
      s.I1 = -3 + 0.5 * (tp - t0) / 1000 → s.pretime = tp →
      flagAt s 0 = false → t0 ≤ tp →
      (runFrames cosQ sinQ s ts).I1 =
          -3 + 0.5 * (ts.getLastD tp - t0) / 1000 ∧
        (runFrames cosQ sinQ s ts).pretime = ts.getLastD tp ∧
        flagAt (runFrames cosQ sinQ s ts) 0 = false := by
  induction ts with
  | nil =>
    intro s tp t0 _ _ hI hp hf _
    exact ⟨hI, hp, hf⟩
  | cons t rest ih =>
    intro s tp t0 hchain hle hI hp hf ht0
    obtain ⟨htp, hchain'⟩ := List.chain_cons.mp hchain
    have hcap : tp ≤ t0 + 2200 := by
      rcases rest with _ | ⟨u, us⟩
      · exact le_trans htp (hle t (by simp))
      · exact le_trans htp (hle t (by simp))
    have hcond : s.I1 ≤ -1.9 := by
      rw [hI]
      have : 0.5 * (tp - t0) / 1000 ≤ 1.1 := by linarith
      linarith
    have hstep := renderStep_move0 cosQ sinQ s t hcond hf
    have hstep1 : (renderStep cosQ sinQ s t).I1 =
        -3 + 0.5 * (t - t0) / 1000 := by
      rw [hstep.1, hI, hp]
      ring
    rw [List.getLastD_cons]
    exact ih (renderStep cosQ sinQ s t) t t0 hchain'
      (fun u hu => hle u (List.mem_cons_of_mem _ hu)) hstep1 hstep.2.1
      hstep.2.2 (le_trans ht0 htp)

/-- Firing emission site of actor 0: one square appended at the integrated
position, cursor advanced once, phase reference rewritten to `-now / 250`. -/
theorem i1Block_emit (s : SeqState) (c : ℕ → ℚ) (k : ℕ)
    (hc : s.I1 ≤ -1.9) (ht : emitTestP s.i1_r (c (k + 2)))
    (hidx : s.index < indexMax) :
    (i1Block s c k).1.index = s.index + 1 ∧
      (i1Block s c k).1.squarePos = s.squarePos.set s.index
        (s.I1 + 0.5 * (c (k + 1) - s.pretime) / 1000, 1.5, 0) ∧
      (i1Block s c k).1.i1_r = -(c (k + 3) / 250) := by
  unfold i1Block pushSquare
  rw [if_pos hc, if_pos ⟨ht, hidx⟩]
  exact ⟨rfl, rfl, rfl⟩

/-- Firing emission site of the reversed-spin actor 5: one square appended,
cursor advanced once, phase reference rewritten to `+now / 250`. -/
theorem k3Block_emit (s : SeqState) (c : ℕ → ℚ) (k : ℕ)
    (hc : s.k3X ≤ 0) (ht : emitTestM s.k3_r (c (k + 3)))
    (hidx : s.index < indexMax) :
    (k3Block s c k).1.index = s.index + 1 ∧
      (k3Block s c k).1.k3_r = c (k + 4) / 250 := by
  unfold k3Block pushSquare
  rw [if_pos hc, if_pos ⟨ht, hidx⟩]
  exact ⟨rfl, rfl⟩

/-- After an emission stored `ref = -(t / 250)`, the truncated-integer test
fails at any time in the same or the following quarter period. -/
theorem emitTestP_suppress (t u : ℚ)
    (hm : ratTrunc (t / 250) ≤ ratTrunc (u / 250))
    (h1 : ratTrunc (u / 250) ≤ ratTrunc (t / 250) + 1) :
    ¬ emitTestP (-(t / 250)) u := by
  unfold emitTestP
  rw [ratTrunc_neg]
  intro habs
  rw [abs_ge_piHalf_iff] at habs
  have hb : |(-(ratTrunc (t / 250)) + ratTrunc (u / 250))| ≤ 1 := by
    rw [abs_le]
    omega
  omega

/-- Same suppression for the reversed-sign reference convention of actor 5
(`ref = +(t / 250)`, test subtracts). -/
theorem emitTestM_suppress (t u : ℚ)
    (hm : ratTrunc (t / 250) ≤ ratTrunc (u / 250))
    (h1 : ratTrunc (u / 250) ≤ ratTrunc (t / 250) + 1) :
    ¬ emitTestM (t / 250) u := by
  unfold emitTestM
  intro habs
  rw [abs_ge_piHalf_iff] at habs
  have hb : |(ratTrunc (t / 250) - ratTrunc (u / 250))| ≤ 1 := by
    rw [abs_le]
    omega
  omega


/-!
## Clock-read locality: each block consumes a bounded window of reads
-/

/-- `eSubA` consumes one or two reads. -/
theorem eSubA_count (s : SeqState) (a b : ℚ) :
    1 ≤ (eSubA s a b).2 ∧ (eSubA s a b).2 ≤ 2 := by
  unfold eSubA
  split <;> simp

/-- `eSubB` consumes one or two reads. -/
theorem eSubB_count (s : SeqState) (a b : ℚ) :
    1 ≤ (eSubB s a b).2 ∧ (eSubB s a b).2 ≤ 2 := by
  unfold eSubB
  split <;> simp

/-- `eSubC` consumes two or three reads. -/
theorem eSubC_count (s : SeqState) (a b d : ℚ) :
    2 ≤ (eSubC s a b d).2 ∧ (eSubC s a b d).2 ≤ 3 := by
  unfold eSubC
  split <;> simp

/-- The read counter of `i1Block` moves forward by at most ten. -/
theorem i1Block_next (s : SeqState) (c : ℕ → ℚ) (k : ℕ) :
    k ≤ (i1Block s c k).2.2 ∧ (i1Block s c k).2.2 ≤ k + 10 := by
  unfold i1Block pushSquare
  split
  · split <;> (dsimp only; exact ⟨by omega, by omega⟩)
  · split <;> (dsimp only; exact ⟨by omega, by omega⟩)

/-- `i1Block` depends only on the reads in its ten-wide window. -/
theorem i1Block_local (s : SeqState) (c c' : ℕ → ℚ) (k : ℕ)
    (h : ∀ j, k ≤ j → j < k + 10 → c j = c' j) :
    i1Block s c k = i1Block s c' k := by
  have e0 := h k (by omega) (by omega)
  have e1 := h (k + 1) (by omega) (by omega)
  have e2 := h (k + 2) (by omega) (by omega)
  have e3 := h (k + 3) (by omega) (by omega)
  unfold i1Block
  rw [e0, e1, e2, e3]

/-- The read counter of `i2Block` moves forward by at most ten. -/
theorem i2Block_next (s : SeqState) (c : ℕ → ℚ) (k : ℕ) :
    k ≤ (i2Block s c k).2.2 ∧ (i2Block s c k).2.2 ≤ k + 10 := by
  unfold i2Block pushSquare
  split
  · split <;> (dsimp only; exact ⟨by omega, by omega⟩)
  · split <;> (dsimp only; exact ⟨by omega, by omega⟩)

/-- `i2Block` depends only on the reads in its ten-wide window. -/
theorem i2Block_local (s : SeqState) (c c' : ℕ → ℚ) (k : ℕ)
    (h : ∀ j, k ≤ j → j < k + 10 → c j = c' j) :
    i2Block s c k = i2Block s c' k := by
  have e0 := h k (by omega) (by omega)
  have e1 := h (k + 1) (by omega) (by omega)
  have e2 := h (k + 2) (by omega) (by omega)
  have e3 := h (k + 3) (by omega) (by omega)
  unfold i2Block
  rw [e0, e1, e2, e3]

/-- The read counter of `i3Block` moves forward by at most ten. -/
theorem i3Block_next (s : SeqState) (c : ℕ → ℚ) (k : ℕ) :
    k ≤ (i3Block s c k).2.2 ∧ (i3Block s c k).2.2 ≤ k + 10 := by
  unfold i3Block pushSquare
  split
  · split <;> (dsimp only; exact ⟨by omega, by omega⟩)
  · split <;> (dsimp only; exact ⟨by omega, by omega⟩)

/-- `i3Block` depends only on the reads in its ten-wide window. -/
theorem i3Block_local (s : SeqState) (c c' : ℕ → ℚ) (k : ℕ)
    (h : ∀ j, k ≤ j → j < k + 10 → c j = c' j) :
    i3Block s c k = i3Block s c' k := by
  have e0 := h k (by omega) (by omega)
  have e1 := h (k + 1) (by omega) (by omega)
  have e2 := h (k + 2) (by omega) (by omega)
  have e3 := h (k + 3) (by omega) (by omega)
  unfold i3Block
  rw [e0, e1, e2, e3]

/-- The read counter of `k1Block` moves forward by at most ten. -/
theorem k1Block_next (s : SeqState) (c : ℕ → ℚ) (k : ℕ) :
    k ≤ (k1Block s c k).2.2 ∧ (k1Block s c k).2.2 ≤ k + 10 := by
  unfold k1Block pushSquare
  split
  · split <;> (dsimp only; exact ⟨by omega, by omega⟩)
  · split <;> (dsimp only; exact ⟨by omega, by omega⟩)

/-- `k1Block` depends only on the reads in its ten-wide window. -/
theorem k1Block_local (s : SeqState) (c c' : ℕ → ℚ) (k : ℕ)
    (h : ∀ j, k ≤ j → j < k + 10 → c j = c' j) :
    k1Block s c k = k1Block s c' k := by
  have e0 := h k (by omega) (by omega)
  have e1 := h (k + 1) (by omega) (by omega)
  have e2 := h (k + 2) (by omega) (by omega)
  have e3 := h (k + 3) (by omega) (by omega)
  unfold k1Block
  rw [e0, e1, e2, e3]

/-- The read counter of `e1Block` moves forward by at most ten. -/
theorem e1Block_next (s : SeqState) (c : ℕ → ℚ) (k : ℕ) :
    k ≤ (e1Block s c k).2.2 ∧ (e1Block s c k).2.2 ≤ k + 10 := by
  unfold e1Block pushSquare
  split
  · split <;> (dsimp only; exact ⟨by omega, by omega⟩)
  · split <;> (dsimp only; exact ⟨by omega, by omega⟩)

/-- `e1Block` depends only on the reads in its ten-wide window. -/
theorem e1Block_local (s : SeqState) (c c' : ℕ → ℚ) (k : ℕ)
    (h : ∀ j, k ≤ j → j < k + 10 → c j = c' j) :
    e1Block s c k = e1Block s c' k := by
  have e0 := h k (by omega) (by omega)
  have e1 := h (k + 1) (by omega) (by omega)
  have e2 := h (k + 2) (by omega) (by omega)
  have e3 := h (k + 3) (by omega) (by omega)
  unfold e1Block
  rw [e0, e1, e2, e3]

/-- The read counter of `p1Block` moves forward by at most ten. -/
theorem p1Block_next (s : SeqState) (c : ℕ → ℚ) (k : ℕ) :
    k ≤ (p1Block s c k).2.2 ∧ (p1Block s c k).2.2 ≤ k + 10 := by
  unfold p1Block pushSquare
  split
  · split <;> (dsimp only; exact ⟨by omega, by omega⟩)
  · split <;> (dsimp only; exact ⟨by omega, by omega⟩)

/-- `p1Block` depends only on the reads in its ten-wide window. -/
theorem p1Block_local (s : SeqState) (c c' : ℕ → ℚ) (k : ℕ)
    (h : ∀ j, k ≤ j → j < k + 10 → c j = c' j) :
    p1Block s c k = p1Block s c' k := by
  have e0 := h k (by omega) (by omega)
  have e1 := h (k + 1) (by omega) (by omega)
  have e2 := h (k + 2) (by omega) (by omega)
  have e3 := h (k + 3) (by omega) (by omega)
  unfold p1Block
  rw [e0, e1, e2, e3]

/-- The read counter of `k2Block` moves forward by at most ten. -/
theorem k2Block_next (s : SeqState) (c : ℕ → ℚ) (k : ℕ) :
    k ≤ (k2Block s c k).2.2 ∧ (k2Block s c k).2.2 ≤ k + 10 := by
  unfold k2Block pushSquare
  split
  · split <;> (dsimp only; exact ⟨by omega, by omega⟩)
  · split <;> (dsimp only; exact ⟨by omega, by omega⟩)

/-- `k2Block` depends only on the reads in its ten-wide window. -/
theorem k2Block_local (s : SeqState) (c c' : ℕ → ℚ) (k : ℕ)
    (h : ∀ j, k ≤ j → j < k + 10 → c j = c' j) :
    k2Block s c k = k2Block s c' k := by
  have e0 := h k (by omega) (by omega)
  have e1 := h (k + 1) (by omega) (by omega)
  have e2 := h (k + 2) (by omega) (by omega)
  have e3 := h (k + 3) (by omega) (by omega)
  have e4 := h (k + 4) (by omega) (by omega)
  unfold k2Block
  rw [e0, e1, e2, e3, e4]

/-- The read counter of `k3Block` moves forward by at most ten. -/
theorem k3Block_next (s : SeqState) (c : ℕ → ℚ) (k : ℕ) :
    k ≤ (k3Block s c k).2.2 ∧ (k3Block s c k).2.2 ≤ k + 10 := by
  unfold k3Block pushSquare
  split
  · split <;> (dsimp only; exact ⟨by omega, by omega⟩)
  · split <;> (dsimp only; exact ⟨by omega, by omega⟩)

/-- `k3Block` depends only on the reads in its ten-wide window. -/
theorem k3Block_local (s : SeqState) (c c' : ℕ → ℚ) (k : ℕ)
    (h : ∀ j, k ≤ j → j < k + 10 → c j = c' j) :
    k3Block s c k = k3Block s c' k := by
  have e0 := h k (by omega) (by omega)
  have e1 := h (k + 1) (by omega) (by omega)
  have e2 := h (k + 2) (by omega) (by omega)
  have e3 := h (k + 3) (by omega) (by omega)
  have e4 := h (k + 4) (by omega) (by omega)
  unfold k3Block
  rw [e0, e1, e2, e3, e4]

/-- The read counter of `p2Block` moves forward by at most ten. -/
theorem p2Block_next (s : SeqState) (c : ℕ → ℚ) (k : ℕ) :
    k ≤ (p2Block cosQ sinQ s c k).2.2 ∧
      (p2Block cosQ sinQ s c k).2.2 ≤ k + 10 := by
  unfold p2Block pushSquare
  split
  · split <;> (dsimp only; exact ⟨by omega, by omega⟩)
  · split <;> (dsimp only; exact ⟨by omega, by omega⟩)

/-- `p2Block` depends only on the reads in its ten-wide window. -/
theorem p2Block_local (s : SeqState) (c c' : ℕ → ℚ) (k : ℕ)
    (h : ∀ j, k ≤ j → j < k + 10 → c j = c' j) :
    p2Block cosQ sinQ s c k = p2Block cosQ sinQ s c' k := by
  have e0 := h k (by omega) (by omega)
  have e1 := h (k + 1) (by omega) (by omega)
  have e2 := h (k + 2) (by omega) (by omega)
  have e3 := h (k + 3) (by omega) (by omega)
  unfold p2Block
  rw [e0, e1, e2, e3]


/-- The read counter of `eBlock` moves forward by at most ten. -/
theorem eBlock_next (s : SeqState) (c : ℕ → ℚ) (k : ℕ) :
    k ≤ (eBlock s c k).2.2 ∧ (eBlock s c k).2.2 ≤ k + 10 := by
  unfold eBlock
  split
  · dsimp only
    have hA := eSubA_count s (c (k + 1)) (c (k + 2))
    have hB := eSubB_count (eSubA s (c (k + 1)) (c (k + 2))).1
      (c (k + 1 + (eSubA s (c (k + 1)) (c (k + 2))).2 + 1))
      (c (k + 1 + (eSubA s (c (k + 1)) (c (k + 2))).2 + 2))
    have hC := eSubC_count
      (eSubB (eSubA s (c (k + 1)) (c (k + 2))).1
        (c (k + 1 + (eSubA s (c (k + 1)) (c (k + 2))).2 + 1))
        (c (k + 1 + (eSubA s (c (k + 1)) (c (k + 2))).2 + 2))).1
      (c (k + 1 + (eSubA s (c (k + 1)) (c (k + 2))).2 + 1 +
        (eSubB (eSubA s (c (k + 1)) (c (k + 2))).1
          (c (k + 1 + (eSubA s (c (k + 1)) (c (k + 2))).2 + 1))
          (c (k + 1 + (eSubA s (c (k + 1)) (c (k + 2))).2 + 2))).2 + 1))
      (c (k + 1 + (eSubA s (c (k + 1)) (c (k + 2))).2 + 1 +
        (eSubB (eSubA s (c (k + 1)) (c (k + 2))).1
          (c (k + 1 + (eSubA s (c (k + 1)) (c (k + 2))).2 + 1))
          (c (k + 1 + (eSubA s (c (k + 1)) (c (k + 2))).2 + 2))).2 + 2))
      (c (k + 1 + (eSubA s (c (k + 1)) (c (k + 2))).2 + 1 +
        (eSubB (eSubA s (c (k + 1)) (c (k + 2))).1
          (c (k + 1 + (eSubA s (c (k + 1)) (c (k + 2))).2 + 1))
          (c (k + 1 + (eSubA s (c (k + 1)) (c (k + 2))).2 + 2))).2 + 3))
    omega
  · dsimp only
    exact ⟨by omega, by omega⟩

/-- `eBlock` depends only on the reads in its ten-wide window. -/
theorem eBlock_local (s : SeqState) (c c' : ℕ → ℚ) (k : ℕ)
    (h : ∀ j, k ≤ j → j < k + 10 → c j = c' j) :
    eBlock s c k = eBlock s c' k := by
  have e0 := h k (by omega) (by omega)
  have e1 := h (k + 1) (by omega) (by omega)
  have e2 := h (k + 2) (by omega) (by omega)
  unfold eBlock
  rw [e0, e1, e2]
  dsimp only
  have hA := eSubA_count s (c' (k + 1)) (c' (k + 2))
  have eA0 := h (k + 1 + (eSubA s (c' (k + 1)) (c' (k + 2))).2)
    (by omega) (by omega)
  have eA1 := h (k + 1 + (eSubA s (c' (k + 1)) (c' (k + 2))).2 + 1)
    (by omega) (by omega)
  have eA2 := h (k + 1 + (eSubA s (c' (k + 1)) (c' (k + 2))).2 + 2)
    (by omega) (by omega)
  rw [eA0, eA1, eA2]
  have hB := eSubB_count (eSubA s (c' (k + 1)) (c' (k + 2))).1
    (c' (k + 1 + (eSubA s (c' (k + 1)) (c' (k + 2))).2 + 1))
    (c' (k + 1 + (eSubA s (c' (k + 1)) (c' (k + 2))).2 + 2))
  have eB0 := h (k + 1 + (eSubA s (c' (k + 1)) (c' (k + 2))).2 + 1 +
      (eSubB (eSubA s (c' (k + 1)) (c' (k + 2))).1
        (c' (k + 1 + (eSubA s (c' (k + 1)) (c' (k + 2))).2 + 1))
        (c' (k + 1 + (eSubA s (c' (k + 1)) (c' (k + 2))).2 + 2))).2)
    (by omega) (by omega)
  have eB1 := h (k + 1 + (eSubA s (c' (k + 1)) (c' (k + 2))).2 + 1 +
      (eSubB (eSubA s (c' (k + 1)) (c' (k + 2))).1
        (c' (k + 1 + (eSubA s (c' (k + 1)) (c' (k + 2))).2 + 1))
        (c' (k + 1 + (eSubA s (c' (k + 1)) (c' (k + 2))).2 + 2))).2 + 1)
    (by omega) (by omega)
  have eB2 := h (k + 1 + (eSubA s (c' (k + 1)) (c' (k + 2))).2 + 1 +
      (eSubB (eSubA s (c' (k + 1)) (c' (k + 2))).1
        (c' (k + 1 + (eSubA s (c' (k + 1)) (c' (k + 2))).2 + 1))
        (c' (k + 1 + (eSubA s (c' (k + 1)) (c' (k + 2))).2 + 2))).2 + 2)
    (by omega) (by omega)
  have eB3 := h (k + 1 + (eSubA s (c' (k + 1)) (c' (k + 2))).2 + 1 +
      (eSubB (eSubA s (c' (k + 1)) (c' (k + 2))).1
        (c' (k + 1 + (eSubA s (c' (k + 1)) (c' (k + 2))).2 + 1))
        (c' (k + 1 + (eSubA s (c' (k + 1)) (c' (k + 2))).2 + 2))).2 + 3)
    (by omega) (by omega)
  rw [eB0, eB1, eB2, eB3]

/-- The gate depends only on its two possible reads. -/
theorem gatePhase_local (s : SeqState) (c c' : ℕ → ℚ) (k : ℕ)
    (h0 : c k = c' k) (h1 : c (k + 1) = c' (k + 1)) :
    gatePhase s c k = gatePhase s c' k := by
  unfold gatePhase
  rw [h0, h1]

/-- The read counter of a block list moves forward by at most ten per
block. -/
theorem runBlocks_next (bs : List BlockFn)
    (hnext : ∀ b ∈ bs, ∀ x (c : ℕ → ℚ) (k : ℕ),
      k ≤ (b x c k).2.2 ∧ (b x c k).2.2 ≤ k + 10) :
    ∀ s (c : ℕ → ℚ) (k : ℕ), k ≤ (runBlocks bs s c k).2.2 ∧
      (runBlocks bs s c k).2.2 ≤ k + 10 * bs.length := by
  induction bs with
  | nil => intro s c k; exact ⟨le_refl k, by simp [runBlocks]⟩
  | cons b rest ih =>
    intro s c k
    have h1 := hnext b (List.mem_cons_self _ _) s c k
    have h2 := ih (fun b' hb' => hnext b' (List.mem_cons_of_mem _ hb'))
      (b s c k).1 c (b s c k).2.2
    refine ⟨le_trans h1.1 h2.1, ?_⟩
    have hg : (runBlocks (b :: rest) s c k).2.2 =
        (runBlocks rest (b s c k).1 c (b s c k).2.2).2.2 := rfl
    rw [hg]
    simp only [List.length_cons]
    omega

/-- A list of blocks, each depending only on its ten-wide read window,
produces the same result for two clocks that agree on the whole span. -/
theorem runBlocks_local (bs : List BlockFn)
    (hloc : ∀ b ∈ bs, ∀ x (c c' : ℕ → ℚ) (k : ℕ),
      (∀ j, k ≤ j → j < k + 10 → c j = c' j) → b x c k = b x c' k)
    (hnext : ∀ b ∈ bs, ∀ x (c : ℕ → ℚ) (k : ℕ),
      k ≤ (b x c k).2.2 ∧ (b x c k).2.2 ≤ k + 10) :
    ∀ s (c c' : ℕ → ℚ) (k : ℕ),
      (∀ j, k ≤ j → j < k + 10 * bs.length → c j = c' j) →
      runBlocks bs s c k = runBlocks bs s c' k := by
  induction bs with
  | nil => intro s c c' k _; rfl
  | cons b rest ih =>
    intro s c c' k h
    have hlen : (b :: rest).length = rest.length + 1 := rfl
    have h1 : b s c k = b s c' k :=
      hloc b (List.mem_cons_self _ _) s c c' k
        (fun j hj hj2 => h j hj (by rw [hlen]; omega))
    have hk := hnext b (List.mem_cons_self _ _) s c' k
    have h2 : runBlocks rest (b s c' k).1 c (b s c' k).2.2 =
        runBlocks rest (b s c' k).1 c' (b s c' k).2.2 :=
      ih (fun b' hb' => hloc b' (List.mem_cons_of_mem _ hb'))
        (fun b' hb' => hnext b' (List.mem_cons_of_mem _ hb'))
        (b s c' k).1 c c' (b s c' k).2.2
        (fun j hj hj2 => h j (le_trans hk.1 hj) (by rw [hlen]; omega))
    show ((runBlocks rest (b s c k).1 c (b s c k).2.2).1,
      (b s c k).2.1 ++ (runBlocks rest (b s c k).1 c (b s c k).2.2).2.1,
      (runBlocks rest (b s c k).1 c (b s c k).2.2).2.2) = _
    rw [h1, h2]
    rfl

/-- Every actor block is read-local in its ten-wide window. -/
theorem blocks_local :
    ∀ b ∈ blocks cosQ sinQ, ∀ x (c c' : ℕ → ℚ) (k : ℕ),
      (∀ j, k ≤ j → j < k + 10 → c j = c' j) → b x c k = b x c' k := by
  intro b hb
  simp only [blocks, restBlocks, List.mem_cons, List.not_mem_nil,
    or_false] at hb
  rcases hb with rfl | rfl | rfl | rfl | rfl | rfl | rfl | rfl | rfl | rfl
  · exact i1Block_local
  · exact i2Block_local
  · exact i3Block_local
  · exact k1Block_local
  · exact k2Block_local
  · exact k3Block_local
  · exact e1Block_local
  · exact eBlock_local
  · exact p1Block_local
  · exact p2Block_local cosQ sinQ

/-- Every actor block advances the read counter by at most ten. -/
theorem blocks_next :
    ∀ b ∈ blocks cosQ sinQ, ∀ x (c : ℕ → ℚ) (k : ℕ),
      k ≤ (b x c k).2.2 ∧ (b x c k).2.2 ≤ k + 10 := by
  intro b hb
  simp only [blocks, restBlocks, List.mem_cons, List.not_mem_nil,
    or_false] at hb
  rcases hb with rfl | rfl | rfl | rfl | rfl | rfl | rfl | rfl | rfl | rfl
  · exact i1Block_next
  · exact i2Block_next
  · exact i3Block_next
  · exact k1Block_next
  · exact k2Block_next
  · exact k3Block_next
  · exact e1Block_next
  · exact eBlock_next
  · exact p1Block_next
  · exact p2Block_next cosQ sinQ

/-- A frame is a function of the previous state and the first 128 clock
readings: two read streams that agree there produce identical frames
(state and draw calls alike). -/
theorem renderFrameM_local (s : SeqState) (c c' : ℕ → ℚ)
    (h : ∀ j, j < 128 → c j = c' j) :
    renderFrameM cosQ sinQ s c = renderFrameM cosQ sinQ s c' := by
  have hlen : (blocks cosQ sinQ).length = 10 := rfl
  have hap : actorsPhase cosQ sinQ s c 0 = actorsPhase cosQ sinQ s c' 0 := by
    unfold actorsPhase
    exact runBlocks_local (blocks cosQ sinQ) (blocks_local cosQ sinQ)
      (blocks_next cosQ sinQ) s c c' 0
      (fun j _ hj2 => h j (by rw [hlen] at hj2; omega))
  have hk := runBlocks_next (blocks cosQ sinQ) (blocks_next cosQ sinQ) s c' 0
  have hk2 : (actorsPhase cosQ sinQ s c' 0).2.2 ≤ 100 := by
    have := hk.2
    rw [hlen] at this
    simpa using this
  rw [renderFrameM_eq, renderFrameM_eq, hap]
  rw [h (actorsPhase cosQ sinQ s c' 0).2.2 (by omega)]
  rw [gatePhase_local _ c c' _ (h _ (by omega)) (h _ (by omega))]


/-- Claim C1: for every actor of the twelve, once its completion flag is set,
its position variables and trail phase-reference stay constant across any
following frame with no RESET between (flag survival of the frame encodes
exactly that no RESET ran, since only the RESET ever clears a flag). -/
theorem c1_completed_actor_frozen (cosQ sinQ : ℚ → ℚ) (s : SeqState)
    (hreach : Reachable cosQ sinQ s) (i : Fin 12) (c : ℕ → ℚ)
    (hflag : flagAt s i = true)
    (hsurv : flagAt (renderFrameM cosQ sinQ s c).1 i = true) :
    actorPos cosQ sinQ (renderFrameM cosQ sinQ s c).1 i =
        actorPos cosQ sinQ s i ∧
      actorRef (renderFrameM cosQ sinQ s c).1 i = actorRef s i := by
  obtain ⟨g0, g1, g2, g3, g4, g5, g6, g7, g8, g9, g10, g11,
    _, _, _, _, _⟩ := reachable_inv cosQ sinQ s hreach
  have hfin : (renderFrameM cosQ sinQ s c).1 =
      gatePhase {(actorsPhase cosQ sinQ s c 0).1 with
        pretime := c (actorsPhase cosQ sinQ s c 0).2.2} c
        ((actorsPhase cosQ sinQ s c 0).2.2 + 1) := rfl
  rw [hfin] at hsurv ⊢
  fin_cases i
  · have hc := g0 hflag
    have hv := actorsPhase_frozen_viewI1 cosQ sinQ s c 0 hc
    have h1 : (actorsPhase cosQ sinQ s c 0).1.I1 = s.I1 := congrArg Prod.fst hv
    have h2 : (actorsPhase cosQ sinQ s c 0).1.i1_r = s.i1_r := congrArg Prod.snd hv
    rcases gatePhase_cases {(actorsPhase cosQ sinQ s c 0).1 with
        pretime := c (actorsPhase cosQ sinQ s c 0).2.2} c
        ((actorsPhase cosQ sinQ s c 0).2.2 + 1) with hg | hg | hg | hg
    · rw [hg]
      refine ⟨?_, h2⟩
      show (((actorsPhase cosQ sinQ s c 0).1.I1, (1.5 : ℚ)) : ℚ × ℚ) = (s.I1, 1.5)
      rw [h1]
    · rw [hg]
      refine ⟨?_, h2⟩
      show (((actorsPhase cosQ sinQ s c 0).1.I1, (1.5 : ℚ)) : ℚ × ℚ) = (s.I1, 1.5)
      rw [h1]
    · rw [hg] at hsurv
      exact absurd hsurv (not_flag_resetS _ _)
    · rw [hg] at hsurv
      exact absurd hsurv (not_flag_resetS _ _)
  · have hc := g1 hflag
    have hv := actorsPhase_frozen_viewI2 cosQ sinQ s c 0 hc
    have h1 : (actorsPhase cosQ sinQ s c 0).1.I2 = s.I2 := congrArg Prod.fst hv
    have h2 : (actorsPhase cosQ sinQ s c 0).1.i2_r = s.i2_r := congrArg Prod.snd hv
    rcases gatePhase_cases {(actorsPhase cosQ sinQ s c 0).1 with
        pretime := c (actorsPhase cosQ sinQ s c 0).2.2} c
        ((actorsPhase cosQ sinQ s c 0).2.2 + 1) with hg | hg | hg | hg
    · rw [hg]
      refine ⟨?_, h2⟩
      show ((((-2.5) : ℚ), (actorsPhase cosQ sinQ s c 0).1.I2) : ℚ × ℚ) = (-2.5, s.I2)
      rw [h1]
    · rw [hg]
      refine ⟨?_, h2⟩
      show ((((-2.5) : ℚ), (actorsPhase cosQ sinQ s c 0).1.I2) : ℚ × ℚ) = (-2.5, s.I2)
      rw [h1]
    · rw [hg] at hsurv
      exact absurd hsurv (not_flag_resetS _ _)
    · rw [hg] at hsurv
      exact absurd hsurv (not_flag_resetS _ _)
  · have hc := g2 hflag
    have hv := actorsPhase_frozen_viewI3 cosQ sinQ s c 0 hc
    have h1 : (actorsPhase cosQ sinQ s c 0).1.I3 = s.I3 := congrArg Prod.fst hv
    have h2 : (actorsPhase cosQ sinQ s c 0).1.i3_r = s.i3_r := congrArg Prod.snd hv
    rcases gatePhase_cases {(actorsPhase cosQ sinQ s c 0).1 with
        pretime := c (actorsPhase cosQ sinQ s c 0).2.2} c
        ((actorsPhase cosQ sinQ s c 0).2.2 + 1) with hg | hg | hg | hg
    · rw [hg]
      refine ⟨?_, h2⟩
      show (((actorsPhase cosQ sinQ s c 0).1.I3, ((-1.5) : ℚ)) : ℚ × ℚ) = (s.I3, -1.5)
      rw [h1]
    · rw [hg]
      refine ⟨?_, h2⟩
      show (((actorsPhase cosQ sinQ s c 0).1.I3, ((-1.5) : ℚ)) : ℚ × ℚ) = (s.I3, -1.5)
      rw [h1]
    · rw [hg] at hsurv
      exact absurd hsurv (not_flag_resetS _ _)
    · rw [hg] at hsurv
      exact absurd hsurv (not_flag_resetS _ _)
  · have hc := g3 hflag
    have hv := actorsPhase_frozen_viewK1 cosQ sinQ s c 0 hc
    have h1 : (actorsPhase cosQ sinQ s c 0).1.K1 = s.K1 := congrArg Prod.fst hv
    have h2 : (actorsPhase cosQ sinQ s c 0).1.k1_r = s.k1_r := congrArg Prod.snd hv
    rcases gatePhase_cases {(actorsPhase cosQ sinQ s c 0).1 with
        pretime := c (actorsPhase cosQ sinQ s c 0).2.2} c
        ((actorsPhase cosQ sinQ s c 0).2.2 + 1) with hg | hg | hg | hg
    · rw [hg]
      refine ⟨?_, h2⟩
      show ((((-1.3) : ℚ), (actorsPhase cosQ sinQ s c 0).1.K1) : ℚ × ℚ) = (-1.3, s.K1)
      rw [h1]
    · rw [hg]
      refine ⟨?_, h2⟩
      show ((((-1.3) : ℚ), (actorsPhase cosQ sinQ s c 0).1.K1) : ℚ × ℚ) = (-1.3, s.K1)
      rw [h1]
    · rw [hg] at hsurv
      exact absurd hsurv (not_flag_resetS _ _)
    · rw [hg] at hsurv
      exact absurd hsurv (not_flag_resetS _ _)
  · have hc := g4 hflag
    have hv := actorsPhase_frozen_viewK2 cosQ sinQ s c 0 hc
    have h1 : (actorsPhase cosQ sinQ s c 0).1.k2X = s.k2X := congrArg Prod.fst hv
    have hy : (actorsPhase cosQ sinQ s c 0).1.k2Y = s.k2Y := congrArg (fun v => v.2.1) hv
    have h2 : (actorsPhase cosQ sinQ s c 0).1.k2_r = s.k2_r := congrArg (fun v => v.2.2) hv
    rcases gatePhase_cases {(actorsPhase cosQ sinQ s c 0).1 with
        pretime := c (actorsPhase cosQ sinQ s c 0).2.2} c
        ((actorsPhase cosQ sinQ s c 0).2.2 + 1) with hg | hg | hg | hg
    · rw [hg]
      refine ⟨?_, h2⟩
      show (((actorsPhase cosQ sinQ s c 0).1.k2X, (actorsPhase cosQ sinQ s c 0).1.k2Y) : ℚ × ℚ) = (s.k2X, s.k2Y)
      rw [h1, hy]
    · rw [hg]
      refine ⟨?_, h2⟩
      show (((actorsPhase cosQ sinQ s c 0).1.k2X, (actorsPhase cosQ sinQ s c 0).1.k2Y) : ℚ × ℚ) = (s.k2X, s.k2Y)
      rw [h1, hy]
    · rw [hg] at hsurv
      exact absurd hsurv (not_flag_resetS _ _)
    · rw [hg] at hsurv
      exact absurd hsurv (not_flag_resetS _ _)
  · have hc := g5 hflag
    have hv := actorsPhase_frozen_viewK3 cosQ sinQ s c 0 hc
    have h1 : (actorsPhase cosQ sinQ s c 0).1.k3X = s.k3X := congrArg Prod.fst hv
    have hy : (actorsPhase cosQ sinQ s c 0).1.k3Y = s.k3Y := congrArg (fun v => v.2.1) hv
    have h2 : (actorsPhase cosQ sinQ s c 0).1.k3_r = s.k3_r := congrArg (fun v => v.2.2) hv
    rcases gatePhase_cases {(actorsPhase cosQ sinQ s c 0).1 with
        pretime := c (actorsPhase cosQ sinQ s c 0).2.2} c
        ((actorsPhase cosQ sinQ s c 0).2.2 + 1) with hg | hg | hg | hg
    · rw [hg]
      refine ⟨?_, h2⟩
      show (((actorsPhase cosQ sinQ s c 0).1.k3X, (actorsPhase cosQ sinQ s c 0).1.k3Y) : ℚ × ℚ) = (s.k3X, s.k3Y)
      rw [h1, hy]
    · rw [hg]
      refine ⟨?_, h2⟩
      show (((actorsPhase cosQ sinQ s c 0).1.k3X, (actorsPhase cosQ sinQ s c 0).1.k3Y) : ℚ × ℚ) = (s.k3X, s.k3Y)
      rw [h1, hy]
    · rw [hg] at hsurv
      exact absurd hsurv (not_flag_resetS _ _)
    · rw [hg] at hsurv
      exact absurd hsurv (not_flag_resetS _ _)
  · have hc := g6 hflag
    have hv := actorsPhase_frozen_viewE1 cosQ sinQ s c 0 hc
    have h1 : (actorsPhase cosQ sinQ s c 0).1.e1 = s.e1 := congrArg Prod.fst hv
    have h2 : (actorsPhase cosQ sinQ s c 0).1.e1_r = s.e1_r := congrArg Prod.snd hv
    rcases gatePhase_cases {(actorsPhase cosQ sinQ s c 0).1 with
        pretime := c (actorsPhase cosQ sinQ s c 0).2.2} c
        ((actorsPhase cosQ sinQ s c 0).2.2 + 1) with hg | hg | hg | hg
    · rw [hg]
      refine ⟨?_, h2⟩
      show (((0.5 : ℚ), (actorsPhase cosQ sinQ s c 0).1.e1) : ℚ × ℚ) = (0.5, s.e1)
      rw [h1]
    · rw [hg]
      refine ⟨?_, h2⟩
      show (((0.5 : ℚ), (actorsPhase cosQ sinQ s c 0).1.e1) : ℚ × ℚ) = (0.5, s.e1)
      rw [h1]
    · rw [hg] at hsurv
      exact absurd hsurv (not_flag_resetS _ _)
    · rw [hg] at hsurv
      exact absurd hsurv (not_flag_resetS _ _)
  · have hc := g7 hflag
    have hv := actorsPhase_frozen_viewE cosQ sinQ s c 0 hc
    have h1 : (actorsPhase cosQ sinQ s c 0).1.e234 = s.e234 := congrArg Prod.fst hv
    have h2 : (actorsPhase cosQ sinQ s c 0).1.e2_r = s.e2_r := congrArg (fun v => v.2.1) hv
    rcases gatePhase_cases {(actorsPhase cosQ sinQ s c 0).1 with
        pretime := c (actorsPhase cosQ sinQ s c 0).2.2} c
        ((actorsPhase cosQ sinQ s c 0).2.2 + 1) with hg | hg | hg | hg
    · rw [hg]
      refine ⟨?_, h2⟩
      show (((actorsPhase cosQ sinQ s c 0).1.e234, (1.5 : ℚ)) : ℚ × ℚ) = (s.e234, 1.5)
      rw [h1]
    · rw [hg]
      refine ⟨?_, h2⟩
      show (((actorsPhase cosQ sinQ s c 0).1.e234, (1.5 : ℚ)) : ℚ × ℚ) = (s.e234, 1.5)
      rw [h1]
    · rw [hg] at hsurv
      exact absurd hsurv (not_flag_resetS _ _)
    · rw [hg] at hsurv
      exact absurd hsurv (not_flag_resetS _ _)
  · have hc := g8 hflag
    have hv := actorsPhase_frozen_viewE cosQ sinQ s c 0 hc
    have h1 : (actorsPhase cosQ sinQ s c 0).1.e234 = s.e234 := congrArg Prod.fst hv
    have h2 : (actorsPhase cosQ sinQ s c 0).1.e3_r = s.e3_r := congrArg (fun v => v.2.2.1) hv
    rcases gatePhase_cases {(actorsPhase cosQ sinQ s c 0).1 with
        pretime := c (actorsPhase cosQ sinQ s c 0).2.2} c
        ((actorsPhase cosQ sinQ s c 0).2.2 + 1) with hg | hg | hg | hg
    · rw [hg]
      refine ⟨?_, h2⟩
      show (((actorsPhase cosQ sinQ s c 0).1.e234, (0 : ℚ)) : ℚ × ℚ) = (s.e234, 0)
      rw [h1]
    · rw [hg]
      refine ⟨?_, h2⟩
      show (((actorsPhase cosQ sinQ s c 0).1.e234, (0 : ℚ)) : ℚ × ℚ) = (s.e234, 0)
      rw [h1]
    · rw [hg] at hsurv
      exact absurd hsurv (not_flag_resetS _ _)
    · rw [hg] at hsurv
      exact absurd hsurv (not_flag_resetS _ _)
  · have hc := g9 hflag
    have hv := actorsPhase_frozen_viewE cosQ sinQ s c 0 hc
    have h1 : (actorsPhase cosQ sinQ s c 0).1.e234 = s.e234 := congrArg Prod.fst hv
    have h2 : (actorsPhase cosQ sinQ s c 0).1.e4_r = s.e4_r := congrArg (fun v => v.2.2.2) hv
    rcases gatePhase_cases {(actorsPhase cosQ sinQ s c 0).1 with
        pretime := c (actorsPhase cosQ sinQ s c 0).2.2} c
        ((actorsPhase cosQ sinQ s c 0).2.2 + 1) with hg | hg | hg | hg
    · rw [hg]
      refine ⟨?_, h2⟩
      show (((actorsPhase cosQ sinQ s c 0).1.e234, ((-1.5) : ℚ)) : ℚ × ℚ) = (s.e234, -1.5)
      rw [h1]
    · rw [hg]
      refine ⟨?_, h2⟩
      show (((actorsPhase cosQ sinQ s c 0).1.e234, ((-1.5) : ℚ)) : ℚ × ℚ) = (s.e234, -1.5)
      rw [h1]
    · rw [hg] at hsurv
      exact absurd hsurv (not_flag_resetS _ _)
    · rw [hg] at hsurv
      exact absurd hsurv (not_flag_resetS _ _)
  · have hc := g10 hflag
    have hv := actorsPhase_frozen_viewP1 cosQ sinQ s c 0 hc
    have h1 : (actorsPhase cosQ sinQ s c 0).1.p1 = s.p1 := congrArg Prod.fst hv
    have h2 : (actorsPhase cosQ sinQ s c 0).1.p1_r = s.p1_r := congrArg Prod.snd hv
    rcases gatePhase_cases {(actorsPhase cosQ sinQ s c 0).1 with
        pretime := c (actorsPhase cosQ sinQ s c 0).2.2} c
        ((actorsPhase cosQ sinQ s c 0).2.2 + 1) with hg | hg | hg | hg
    · rw [hg]
      refine ⟨?_, h2⟩
      show (((2.3 : ℚ), (actorsPhase cosQ sinQ s c 0).1.p1) : ℚ × ℚ) = (2.3, s.p1)
      rw [h1]
    · rw [hg]
      refine ⟨?_, h2⟩
      show (((2.3 : ℚ), (actorsPhase cosQ sinQ s c 0).1.p1) : ℚ × ℚ) = (2.3, s.p1)
      rw [h1]
    · rw [hg] at hsurv
      exact absurd hsurv (not_flag_resetS _ _)
    · rw [hg] at hsurv
      exact absurd hsurv (not_flag_resetS _ _)
  · have hc := g11 hflag
    have hv := actorsPhase_frozen_viewP2 cosQ sinQ s c 0 hc
    have h1 : (actorsPhase cosQ sinQ s c 0).1.p2 = s.p2 := congrArg Prod.fst hv
    have h2 : (actorsPhase cosQ sinQ s c 0).1.p2_r = s.p2_r := congrArg Prod.snd hv
    rcases gatePhase_cases {(actorsPhase cosQ sinQ s c 0).1 with
        pretime := c (actorsPhase cosQ sinQ s c 0).2.2} c
        ((actorsPhase cosQ sinQ s c 0).2.2 + 1) with hg | hg | hg | hg
    · rw [hg]
      refine ⟨?_, h2⟩
      show ((0.85 * cosQ (actorsPhase cosQ sinQ s c 0).1.p2 + 2.3, 0.85 * sinQ (actorsPhase cosQ sinQ s c 0).1.p2 + 0.75) : ℚ × ℚ) = (0.85 * cosQ s.p2 + 2.3, 0.85 * sinQ s.p2 + 0.75)
      rw [h1]
    · rw [hg]
      refine ⟨?_, h2⟩
      show ((0.85 * cosQ (actorsPhase cosQ sinQ s c 0).1.p2 + 2.3, 0.85 * sinQ (actorsPhase cosQ sinQ s c 0).1.p2 + 0.75) : ℚ × ℚ) = (0.85 * cosQ s.p2 + 2.3, 0.85 * sinQ s.p2 + 0.75)
      rw [h1]
    · rw [hg] at hsurv
      exact absurd hsurv (not_flag_resetS _ _)
    · rw [hg] at hsurv
      exact absurd hsurv (not_flag_resetS _ _)

set_option maxRecDepth 100000

/-- Witness for C1: actor 1, completed on frame 2 of a concrete run, keeps
its position and phase reference across frame 3. -/
theorem c1_witness :
    actorPos cosQ0 sinQ0 (renderFrameM cosQ0 sinQ0 wiB (fun _ => 1000002)).1 1 =
        actorPos cosQ0 sinQ0 wiB 1 ∧
      actorRef (renderFrameM cosQ0 sinQ0 wiB (fun _ => 1000002)).1 1 =
        actorRef wiB 1 :=
  c1_completed_actor_frozen cosQ0 sinQ0 wiB
    (Reachable.step (Reachable.step (Reachable.init 0) (fun _ => 1000000))
      (fun _ => 1000001))
    1 (fun _ => 1000002) (by with_unfolding_all decide) (by with_unfolding_all decide)

/-- Counterexample to C2: a concrete full cycle RUNNING (frame at
1000000 ms: every actor travels past its mark) → HOLDING (frame at
1000001 ms: all twelve flags set, hold latched at 1000001) → RESET (frame at
1006002 ms, 5001 ms into the hold).  The post-reset state is the initial
state rebuilt at pretime 1006002 — except that `endTime` still holds the
latched hold-start 1000001, while the documented initial `endTime` is 0, so
the cycle is not a round trip to the initial state. -/
theorem c2_counterexample :
    wiB.endGet = true ∧ wiB.endTime = 1000001 ∧ (initState 0).endTime = 0 ∧
      renderStep cosQ0 sinQ0 wiB 1006002 =
        {initState 1006002 with endTime := 1000001} ∧
      ¬ ({initState 1006002 with endTime := 1000001} : SeqState) =
          initState 0 := by
  have hallB : 12 ≤ countComplete
      (actorsPhase cosQ0 sinQ0 wiA (fun _ => 1000001) 0).1.compFlag := by
    with_unfolding_all decide
  have htB := actorsPhase_time cosQ0 sinQ0 wiA (fun _ => 1000001) 0
  have hgB : ({(actorsPhase cosQ0 sinQ0 wiA (fun _ => 1000001) 0).1 with
      pretime := (1000001 : ℚ)} : SeqState).endGet = false := by
    show (actorsPhase cosQ0 sinQ0 wiA (fun _ => 1000001) 0).1.endGet = false
    rw [htB.2.2]
    with_unfolding_all decide
  have hfrB : wiB =
      gatePhase {(actorsPhase cosQ0 sinQ0 wiA (fun _ => 1000001) 0).1 with
        pretime := (1000001 : ℚ)} (fun _ => 1000001)
        ((actorsPhase cosQ0 sinQ0 wiA (fun _ => 1000001) 0).2.2 + 1) := rfl
  have hlatch := gatePhase_latch
      {(actorsPhase cosQ0 sinQ0 wiA (fun _ => 1000001) 0).1 with
        pretime := (1000001 : ℚ)} 1000001
      ((actorsPhase cosQ0 sinQ0 wiA (fun _ => 1000001) 0).2.2 + 1) hallB hgB
  have hwbE : wiB =
      {({(actorsPhase cosQ0 sinQ0 wiA (fun _ => 1000001) 0).1 with
        pretime := (1000001 : ℚ)} : SeqState) with
        endTime := 1000001, endGet := true} := by
    rw [hfrB, hlatch]
  have hwbG : wiB.endGet = true := by rw [hwbE]
  have hwbT : wiB.endTime = 1000001 := by rw [hwbE]
  have ht := actorsPhase_time cosQ0 sinQ0 wiB (fun _ => 1006002) 0
  have hall : 12 ≤ countComplete
      (actorsPhase cosQ0 sinQ0 wiB (fun _ => 1006002) 0).1.compFlag := by
    with_unfolding_all decide
  have hgE : ({(actorsPhase cosQ0 sinQ0 wiB (fun _ => 1006002) 0).1 with
      pretime := (1006002 : ℚ)} : SeqState).endGet = true := by
    show (actorsPhase cosQ0 sinQ0 wiB (fun _ => 1006002) 0).1.endGet = true
    rw [ht.2.2, hwbG]
  have hgT : ({(actorsPhase cosQ0 sinQ0 wiB (fun _ => 1006002) 0).1 with
      pretime := (1006002 : ℚ)} : SeqState).endTime = 1000001 := by
    show (actorsPhase cosQ0 sinQ0 wiB (fun _ => 1006002) 0).1.endTime = 1000001
    rw [ht.2.1, hwbT]
  have hreset : gateResets
      {(actorsPhase cosQ0 sinQ0 wiB (fun _ => 1006002) 0).1 with
        pretime := (1006002 : ℚ)} 1006002 := by
    refine ⟨hall, ?_⟩
    rw [if_pos hgE, hgT]
    norm_num
  have hfr : renderStep cosQ0 sinQ0 wiB 1006002 =
      gatePhase {(actorsPhase cosQ0 sinQ0 wiB (fun _ => 1006002) 0).1 with
        pretime := (1006002 : ℚ)} (fun _ => 1006002)
        ((actorsPhase cosQ0 sinQ0 wiB (fun _ => 1006002) 0).2.2 + 1) := rfl
  refine ⟨hwbG, hwbT, by with_unfolding_all decide, ?_, ?_⟩
  · rw [hfr, gatePhase_resets _ _ _ hreset, resetS_eq, hgT]
  · intro h
    have h2 := congrArg SeqState.endTime h
    exact absurd (show (1000001 : ℚ) = 0 from h2) (by norm_num)

/-- Claim C2 (amended): when the gate resets, the new state is exactly the
initial state rebuilt at the current `pretime`, except that `endTime` keeps
the latched hold-start.  In particular every actor position and phase
reference is back at its initial constant, the twelve flags are false, the
1000 trail entries are zeroed with the cursor at 0 and the hold latch is
clear — but the cycle is not a round trip of the whole state, because
`endTime` (and `pretime`) survive. -/
theorem c2_reset_keeps_hold_time (s : SeqState) (now : ℚ) (k : ℕ)
    (h : gateResets s now) :
    gatePhase s (fun _ => now) k =
      {initState s.pretime with endTime := s.endTime} := by
  rw [gatePhase_resets s now k h, resetS_eq]

/-- Witness for C2 (amended): a concrete holding state resets at 7000 ms. -/
theorem c2_witness :
    gatePhase holdState (fun _ => 7000) 0 =
      {initState holdState.pretime with endTime := holdState.endTime} :=
  c2_reset_keeps_hold_time holdState 7000 0 (by with_unfolding_all decide)

/-- Claim C3: the hold-start time is captured exactly once per cycle and the
reset never fires early.  (a) Once the latch is set, a whole frame never
changes `endTime`, so it is not re-captured.  (b) On the first frame with
all twelve flags set and the latch still clear, the gate latches
`endTime = now` and does not reset on that same frame.  (c) A reset can only
fire with the latch already set and `now - endTime` strictly above 5000 ms.
(d) Whenever the reset condition fails, the gate leaves the state alone or
performs the one-time latch — never a reset. -/
theorem c3_hold_capture_and_reset_timing (cosQ sinQ : ℚ → ℚ) :
    (∀ (s : SeqState) (now : ℚ), s.endGet = true →
        (renderStep cosQ sinQ s now).endTime = s.endTime) ∧
      (∀ (s : SeqState) (now : ℚ) (k : ℕ), s.endGet = false →
        12 ≤ countComplete s.compFlag →
        gatePhase s (fun _ => now) k =
          {s with endTime := now, endGet := true}) ∧
      (∀ (s : SeqState) (now : ℚ), gateResets s now →
        s.endGet = true ∧ 1000 * 5 < now - s.endTime) ∧
      (∀ (s : SeqState) (now : ℚ) (k : ℕ), ¬ gateResets s now →
        gatePhase s (fun _ => now) k = s ∨
          gatePhase s (fun _ => now) k =
            {s with endTime := now, endGet := true}) := by
  refine ⟨?_, ?_, ?_, ?_⟩
  · intro s now hg
    have ht := actorsPhase_time cosQ sinQ s (fun _ => now) 0
    have hg2 : ({(actorsPhase cosQ sinQ s (fun _ => now) 0).1 with
        pretime := now} : SeqState).endGet = true := by
      show (actorsPhase cosQ sinQ s (fun _ => now) 0).1.endGet = true
      rw [ht.2.2]
      exact hg
    have hfin : (renderStep cosQ sinQ s now).endTime =
        (gatePhase {(actorsPhase cosQ sinQ s (fun _ => now) 0).1 with
          pretime := now} (fun _ => now)
          ((actorsPhase cosQ sinQ s (fun _ => now) 0).2.2 + 1)).endTime := rfl
    rw [hfin, gatePhase_endTime_of_endGet _ _ _ hg2]
    exact ht.2.1
  · intro s now k hg hall
    exact gatePhase_latch s now k hall hg
  · intro s now h
    exact gateResets_endGet s now h
  · intro s now k h
    exact gatePhase_no_reset s now k h

/-- Witness for C3: a concrete holding state.  Once latched, a frame at
7000 ms keeps `endTime`; the un-latched variant captures 7000 exactly; the
reset condition at 7000 ms implies the latch and the expired hold; at
5500 ms (4500 ms into the hold) the gate does not reset. -/
theorem c3_witness :
    (renderStep cosQ0 sinQ0 holdState 7000).endTime = holdState.endTime ∧
      gatePhase holdState0 (fun _ => 7000) 0 =
        {holdState0 with endTime := 7000, endGet := true} ∧
      (holdState.endGet = true ∧ 1000 * 5 < 7000 - holdState.endTime) ∧
      (gatePhase holdState (fun _ => 5500) 0 = holdState ∨
        gatePhase holdState (fun _ => 5500) 0 =
          {holdState with endTime := 5500, endGet := true}) :=
  ⟨(c3_hold_capture_and_reset_timing cosQ0 sinQ0).1 holdState 7000 (by with_unfolding_all decide),
   (c3_hold_capture_and_reset_timing cosQ0 sinQ0).2.1 holdState0 7000 0
     (by with_unfolding_all decide) (by with_unfolding_all decide),
   (c3_hold_capture_and_reset_timing cosQ0 sinQ0).2.2.1 holdState 7000
     (by with_unfolding_all decide),
   (c3_hold_capture_and_reset_timing cosQ0 sinQ0).2.2.2 holdState 5500 0
     (by with_unfolding_all decide)⟩

/-- Counterexample to C4: frames at 1100, 2200, 3300, 3301 ms from startup at
0 ms.  After the 2200 ms frame the position is exactly -1.9 (the first frame
at which it reaches -1.9), yet `completed[0]` is still false; it is still
false after the 3300 ms frame (entered with position -1.9, which still
satisfies `I1 <= -1.9`, so the actor moves once more to -1.35), and only
flips on the 3301 ms frame — two frames after the position first reached
-1.9. -/
theorem c4_counterexample :
    runT2.I1 = -1.9 ∧ flagAt runT2 0 = false ∧
      runT3.I1 = -1.35 ∧ flagAt runT3 0 = false ∧
      flagAt runT4 0 = true := by
  refine ⟨?_, ?_, ?_, ?_, ?_⟩ <;> with_unfolding_all decide

/-- Claim C4 (amended): actor 0 integrates 0.5 units per 1000 ms from -3, so
along any monotone frame schedule that ends exactly 2200 ms after start its
position is -3 + 0.5*2.2 = -1.9 — but `completed[0]` does not flip on the
frame where the position first reaches -1.9: the flag stays false on every
frame entered with `I1 <= -1.9` (such a frame only moves the actor), and it
flips on the first frame entered with `I1 > -1.9`. -/
theorem c4_actor0_reaches_mark (cosQ sinQ : ℚ → ℚ) :
    (∀ (ts : List ℚ) (t0 : ℚ), List.Chain (· ≤ ·) t0 ts →
        (∀ t ∈ ts, t ≤ t0 + 2200) → ts.getLastD t0 = t0 + 2200 →
        (runFrames cosQ sinQ (initState t0) ts).I1 = -1.9 ∧
          flagAt (runFrames cosQ sinQ (initState t0) ts) 0 = false) ∧
      (∀ (s : SeqState) (now : ℚ), s.I1 ≤ -1.9 → flagAt s 0 = false →
        (renderStep cosQ sinQ s now).I1 =
            s.I1 + 0.5 * (now - s.pretime) / 1000 ∧
          flagAt (renderStep cosQ sinQ s now) 0 = false) ∧
      (∀ (s : SeqState) (now : ℚ), ¬ s.I1 ≤ -1.9 → flagAt s 0 = false →
        s.compFlag.length = 12 → s.endGet = false →
        flagAt (renderStep cosQ sinQ s now) 0 = true) := by
  refine ⟨?_, ?_, ?_⟩
  · intro ts t0 hchain hle hlast
    have h := runFrames_I1 cosQ sinQ ts (initState t0) t0 t0 hchain hle
      (by show (-3 : ℚ) = -3 + 0.5 * (t0 - t0) / 1000; ring) rfl
      (by show (List.replicate 12 false).getD 0 false = false
          exact getD_replicate_false 0)
      le_rfl
    refine ⟨?_, h.2.2⟩
    rw [h.1, hlast]
    ring
  · intro s now hc hf
    have h := renderStep_move0 cosQ sinQ s now hc hf
    exact ⟨h.1, h.2.2⟩
  · intro s now hc hf hlen hg
    exact renderStep_flip0 cosQ sinQ s now hc hf hlen hg

/-- Witness for C4 (amended): the schedule [1100, 2200] ends 2200 ms after
start and leaves the position at -1.9 with the flag still clear; a frame at
3300 ms entered at -1.9 keeps the flag clear; the frame at 3301 ms entered at
-1.35 flips it. -/
theorem c4_witness :
    ((runFrames cosQ0 sinQ0 (initState 0) [1100, 2200]).I1 = -1.9 ∧
        flagAt (runFrames cosQ0 sinQ0 (initState 0) [1100, 2200]) 0 = false) ∧
      ((renderStep cosQ0 sinQ0 runT2 3300).I1 =
          runT2.I1 + 0.5 * (3300 - runT2.pretime) / 1000 ∧
        flagAt (renderStep cosQ0 sinQ0 runT2 3300) 0 = false) ∧
      flagAt (renderStep cosQ0 sinQ0 runT3 3301) 0 = true :=
  ⟨(c4_actor0_reaches_mark cosQ0 sinQ0).1 [1100, 2200] 0
     (by norm_num [List.chain_cons])
     (by intro t ht; fin_cases ht <;> norm_num)
     (by rw [List.getLastD_cons, List.getLastD_cons, List.getLastD_nil]
         norm_num),
   (c4_actor0_reaches_mark cosQ0 sinQ0).2.1 runT2 3300 (by with_unfolding_all decide) (by with_unfolding_all decide),
   (c4_actor0_reaches_mark cosQ0 sinQ0).2.2 runT3 3301 (by with_unfolding_all decide) (by with_unfolding_all decide)
     (by with_unfolding_all decide) (by with_unfolding_all decide)⟩

/-- Counterexample to C5: the resize message with `lParam = 1280`
(width 1280, height 0) does not leave the stored aspect at its prior value
1.6 — the handler divides unconditionally, and width/0 with positive width
is the IEEE infinity. -/
theorem c5_counterexample :
    heightOf 1280 = 0 ∧ 0 < widthOf 1280 ∧
      ¬ wmSizeAspect 1280 (FloatVal.fin 1.6) = FloatVal.fin 1.6 ∧
      wmSizeAspect 1280 (FloatVal.fin 1.6) = FloatVal.inf := by
  refine ⟨?_, ?_, ?_, ?_⟩ <;> with_unfolding_all decide

/-- Claim C5 (amended): the `WM_SIZE` handler has no guard — the stored
aspect after a zero-height resize never depends on the prior value, and is
overwritten with the IEEE quotient: +infinity for positive width, NaN for
width 0. -/
theorem c5_zero_height_overwrites_aspect (lp : ℕ) (prior prior2 : FloatVal)
    (h : heightOf lp = 0) :
    wmSizeAspect lp prior = wmSizeAspect lp prior2 ∧
      (0 < widthOf lp → wmSizeAspect lp prior = FloatVal.inf) ∧
      (widthOf lp = 0 → wmSizeAspect lp prior = FloatVal.nan) := by
  refine ⟨rfl, ?_, ?_⟩
  · intro hw
    unfold wmSizeAspect floatDiv
    rw [if_pos (by rw [h]; norm_num), if_neg (by exact_mod_cast Nat.ne_of_gt hw),
      if_pos (by exact_mod_cast hw)]
  · intro hw
    unfold wmSizeAspect floatDiv
    rw [if_pos (by rw [h]; norm_num), if_pos (by rw [hw]; norm_num)]

/-- Witness for C5 (amended): `lParam = 1280` encodes width 1280, height 0;
the handler stores +infinity whatever was there before. -/
theorem c5_witness :
    wmSizeAspect 1280 (FloatVal.fin 1.6) = wmSizeAspect 1280 FloatVal.nan ∧
      wmSizeAspect 1280 (FloatVal.fin 1.6) = FloatVal.inf :=
  ⟨(c5_zero_height_overwrites_aspect 1280 (FloatVal.fin 1.6) FloatVal.nan
      (by with_unfolding_all decide)).1,
   (c5_zero_height_overwrites_aspect 1280 (FloatVal.fin 1.6) FloatVal.nan
      (by with_unfolding_all decide)).2.1 (by with_unfolding_all decide)⟩

/-- Counterexample to C6: on the very first frame the quad draw calls number
five, not six — the source places five static quads (the sixth placement is
commented out), and the fresh trail contributes none. -/
theorem c6_counterexample :
    ((renderFrameM cosQ0 sinQ0 (initState 0) (fun _ => 0)).2.filter
        Draw.isQuad).length = 5 ∧
      ¬ ((renderFrameM cosQ0 sinQ0 (initState 0) (fun _ => 0)).2.filter
        Draw.isQuad).length = 6 := by
  have h : ((renderFrameM cosQ0 sinQ0 (initState 0) (fun _ => 0)).2.filter
      Draw.isQuad).length = 5 := by with_unfolding_all decide
  refine ⟨h, ?_⟩
  rw [h]
  norm_num

/-- Claim C6 (amended): on every frame, in every sequencer state, the draw
list is the five static decoration quads first, then the recorded trail
entries (quads, in insertion order), then the moving actors (all cuboids).
The static block has five quads, not six. -/
theorem c6_draw_order (cosQ sinQ : ℚ → ℚ) (s : SeqState) (c : ℕ → ℚ) :
    (renderFrameM cosQ sinQ s c).2 =
        staticDraws ++ trailDraws s ++ (actorsPhase cosQ sinQ s c 0).2.1 ∧
      staticDraws.length = 5 ∧
      (∀ d ∈ staticDraws, ∃ x y, d = Draw.quad x y 0) ∧
      (∀ d ∈ trailDraws s, ∃ x y r, d = Draw.quad x y r) ∧
      (∀ d ∈ (actorsPhase cosQ sinQ s c 0).2.1,
        ∃ x y r t, d = Draw.cuboid x y r t) := by
  refine ⟨rfl, rfl, ?_, ?_, actorsPhase_draws cosQ sinQ s c 0⟩
  · intro d hd
    simp only [staticDraws, List.mem_cons, List.not_mem_nil, or_false] at hd
    rcases hd with h | h | h | h | h <;> exact ⟨_, _, h⟩
  · intro d hd
    unfold trailDraws at hd
    obtain ⟨a, _, rfl⟩ := List.mem_map.mp hd
    exact ⟨_, _, _, rfl⟩

/-- Claim C7: the trail write cursor never exceeds the capacity 1000 on any
reachable state, and when the cursor has reached 1000 an entire actor phase
drops every emission: the cursor and the stored entries are unchanged, with
no error path. -/
theorem c7_trail_capacity (cosQ sinQ : ℚ → ℚ) :
    (∀ s : SeqState, Reachable cosQ sinQ s → s.index ≤ indexMax) ∧
      (∀ (s : SeqState) (c : ℕ → ℚ) (k : ℕ), indexMax ≤ s.index →
        (actorsPhase cosQ sinQ s c k).1.index = s.index ∧
          (actorsPhase cosQ sinQ s c k).1.squarePos = s.squarePos) := by
  constructor
  · intro s h
    exact (reachable_inv cosQ sinQ s h).2.2.2.2.2.2.2.2.2.2.2.2.1
  · intro s c k h
    exact actorsPhase_full cosQ sinQ s c k h

/-- Witness for C7: the startup state respects the bound, and an actor phase
run on a state whose cursor sits at the capacity leaves cursor and trail
untouched. -/
theorem c7_witness :
    (initState 0).index ≤ indexMax ∧
      ((actorsPhase cosQ0 sinQ0 fullState (fun _ => 0) 0).1.index =
          fullState.index ∧
        (actorsPhase cosQ0 sinQ0 fullState (fun _ => 0) 0).1.squarePos =
          fullState.squarePos) :=
  ⟨(c7_trail_capacity cosQ0 sinQ0).1 (initState 0) (Reachable.init 0),
   (c7_trail_capacity cosQ0 sinQ0).2 fullState (fun _ => 0) 0 (by decide)⟩

/-- Claim C8: at a firing emission site the block appends exactly one trail
entry (cursor +1), and rewrites the phase reference to `-now / 250`
(`+now / 250` for the reversed-spin actor 5); with the reference rewritten
that way, the truncated-integer test fails at any time in the same or the
following quarter period, so no second entry is appended for the same
crossing on immediately following frames. -/
theorem c8_emit_once_per_crossing :
    (∀ (s : SeqState) (c : ℕ → ℚ) (k : ℕ), s.I1 ≤ -1.9 →
        emitTestP s.i1_r (c (k + 2)) → s.index < indexMax →
        (i1Block s c k).1.index = s.index + 1 ∧
          (i1Block s c k).1.squarePos = s.squarePos.set s.index
            (s.I1 + 0.5 * (c (k + 1) - s.pretime) / 1000, 1.5, 0) ∧
          (i1Block s c k).1.i1_r = -(c (k + 3) / 250)) ∧
      (∀ t u : ℚ, ratTrunc (t / 250) ≤ ratTrunc (u / 250) →
        ratTrunc (u / 250) ≤ ratTrunc (t / 250) + 1 →
        ¬ emitTestP (-(t / 250)) u) ∧
      (∀ (s : SeqState) (c : ℕ → ℚ) (k : ℕ), s.k3X ≤ 0 →
        emitTestM s.k3_r (c (k + 3)) → s.index < indexMax →
        (k3Block s c k).1.index = s.index + 1 ∧
          (k3Block s c k).1.k3_r = c (k + 4) / 250) ∧
      (∀ t u : ℚ, ratTrunc (t / 250) ≤ ratTrunc (u / 250) →
        ratTrunc (u / 250) ≤ ratTrunc (t / 250) + 1 →
        ¬ emitTestM (t / 250) u) :=
  ⟨fun s c k hc ht hidx => i1Block_emit s c k hc ht hidx,
   fun t u hm h1 => emitTestP_suppress t u hm h1,
   fun s c k hc ht hidx => k3Block_emit s c k hc ht hidx,
   fun t u hm h1 => emitTestM_suppress t u hm h1⟩

/-- Witness for C8: at startup with every read returning 600 ms the test
fires for actor 0 (reference 0, `(int)(600/250) = 2 >= pi/2`) and for actor
5; one entry is appended by each; with the reference rewritten from 600 ms,
the test fails at 700 ms (same quarter period). -/
theorem c8_witness :
    (i1Block (initState 0) (fun _ => 600) 0).1.index = 1 ∧
      ¬ emitTestP (-((600 : ℚ) / 250)) 700 ∧
      (k3Block (initState 0) (fun _ => 600) 0).1.index = 1 ∧
      ¬ emitTestM ((600 : ℚ) / 250) 700 :=
  ⟨(c8_emit_once_per_crossing.1 (initState 0) (fun _ => 600) 0
      (by with_unfolding_all decide) (by with_unfolding_all decide)
      (by decide)).1,
   c8_emit_once_per_crossing.2.1 600 700 (by with_unfolding_all decide)
     (by with_unfolding_all decide),
   (c8_emit_once_per_crossing.2.2.1 (initState 0) (fun _ => 600) 0
      (by with_unfolding_all decide) (by with_unfolding_all decide)
      (by decide)).1,
   c8_emit_once_per_crossing.2.2.2 600 700 (by with_unfolding_all decide)
     (by with_unfolding_all decide)⟩

/-- Counterexample to C9: the code re-queries the clock at every use, so the
frame is not a function of the previous state and a single `now` reading.
The constant stream at 0 and the stream that returns 0 on the first read and
1000000 afterwards agree on the first read (a single `now = 0`), yet they
produce different states: actor 0 ends at -3 under the first and at 497
under the second (the actor blocks read the clock again for their deltas). -/
theorem c9_counterexample :
    clockJump 0 = (fun _ => (0 : ℚ)) 0 ∧
      (renderFrameM cosQ0 sinQ0 (initState 0) (fun _ => 0)).1.I1 = -3 ∧
      (renderFrameM cosQ0 sinQ0 (initState 0) clockJump).1.I1 = 497 ∧
      ¬ (renderFrameM cosQ0 sinQ0 (initState 0) clockJump).1 =
          (renderFrameM cosQ0 sinQ0 (initState 0) (fun _ => 0)).1 := by
  refine ⟨rfl, by with_unfolding_all decide, by with_unfolding_all decide, ?_⟩
  intro h
  have h2 := congrArg SeqState.I1 h
  rw [show (renderFrameM cosQ0 sinQ0 (initState 0) clockJump).1.I1 = 497 from
      by with_unfolding_all decide,
    show (renderFrameM cosQ0 sinQ0 (initState 0) (fun _ => 0)).1.I1 = -3 from
      by with_unfolding_all decide] at h2
  norm_num at h2

/-- Claim C9 (amended): the frame is a deterministic function of the
previous state and the per-frame clock-read stream: a frame makes at most
128 reads, and two frames from the same state whose read streams agree on
those reads produce identical states and draw lists.  (The claim's single
shared `now` is refuted separately: the code re-reads the clock per use.) -/
theorem c9_frame_determined_by_reads (cosQ sinQ : ℚ → ℚ) (s : SeqState)
    (c c2 : ℕ → ℚ) (h : ∀ j, j < 128 → c j = c2 j) :
    renderFrameM cosQ sinQ s c = renderFrameM cosQ sinQ s c2 :=
  renderFrameM_local cosQ sinQ s c c2 h

/-- Witness for C9 (amended): a constant stream at 5 and a stream that
differs only from read 200 on yield identical frames. -/
theorem c9_witness :
    renderFrameM cosQ0 sinQ0 (initState 0) (fun _ => 5) =
      renderFrameM cosQ0 sinQ0 (initState 0)
        (fun j => if j < 200 then 5 else 99) :=
  c9_frame_determined_by_reads cosQ0 sinQ0 (initState 0) (fun _ => 5)
    (fun j => if j < 200 then 5 else 99)
    (fun j hj => (if_pos (by omega : j < 200)).symm)

/-- Claim C10 (implicit): actors 7, 8 and 9 share the one position scalar
`e234` and the one terminal condition `e234 <= 1.8`, so (1) on every
reachable state `completed[7] = completed[8] = completed[9]`; (2) their
block's else-branch re-assigns all three flags true whenever it runs with
the condition failed (it has no one-time `!completed` guard, unlike the
other actors); and (3) the actor phase never clears a flag, so the three
flags keep their false-to-true monotonicity and flip together. -/
theorem c10_shared_e234_flags (cosQ sinQ : ℚ → ℚ) :
    (∀ s : SeqState, Reachable cosQ sinQ s →
        flagAt s 7 = flagAt s 8 ∧ flagAt s 8 = flagAt s 9) ∧
      (∀ (s : SeqState) (c : ℕ → ℚ) (k : ℕ), ¬ s.e234 ≤ 1.8 →
        9 < s.compFlag.length →
        flagAt (eBlock s c k).1 7 = true ∧
          flagAt (eBlock s c k).1 8 = true ∧
          flagAt (eBlock s c k).1 9 = true) ∧
      (∀ (s : SeqState) (c : ℕ → ℚ) (k : ℕ) (i : ℕ), flagAt s i = true →
        flagAt (actorsPhase cosQ sinQ s c k).1 i = true) := by
  refine ⟨?_, ?_, fun s c k i h => actorsPhase_flag_mono cosQ sinQ s c k i h⟩
  · intro s h
    obtain ⟨_, _, _, _, _, _, _, _, _, _, _, _, _, _, h78, h89, _⟩ :=
      reachable_inv cosQ sinQ s h
    exact ⟨h78, h89⟩
  · intro s c k hc hlen
    have hstop := (eBlock_stop s c k hc).1
    refine ⟨?_, ?_, ?_⟩
    · show (eBlock s c k).1.compFlag.getD 7 false = true
      rw [hstop]
      exact getD_set_true _ 9 7 (getD_set_true _ 8 7
        (getD_set_self s.compFlag 7 (by omega) true))
    · show (eBlock s c k).1.compFlag.getD 8 false = true
      rw [hstop]
      exact getD_set_true _ 9 8
        (getD_set_self (s.compFlag.set 7 true) 8
          (by rw [List.length_set]; omega) true)
    · show (eBlock s c k).1.compFlag.getD 9 false = true
      rw [hstop]
      exact getD_set_self ((s.compFlag.set 7 true).set 8 true) 9
        (by rw [List.length_set, List.length_set]; omega) true

/-- Witness for C10: the three flags are equal on a concrete reachable
state; the else-branch sets all three on a state past the mark; a set flag
survives a further actor phase. -/
theorem c10_witness :
    (flagAt wiB 7 = flagAt wiB 8 ∧ flagAt wiB 8 = flagAt wiB 9) ∧
      (flagAt (eBlock wiA (fun _ => 0) 0).1 7 = true ∧
        flagAt (eBlock wiA (fun _ => 0) 0).1 8 = true ∧
        flagAt (eBlock wiA (fun _ => 0) 0).1 9 = true) ∧
      flagAt (actorsPhase cosQ0 sinQ0 wiB (fun _ => 1000002) 0).1 3 = true :=
  ⟨(c10_shared_e234_flags cosQ0 sinQ0).1 wiB
     (Reachable.step (Reachable.step (Reachable.init 0) (fun _ => 1000000))
       (fun _ => 1000001)),
   (c10_shared_e234_flags cosQ0 sinQ0).2.1 wiA (fun _ => 0) 0
     (by with_unfolding_all decide) (by with_unfolding_all decide),
   (c10_shared_e234_flags cosQ0 sinQ0).2.2 wiB (fun _ => 1000002) 0 3
     (by with_unfolding_all decide)⟩

end PremitiveAnimation
